import Mathlib

/-!
# Service-worker cache manager (`sw.js`)

A shallow embedding of the request-handling code of `sw.js`: rule selection,
the caching strategies, the write path (`cacheResponse`, `limitCacheSize`),
the offline fallback, the `install`, `activate` and `fetch` listeners, and the
background sync of queued forms (`syncContactForm`).

Modelling conventions.

* An `async` function is a state transformer over a `World` (the persisted
  named caches and the log of network calls) that either resolves with a
  value or rejects with a `JsError`; `await` is sequencing.  A call is run on
  its own, so the `World` a function returns is the one reached once every
  promise it started has settled, a fire-and-forget promise included.
* The Cache API, `fetch` and the clock are the environment (`Env`).  A cache
  keeps its entries in insertion order, `put` replaces the entry of the same
  URL and appends the new one, `keys` lists in that order.  Every cache
  operation may be made to reject (`Env.fails`).  The checks the platform
  makes on a response are in force when `Env.checks` is set: `new Response`
  throws a `RangeError` for a status outside 200-599, and `cache.put` rejects
  with a `TypeError` for a request that is not a GET over http(s) and for a
  response of status 206 or with `Vary: *`.
  `Env.healthy` is the environment whose store never rejects, these checks
  left out; `Env.browser` is the environment whose operations never fail, the
  checks in force.  Theorems stated for an arbitrary `Env` cover both, and a
  store whose operations reject.  The clock reads the same instant `Env.now`
  throughout one call; successive calls are given their own clocks.
* A listener is the promise it hands to `event.waitUntil`: the step it stands
  for (install, activation) fails exactly when that promise rejects.  Logging
  and messages to clients change nothing in a `World`.
* The background sync works on a state of its own (`SyncWorld`): the object
  store of queued forms, the records posted and the clients notified.
* The value of a `sw-cache-date` header written by the worker is the string
  `new Date(ms).toISOString()`, which is exact to the millisecond and is read
  back by `new Date(s).getTime()`; it is represented by `ms` itself.
-/

set_option autoImplicit false

namespace ServiceWorker

/-! ## Constants (sw.js 6-17) -/

def CACHE_NAME : String := "rolex-batteries-v1.0.0"
def STATIC_CACHE_NAME : String := "rolex-batteries-static-v1.0.0"
def DYNAMIC_CACHE_NAME : String := "rolex-batteries-dynamic-v1.0.0"

def CACHE_FIRST : String := "cache-first"
def NETWORK_FIRST : String := "network-first"
def STALE_WHILE_REVALIDATE : String := "stale-while-revalidate"
def NETWORK_ONLY : String := "network-only"
def CACHE_ONLY : String := "cache-only"

/-! ## Data model -/

/-- One element of `CACHE_RULES`. `pattern` is the `test` method of the rule's
regular expression; a missing `maxAge` / `maxEntries` property is `none`. -/
structure Rule where
  pattern : String → Bool
  strategy : String
  maxAge : Option Nat
  maxEntries : Option Nat

/-- The value of a response header. `isoDate ms` is the string
`new Date(ms).toISOString()`; `text s t` is any other string `s`, with `t` the
number `new Date(s).getTime()` (`none` for `NaN`). -/
inductive HeaderValue where
  | isoDate (ms : Nat)
  | text (s : String) (t : Option Int)
deriving DecidableEq, Repr

/-- A `Response`: status, status text, headers (lower-case names) and body. -/
structure Response where
  status : Nat
  statusText : String
  headers : List (String × HeaderValue)
  body : String
deriving DecidableEq, Repr

/-- The getter `response.ok`: the status is in the range 200-299. -/
def Response.ok (r : Response) : Bool := decide (200 ≤ r.status) && decide (r.status ≤ 299)

/-- A `Request`. `pathname` is `new URL(request.url).pathname`. -/
structure Request where
  url : String
  pathname : String
  method : String
  mode : String
  destination : String
deriving DecidableEq, Repr

/-- The operations of the Cache API the worker calls. -/
inductive StoreOp where
  | cachesOpen
  | cacheMatch
  | cachePut
  | cacheKeys
  | cacheDelete
deriving DecidableEq, Repr

/-- What a promise rejects with: a failed `fetch`, a failed cache operation,
or `new Error(message)` thrown by the worker. -/
inductive JsError where
  | network (message : String)
  | storage (op : StoreOp)
  | error (message : String)
deriving DecidableEq, Repr

/-- One named cache: its entries (request URL, stored response) in insertion order. -/
abbrev Cache := List (String × Response)

/-- The state outside the worker's code: the named caches of `caches`, in
creation order, and the requests passed to `fetch` so far. -/
structure World where
  caches : List (String × Cache)
  fetched : List Request
deriving DecidableEq, Repr

/-- The environment of one call: what `fetch` answers, the clock (`Date.now()`
and `new Date()`), `self.location.origin`, which cache operations reject, and
whether the checks the platform makes are in force: the `RangeError` of
`new Response` for a status outside 200-599 and the `TypeError` of `cache.put`
for a request that is not a GET over http(s) and for a response of status 206 or
with `Vary: *`. -/
structure Env where
  network : Request → Except JsError Response
  now : Nat
  origin : String
  fails : StoreOp → Bool
  checks : Bool

/-- The environment whose cache store never rejects: no operation fails and no
response is refused, the checks of the platform on a response being left out. -/
def Env.healthy (network : Request → Except JsError Response) (now : Nat) (origin : String) : Env :=
  { network := network, now := now, origin := origin, fails := fun _ => false,
    checks := false }

/-- The environment of a browser whose store works: no operation fails, and the
checks of the platform on a response are in force. -/
def Env.browser (network : Request → Except JsError Response) (now : Nat) (origin : String) : Env :=
  { network := network, now := now, origin := origin, fails := fun _ => false,
    checks := true }

/-- The entries of the cache called `name` (none when there is no such cache). -/
def World.cache (w : World) (name : String) : Cache :=
  (w.caches.lookup name).getD []

/-- The named caches with the entries of `name` replaced by `c`; a cache that does not
exist is created last. -/
def upsert (name : String) (c : Cache) : List (String × Cache) → List (String × Cache)
  | [] => [(name, c)]
  | (k, v) :: t => if k = name then (k, c) :: t else (k, v) :: upsert name c t

/-- Replace the entries of the cache called `name`, creating the cache when it
does not exist. -/
def World.setCache (w : World) (name : String) (c : Cache) : World :=
  { w with caches := upsert name c w.caches }

/-- The world after `caches.open(name)`: the cache exists, empty if it was absent. -/
def World.ensure (w : World) (name : String) : World :=
  match w.caches.lookup name with
  | some _ => w
  | none => w.setCache name []

/-! ## Promises -/

/-- An `async` computation: from a world to a settled promise and the world after it. -/
def SW (α : Type) : Type := World → Except JsError α × World

/-- A promise resolved with `a`. -/
def SW.pure {α : Type} (a : α) : SW α := fun w => (Except.ok a, w)

/-- Sequencing, as `await` does: a rejection skips the continuation. -/
def SW.bind {α β : Type} (m : SW α) (f : α → SW β) : SW β := fun w =>
  match m w with
  | (Except.ok a, w1) => f a w1
  | (Except.error e, w1) => (Except.error e, w1)

instance : Monad SW where
  pure := SW.pure
  bind := SW.bind

/-- The statement `throw e`. -/
def SW.throw {α : Type} (e : JsError) : SW α := fun w => (Except.error e, w)

/-- The statement `try { m } catch (error) { h error }`. -/
def SW.tryCatch {α : Type} (m : SW α) (h : JsError → SW α) : SW α := fun w =>
  match m w with
  | (Except.ok a, w1) => (Except.ok a, w1)
  | (Except.error e, w1) => h e w1

/-- A promise that is started and not awaited: it runs to its end, its outcome
is kept as a value and the caller goes on whatever that outcome is. -/
def SW.settle {α : Type} (m : SW α) : SW (Except JsError α) := fun w =>
  match m w with
  | (r, w1) => (Except.ok r, w1)

/-- The expression `Promise.all(tasks)` for tasks run one after the other: every task
runs, and the result rejects with the first rejection. -/
def SW.all (tasks : List (SW Unit)) : SW Unit := fun w =>
  tasks.foldl
    (fun acc t =>
      match t acc.2 with
      | (r, w1) => (match acc.1 with
                    | Except.ok _ => r
                    | Except.error e => Except.error e, w1))
    (Except.ok (), w)

/-! ## Environment operations -/

/-- The call `fetch(request)`: logged, answered by the network. -/
def fetch (env : Env) (request : Request) : SW Response := fun w =>
  (env.network request, { w with fetched := w.fetched ++ [request] })

/-- The call `caches.open(name)`: the handle of the cache, created empty if absent. -/
def cachesOpen (env : Env) (name : String) : SW String := fun w =>
  if env.fails StoreOp.cachesOpen then (Except.error (JsError.storage StoreOp.cachesOpen), w)
  else (Except.ok name, w.ensure name)

/-- The call `cache.match(url)`: the stored response of that URL, if any. -/
def cacheMatch (env : Env) (cache : String) (url : String) : SW (Option Response) := fun w =>
  if env.fails StoreOp.cacheMatch then (Except.error (JsError.storage StoreOp.cacheMatch), w)
  else (Except.ok ((w.cache cache).lookup url), w)

/-- The method `name.startsWith(text)`. -/
def startsWith (name text : String) : Bool :=
  name.toList.take text.toList.length == text.toList

/-- The requests `cache.put` takes: GET requests over http or https. The `fetch` listener
hands on no other: it returns for a request that is not a GET or whose URL does not start
with the worker's origin (sw.js 117-126). -/
def cacheable (request : Request) : Bool :=
  request.method == "GET" &&
  (startsWith request.url "http://" || startsWith request.url "https://")

/-- A header value cut at its commas: the pieces, in order. -/
def splitCommas : List Char → List (List Char)
  | [] => [[]]
  | c :: rest =>
    match splitCommas rest with
    | [] => [[c]]
    | piece :: pieces =>
      if [c] = ",".toList then [] :: piece :: pieces else (c :: piece) :: pieces

/-- A piece of a header value without the blanks and tabs around it. -/
def trimBlanks (piece : List Char) : List Char :=
  ((piece.dropWhile (fun c => " \t".toList.contains c)).reverse.dropWhile
    (fun c => " \t".toList.contains c)).reverse

/-- Whether a header value, a list of field values separated by commas, has the field
value `*`. -/
def hasStar (value : HeaderValue) : Bool :=
  match value with
  | HeaderValue.text s _ =>
    (splitCommas s.toList).any (fun piece => trimBlanks piece == "*".toList)
  | HeaderValue.isoDate _ => false

/-- The responses `cache.put` refuses with a `TypeError`: those of status 206 and those
with a `Vary` header that has the field value `*`. Header names are in lower case, as
`headers.entries()` lists them. -/
def putRefuses (response : Response) : Bool :=
  response.status == 206 ||
  response.headers.any (fun h => h.1 == "vary" && hasStar h.2)

/-- The statuses `new Response(body, { status })` accepts: 200 to 599. -/
def statusInRange (status : Nat) : Bool := decide (200 ≤ status) && decide (status ≤ 599)

/-- The call `cache.put(request, response)`: the entry of the same URL is removed and
the new entry appended. With the checks of the platform in force, a request `cache.put`
does not take or a response it refuses makes it reject with a `TypeError`, and nothing is
stored. -/
def cachePut (env : Env) (cache : String) (request : Request) (response : Response) :
    SW Unit := fun w =>
  if env.fails StoreOp.cachePut then (Except.error (JsError.storage StoreOp.cachePut), w)
  else if env.checks && (!cacheable request || putRefuses response) then
    (Except.error (JsError.error "TypeError: the response cannot be stored"), w)
  else (Except.ok (), w.setCache cache
    ((w.cache cache).filter (fun p => p.1 != request.url) ++ [(request.url, response)]))

/-- The call `cache.keys()`: the request URLs in insertion order. -/
def cacheKeys (env : Env) (cache : String) : SW (List String) := fun w =>
  if env.fails StoreOp.cacheKeys then (Except.error (JsError.storage StoreOp.cacheKeys), w)
  else (Except.ok ((w.cache cache).map (fun p => p.1)), w)

/-- The call `cache.delete(key)`. -/
def cacheDelete (env : Env) (cache : String) (url : String) : SW Unit := fun w =>
  if env.fails StoreOp.cacheDelete then (Except.error (JsError.storage StoreOp.cacheDelete), w)
  else (Except.ok (), w.setCache cache ((w.cache cache).filter (fun p => p.1 != url)))

/-! ## Rules (sw.js 31-56) -/

/-- The test of `/\.(e1|e2|...)$/`: the path ends in a dot followed by one of the words. -/
def endsWithDot (exts : List String) (path : String) : Bool :=
  exts.any (fun e => (".".toList ++ e.toList).isSuffixOf path.toList)

/-- The test of a pattern that is a literal: the path contains the text. -/
def containsText (text : String) (path : String) : Bool :=
  decide (text.toList <:+: path.toList)

def CACHE_RULES : List Rule :=
  [ { pattern := endsWithDot ["js", "css"],
      strategy := STALE_WHILE_REVALIDATE,
      maxAge := some (7 * 24 * 60 * 60 * 1000),
      maxEntries := some 50 },
    { pattern := endsWithDot ["png", "jpg", "jpeg", "svg", "webp", "ico"],
      strategy := CACHE_FIRST,
      maxAge := some (30 * 24 * 60 * 60 * 1000),
      maxEntries := some 100 },
    { pattern := endsWithDot ["woff", "woff2", "ttf", "eot"],
      strategy := CACHE_FIRST,
      maxAge := some (365 * 24 * 60 * 60 * 1000),
      maxEntries := some 20 },
    { pattern := containsText "/api/",
      strategy := NETWORK_FIRST,
      maxAge := some (5 * 60 * 1000),
      maxEntries := some 50 } ]

/-- The value of `rule?.maxAge` or `rule?.maxEntries` where the code tests it in an
`if`: `undefined` and `0` are falsy, so only a non-zero number is handed on. -/
def truthy (v : Option Nat) : Option Nat :=
  match v with
  | some n => if n = 0 then none else some n
  | none => none

/-! ## Write path (sw.js 242-280) -/

/-- The headers object spread with one property set after it: an existing value of that
name is replaced. -/
def setHeader (headers : List (String × HeaderValue)) (name : String) (value : HeaderValue) :
    List (String × HeaderValue) :=
  headers.filter (fun h => h.1 != name) ++ [(name, value)]

/-- The function `limitCacheSize(cache, maxEntries)`. -/
def limitCacheSize (env : Env) (cache : String) (maxEntries : Nat) : SW Unit := do
  let keys ← cacheKeys env cache
  if keys.length > maxEntries then
    let keysToDelete := keys.take (keys.length - maxEntries)
    SW.all (keysToDelete.map (fun key => cacheDelete env cache key))
  else
    pure ()

/-- The expression `new Response(body, init)`: with the checks of the platform in force,
a status outside 200-599 makes it throw a `RangeError`. -/
def newResponse (env : Env) (response : Response) : SW Response := fun w =>
  if env.checks && !statusInRange response.status then
    (Except.error (JsError.error "RangeError: the status is outside the range 200 to 599"), w)
  else (Except.ok response, w)

/-- The function `cacheResponse(cache, request, response, rule)`. -/
def cacheResponse (env : Env) (cache : String) (request : Request) (response : Response)
    (rule : Option Rule) : SW Unit := do
  let responseWithMetadata ← newResponse env
    { status := response.status,
      statusText := response.statusText,
      headers := setHeader response.headers "sw-cache-date" (HeaderValue.isoDate env.now),
      body := response.body }
  cachePut env cache request responseWithMetadata
  match truthy (rule.bind Rule.maxEntries) with
  | some maxEntries => limitCacheSize env cache maxEntries
  | none => pure ()

/-- The function `fetchAndCache(request, cache, rule)`. -/
def fetchAndCache (env : Env) (request : Request) (cache : String) (rule : Option Rule) :
    SW Response := do
  let response ← fetch env request
  if response.ok then
    cacheResponse env cache request response rule
  pure response

/-! ## Strategies (sw.js 161-239) -/

/-- The number `new Date(s).getTime()` for a header value (`none` is `NaN`). The code
replaces a falsy value, the empty string, by `0` first. -/
def HeaderValue.getTime (v : HeaderValue) : Option Int :=
  match v with
  | HeaderValue.isoDate ms => some (ms : Int)
  | HeaderValue.text s t => if s = "" then some 0 else t

/-- The number `new Date(cachedResponse.headers.get('sw-cache-date') || 0).getTime()`. -/
def cacheDateTime (cachedResponse : Response) : Option Int :=
  match cachedResponse.headers.lookup "sw-cache-date" with
  | some v => v.getTime
  | none => some 0

/-- The test `Date.now() - cacheDate.getTime() > rule.maxAge` (false on `NaN`). -/
def isExpired (now : Nat) (cachedResponse : Response) (maxAge : Nat) : Bool :=
  match cacheDateTime cachedResponse with
  | some t => decide ((now : Int) - t > (maxAge : Int))
  | none => false

/-- The function `cacheFirst(request, rule)`. -/
def cacheFirst (env : Env) (request : Request) (rule : Option Rule) : SW Response := do
  let cache ← cachesOpen env DYNAMIC_CACHE_NAME
  let cachedResponse ← cacheMatch env cache request.url
  match cachedResponse with
  | some cachedResponse =>
    match truthy (rule.bind Rule.maxAge) with
    | some maxAge =>
      if isExpired env.now cachedResponse maxAge then
        let _ ← SW.settle (fetchAndCache env request cache rule)
        pure cachedResponse
      else
        pure cachedResponse
    | none => pure cachedResponse
  | none =>
    let response ← fetch env request
    cacheResponse env cache request response rule
    pure response

/-- The function `networkFirst(request, rule)`. -/
def networkFirst (env : Env) (request : Request) (rule : Option Rule) : SW Response :=
  SW.tryCatch
    (do
      let response ← fetch env request
      if response.ok then
        let cache ← cachesOpen env DYNAMIC_CACHE_NAME
        cacheResponse env cache request response rule
      pure response)
    (fun error => do
      let cache ← cachesOpen env DYNAMIC_CACHE_NAME
      let cachedResponse ← cacheMatch env cache request.url
      match cachedResponse with
      | some cachedResponse => pure cachedResponse
      | none => SW.throw error)

/-- The function `staleWhileRevalidate(request, rule)`. -/
def staleWhileRevalidate (env : Env) (request : Request) (rule : Option Rule) : SW Response := do
  let cache ← cachesOpen env DYNAMIC_CACHE_NAME
  let cachedResponse ← cacheMatch env cache request.url
  let fetchPromise ← SW.settle (fetchAndCache env request cache rule)
  match cachedResponse with
  | some cachedResponse => pure cachedResponse
  | none =>
    match fetchPromise with
    | Except.ok response => pure response
    | Except.error e => SW.throw e

/-- The function `cacheOnly(request)`. -/
def cacheOnly (env : Env) (request : Request) : SW Response := do
  let cache ← cachesOpen env DYNAMIC_CACHE_NAME
  let cachedResponse ← cacheMatch env cache request.url
  match cachedResponse with
  | none => SW.throw (JsError.error "Resource not found in cache")
  | some cachedResponse => pure cachedResponse

/-! ## Offline fallback (sw.js 283-310) -/

/-- The body of the placeholder image. -/
def placeholderSvg : String :=
  "<svg xmlns=\"http://www.w3.org/2000/svg\" width=\"200\" height=\"200\" viewBox=\"0 0 200 200\">\n        <rect width=\"200\" height=\"200\" fill=\"#f3f4f6\"/>\n        <text x=\"100\" y=\"100\" text-anchor=\"middle\" dominant-baseline=\"central\" fill=\"#6b7280\" font-family=\"Arial\" font-size=\"14\">\n          Image Unavailable\n        </text>\n      </svg>"

/-- The function `getOfflineFallback(request)`. -/
def getOfflineFallback (env : Env) (request : Request) : SW Response := do
  if request.mode = "navigate" then
    let cache ← cachesOpen env STATIC_CACHE_NAME
    let shell ← cacheMatch env cache (env.origin ++ "/")
    match shell with
    | some response => pure response
    | none =>
      pure { status := 503, statusText := "",
             headers := [("content-type", HeaderValue.text "text/plain;charset=UTF-8" none)],
             body := "Offline" }
  else if request.destination = "image" then
    pure { status := 200, statusText := "",
           headers := [("content-type", HeaderValue.text "image/svg+xml" none)],
           body := placeholderSvg }
  else
    SW.throw (JsError.error "Resource not available offline")

/-! ## Request handler (sw.js 132-158) -/

/-- Line 136: `CACHE_RULES.find(rule => rule.pattern.test(url.pathname))`. -/
def findRule (rules : List Rule) (pathname : String) : Option Rule :=
  rules.find? (fun rule => rule.pattern pathname)

/-- Line 137: `rule?.strategy || CACHE_STRATEGIES.NETWORK_FIRST`. -/
def strategyOf (rule : Option Rule) : String :=
  match rule with
  | some r => if r.strategy = "" then NETWORK_FIRST else r.strategy
  | none => NETWORK_FIRST

/-- Lines 140-153: the `switch (strategy)`. -/
def runStrategy (env : Env) (strategy : String) (request : Request) (rule : Option Rule) :
    SW Response :=
  if strategy = CACHE_FIRST then cacheFirst env request rule
  else if strategy = NETWORK_FIRST then networkFirst env request rule
  else if strategy = STALE_WHILE_REVALIDATE then staleWhileRevalidate env request rule
  else if strategy = NETWORK_ONLY then fetch env request
  else if strategy = CACHE_ONLY then cacheOnly env request
  else networkFirst env request rule

/-- The function `handleRequest(request)`, over the rule list in place of the global
`CACHE_RULES`. -/
def handleRequest (rules : List Rule) (env : Env) (request : Request) : SW Response :=
  let rule := findRule rules request.pathname
  let strategy := strategyOf rule
  SW.tryCatch (runStrategy env strategy request rule)
    (fun _ => getOfflineFallback env request)

/-! ## Descriptions used by the proofs -/

/-- The world after the keys have been deleted from the cache, one by one. -/
def deleteKeys (cache : String) (keys : List String) (w : World) : World :=
  keys.foldl (fun w1 key => w1.setCache cache ((w1.cache cache).filter (fun p => p.1 != key))) w

/-- The response `cacheResponse` stores: the response with its `sw-cache-date` set to now. -/
def stamped (now : Nat) (response : Response) : Response :=
  { status := response.status,
    statusText := response.statusText,
    headers := setHeader response.headers "sw-cache-date" (HeaderValue.isoDate now),
    body := response.body }

/-- The entries `limitCacheSize` leaves: when there are more than `maxEntries`, every
entry whose key is among the first `length - maxEntries` keys is removed. -/
def evict (maxEntries : Nat) (c : Cache) : Cache :=
  if c.length > maxEntries then
    c.filter (fun p => !((c.map (fun q => q.1)).take (c.length - maxEntries)).contains p.1)
  else c

/-- The entries after the size limit of the rule, if it has one, is enforced. -/
def limitTo (maxEntries : Option Nat) (c : Cache) : Cache :=
  match maxEntries with
  | some n => evict n c
  | none => c

/-- The entries of a cache after `cacheResponse` has stored a response in it. -/
def written (now : Nat) (url : String) (response : Response) (rule : Option Rule) (c : Cache) :
    Cache :=
  limitTo (truthy (rule.bind Rule.maxEntries))
    (c.filter (fun p => p.1 != url) ++ [(url, stamped now response)])

/-- The world with one more request passed to `fetch`. -/
def World.logFetch (w : World) (request : Request) : World :=
  { w with fetched := w.fetched ++ [request] }

/-- One call of `cacheResponse`: the clock at the call, the request and the response. -/
structure Write where
  now : Nat
  request : Request
  response : Response
deriving DecidableEq, Repr

/-- The world after the writes have gone through `cacheResponse` one after the other,
each at its own time, with a healthy store. -/
def writeAll (network : Request → Except JsError Response) (origin cache : String)
    (rule : Option Rule) : List Write → World → World
  | [], w => w
  | x :: rest, w =>
    writeAll network origin cache rule rest
      (cacheResponse (Env.healthy network x.now origin) cache x.request x.response rule w).2

/-- The entry a write stores. -/
def Write.entry (x : Write) : String × Response :=
  (x.request.url, stamped x.now x.response)

/-! ## Sample data -/

/-- A script request under `/api/`. -/
def sampleApiScript : Request :=
  { url := "https://rolex.test/api/app.js", pathname := "/api/app.js", method := "GET",
    mode := "no-cors", destination := "script" }

/-- A navigation to the home page. -/
def samplePage : Request :=
  { url := "https://rolex.test/index.html", pathname := "/index.html", method := "GET",
    mode := "navigate", destination := "document" }

/-- An image request. -/
def sampleImage : Request :=
  { url := "https://rolex.test/img/logo.png", pathname := "/img/logo.png", method := "GET",
    mode := "no-cors", destination := "image" }

/-- A second and a third image request. -/
def sampleImage2 : Request :=
  { url := "https://rolex.test/img/hero.png", pathname := "/img/hero.png", method := "GET",
    mode := "no-cors", destination := "image" }

def sampleImage3 : Request :=
  { url := "https://rolex.test/img/cell.png", pathname := "/img/cell.png", method := "GET",
    mode := "no-cors", destination := "image" }

/-- A successful response. -/
def sampleResponse : Response :=
  { status := 200, statusText := "OK", headers := [], body := "A" }

/-- A response with an error status. -/
def notFoundResponse : Response :=
  { status := 404, statusText := "Not Found", headers := [], body := "missing" }

/-- A rule for images with a `maxAge` of one second and room for two entries. -/
def sampleRule : Rule :=
  { pattern := endsWithDot ["png"], strategy := CACHE_FIRST, maxAge := some 1000,
    maxEntries := some 2 }

/-- The same rule with a `maxAge` of zero. -/
def zeroAgeRule : Rule :=
  { pattern := endsWithDot ["png"], strategy := CACHE_FIRST, maxAge := some 0,
    maxEntries := some 2 }

/-- The worker's origin in the samples. -/
def sampleOrigin : String := "https://rolex.test"

/-- A network that answers every request with `sampleResponse`. -/
def onlineNetwork : Request → Except JsError Response :=
  fun _ => Except.ok sampleResponse

/-- A network on which every fetch fails. -/
def offlineNetwork : Request → Except JsError Response :=
  fun _ => Except.error (JsError.network "Failed to fetch")

/-- A network that answers every request with 404. -/
def notFoundNetwork : Request → Except JsError Response :=
  fun _ => Except.ok notFoundResponse

/-- An environment: online, the clock reads 5000 and the store is healthy. -/
def sampleEnv : Env := Env.healthy onlineNetwork 5000 sampleOrigin

/-- No cache and no fetch yet. -/
def emptyWorld : World := { caches := [], fetched := [] }

/-- The Dynamic cache holds `sampleResponse` for `sampleImage`, stored at time 3000. -/
def warmWorld : World :=
  { caches := [(DYNAMIC_CACHE_NAME, [(sampleImage.url, stamped 3000 sampleResponse)])],
    fetched := [] }

/-- Three writes of distinct image requests. -/
def sampleWrites : List Write :=
  [ { now := 10, request := sampleImage, response := sampleResponse },
    { now := 20, request := sampleImage2, response := sampleResponse },
    { now := 30, request := sampleImage3, response := sampleResponse } ]

/-! ## Lifecycle (sw.js 19-28, 59-114) -/

def STATIC_ASSETS : List String :=
  [ "/",
    "/index.html",
    "/css/critical.css",
    "/css/main.css",
    "/js/critical.js",
    "/js/main.js",
    "/manifest.json" ]

/-- The request `cache.addAll` makes for a path of the manifest: a GET of the URL the path
has at the worker's origin. -/
def assetRequest (origin path : String) : Request :=
  { url := origin ++ path, pathname := path, method := "GET", mode := "cors",
    destination := "" }

/-- The entries `cache.addAll` is about to store: every request answered, with a successful
status. The call rejects as soon as one fetch fails or is answered with another status. -/
def addAllResponses (env : Env) : List Request → Except JsError (List (String × Response))
  | [] => Except.ok []
  | request :: rest =>
    match env.network request with
    | Except.error e => Except.error e
    | Except.ok response =>
      if response.ok then
        match addAllResponses env rest with
        | Except.ok entries => Except.ok ((request.url, response) :: entries)
        | Except.error e => Except.error e
      else Except.error (JsError.error "TypeError: bad response status")

/-- The call `cache.addAll(requests)`: every request is fetched; the responses are stored,
all together, only when every one of them arrived with a successful status. -/
def cacheAddAll (env : Env) (cache : String) (requests : List Request) : SW Unit := fun w =>
  match addAllResponses env requests with
  | Except.error e => (Except.error e, { w with fetched := w.fetched ++ requests })
  | Except.ok entries =>
    if env.fails StoreOp.cachePut then
      (Except.error (JsError.storage StoreOp.cachePut),
        { w with fetched := w.fetched ++ requests })
    else
      (Except.ok (),
        ({ w with fetched := w.fetched ++ requests } : World).setCache cache
          (entries.foldl (fun c p => c.filter (fun q => q.1 != p.1) ++ [p]) (w.cache cache)))

/-- The call `self.skipWaiting()`: the worker does not wait for the clients of the previous
generation; no cache and no request is touched. -/
def skipWaiting : SW Unit := pure ()

/-- The promise the `install` listener hands to `event.waitUntil`, over the manifest in
place of the global `STATIC_ASSETS`: the install step fails exactly when it rejects. -/
def install (assets : List String) (env : Env) : SW Unit :=
  SW.tryCatch
    (do
      let cache ← cachesOpen env STATIC_CACHE_NAME
      cacheAddAll env cache (assets.map (assetRequest env.origin))
      skipWaiting)
    (fun _ => pure ())

/-- The clients of the worker: how `self.clients.claim()` and `self.clients.matchAll()`
settle (the latter with the identifiers of the clients). -/
structure Clients where
  claim : Except JsError Unit
  matchAll : Except JsError (List String)

/-- The call `self.clients.claim()`. -/
def clientsClaim (clients : Clients) : SW Unit := fun w => (clients.claim, w)

/-- The call `self.clients.matchAll()`. -/
def clientsMatchAll (clients : Clients) : SW (List String) := fun w => (clients.matchAll, w)

/-- The loop `clients.forEach(client => client.postMessage(...))`: a message to each client;
no cache and no request is touched. -/
def postMessageAll (clients : List String) : SW Unit :=
  SW.all (clients.map (fun _ => pure ()))

/-- The call `caches.keys()`: the names of the caches, in creation order. It rejects when
`keys` is made to fail. -/
def cachesKeys (env : Env) : SW (List String) := fun w =>
  if env.fails StoreOp.cacheKeys then (Except.error (JsError.storage StoreOp.cacheKeys), w)
  else (Except.ok (w.caches.map (fun p => p.1)), w)

/-- The call `caches.delete(name)`: the cache of that name is removed. It rejects when
`delete` is made to fail. -/
def cachesDelete (env : Env) (name : String) : SW Unit := fun w =>
  if env.fails StoreOp.cacheDelete then (Except.error (JsError.storage StoreOp.cacheDelete), w)
  else (Except.ok (), { w with caches := w.caches.filter (fun p => p.1 != name) })

/-- The filter of lines 90-95: the names `activate` deletes. -/
def isOldCache (name : String) : Bool :=
  startsWith name "rolex-batteries-" &&
  name != CACHE_NAME &&
  name != STATIC_CACHE_NAME &&
  name != DYNAMIC_CACHE_NAME

/-- The promise the `activate` listener hands to `event.waitUntil`: activation fails exactly
when it rejects. -/
def activate (env : Env) (clients : Clients) : SW Unit :=
  SW.tryCatch
    (do
      clientsClaim clients
      let cacheNames ← cachesKeys env
      let oldCaches := cacheNames.filter isOldCache
      SW.all (oldCaches.map (fun name => cachesDelete env name))
      let clients ← clientsMatchAll clients
      postMessageAll clients)
    (fun _ => pure ())

/-- The call of a strategy inside `handleRequest`, before any fallback. -/
def strategyCall (rules : List Rule) (env : Env) (request : Request) : SW Response :=
  runStrategy env (strategyOf (findRule rules request.pathname)) request
    (findRule rules request.pathname)

/-- The response `getOfflineFallback` makes up for a navigation without a cached shell. -/
def offlineResponse : Response :=
  { status := 503, statusText := "",
    headers := [("content-type", HeaderValue.text "text/plain;charset=UTF-8" none)],
    body := "Offline" }

/-- The response `getOfflineFallback` makes up for an image. -/
def placeholderResponse : Response :=
  { status := 200, statusText := "",
    headers := [("content-type", HeaderValue.text "image/svg+xml" none)],
    body := placeholderSvg }

/-! ## Sample data for the lifecycle -/

/-- Clients that can be claimed and listed. -/
def sampleClients : Clients :=
  { claim := Except.ok (), matchAll := Except.ok ["window-1", "window-2"] }

/-- Clients whose claim fails. -/
def unclaimedClients : Clients :=
  { claim := Except.error (JsError.error "InvalidStateError"),
    matchAll := Except.ok ["window-1"] }

/-- The name of a cache of an earlier generation. -/
def oldCacheName : String := "rolex-batteries-static-v0.9.0"

/-- Three persisted caches: the current Static and Dynamic caches and a leftover. -/
def threeCaches : World :=
  { caches := [(STATIC_CACHE_NAME, []), (DYNAMIC_CACHE_NAME, []), (oldCacheName, [])],
    fetched := [] }

/-- Three persisted caches: the current Static and Dynamic caches and one called
`CACHE_NAME`. -/
def namedCaches : World :=
  { caches := [(CACHE_NAME, []), (STATIC_CACHE_NAME, []), (DYNAMIC_CACHE_NAME, [])],
    fetched := [] }

/-- A manifest of five assets. -/
def sampleManifest : List String :=
  ["/", "/index.html", "/css/critical.css", "/css/main.css", "/js/main.js"]

/-- A network on which the fetch of `/css/critical.css` fails and every other request is
answered with `sampleResponse`. -/
def thirdFailsNetwork : Request → Except JsError Response :=
  fun request =>
    if request.pathname = "/css/critical.css" then
      Except.error (JsError.network "Failed to fetch")
    else Except.ok sampleResponse

/-- A rule that serves images from the cache only. -/
def cacheOnlyRule : Rule :=
  { pattern := endsWithDot ["png"], strategy := CACHE_ONLY, maxAge := none,
    maxEntries := none }

/-- A request for a document that is not a navigation. -/
def sampleData : Request :=
  { url := "https://rolex.test/api/data", pathname := "/api/data", method := "GET",
    mode := "cors", destination := "" }

/-- The Static cache holds the shell page. -/
def shellWorld : World :=
  { caches := [(STATIC_CACHE_NAME, [("https://rolex.test/", sampleResponse)])],
    fetched := [] }

/-- The world after the caches of these names have been deleted, one by one. -/
def deleteCaches (names : List String) (w : World) : World :=
  names.foldl (fun w1 name => { w1 with caches := w1.caches.filter (fun p => p.1 != name) }) w

/-! ## Fetch listener (sw.js 117-129) -/

/-- The `fetch` listener, over the rule list: `some p` when it calls
`event.respondWith(p)`, `none` when it returns without doing so and the browser handles the
request itself, on the network. -/
def fetchListener (rules : List Rule) (env : Env) (request : Request) : Option (SW Response) :=
  if !startsWith request.url env.origin then none
  else if request.method != "GET" then none
  else some (handleRequest rules env request)

/-! ## Background sync (sw.js 319-352, 399-438) -/

/-- A record of the object store `formData`: its key `id` and its `data`. -/
structure FormRecord where
  id : Nat
  data : String
deriving DecidableEq, Repr

/-- The state the sync works on: the records of the object store, in the order `getAll`
lists them; the records posted to `/api/contact` so far, in order; the clients told
`FORM_SYNCED` so far. -/
structure SyncWorld where
  stored : List FormRecord
  posted : List FormRecord
  notified : List String
deriving DecidableEq, Repr

/-- The environment of a sync: how the POST of a record settles, whether opening or reading
the store rejects, whether the removal of a key rejects, and how `clients.matchAll()`
settles. -/
structure SyncEnv where
  deliver : FormRecord → Except JsError Response
  getFails : Bool
  removeFails : Nat → Bool
  matchAll : Except JsError (List String)

/-- An `async` computation over the state of the sync. -/
def Sync (α : Type) : Type := SyncWorld → Except JsError α × SyncWorld

/-- A promise resolved with `a`. -/
def Sync.pure {α : Type} (a : α) : Sync α := fun s => (Except.ok a, s)

/-- Sequencing, as `await` does. -/
def Sync.bind {α β : Type} (m : Sync α) (f : α → Sync β) : Sync β := fun s =>
  match m s with
  | (Except.ok a, s1) => f a s1
  | (Except.error e, s1) => (Except.error e, s1)

instance : Monad Sync where
  pure := Sync.pure
  bind := Sync.bind

/-- The statement `try { m } catch (error) { console.error(...) }`. -/
def Sync.logErrors (m : Sync Unit) : Sync Unit := fun s =>
  match m s with
  | (Except.ok a, s1) => (Except.ok a, s1)
  | (Except.error _, s1) => (Except.ok (), s1)

/-- The function `getStoredFormData()`. -/
def getStoredFormData (env : SyncEnv) : Sync (List FormRecord) := fun s =>
  if env.getFails then (Except.error (JsError.error "IndexedDB request failed"), s)
  else (Except.ok s.stored, s)

/-- The function `removeStoredFormData(id)`. -/
def removeStoredFormData (env : SyncEnv) (id : Nat) : Sync Unit := fun s =>
  if env.removeFails id then (Except.error (JsError.error "IndexedDB request failed"), s)
  else (Except.ok (), { s with stored := s.stored.filter (fun r => r.id != id) })

/-- The call `fetch('/api/contact', { method: 'POST', ..., body: JSON.stringify(formData.data) })`. -/
def postContact (env : SyncEnv) (formData : FormRecord) : Sync Response := fun s =>
  (env.deliver formData, { s with posted := s.posted ++ [formData] })

/-- The calls `self.clients.matchAll()` and `client.postMessage(...)` for each client. -/
def notifyClients (env : SyncEnv) : Sync Unit := fun s =>
  match env.matchAll with
  | Except.error e => (Except.error e, s)
  | Except.ok clients => (Except.ok (), { s with notified := s.notified ++ clients })

/-- The loop `for (const formData of formDataStore)` of `syncContactForm`. -/
def syncEach (env : SyncEnv) : List FormRecord → Sync Unit
  | [] => pure ()
  | formData :: rest => do
    Sync.logErrors (do
      let response ← postContact env formData
      if response.ok then
        removeStoredFormData env formData.id
        notifyClients env)
    syncEach env rest

/-- The function `syncContactForm()`. -/
def syncContactForm (env : SyncEnv) : Sync Unit :=
  Sync.logErrors (do
    let formDataStore ← getStoredFormData env
    syncEach env formDataStore)

/-- Whether the POST of a record was answered with a successful status. -/
def SyncEnv.delivered (env : SyncEnv) (formData : FormRecord) : Bool :=
  match env.deliver formData with
  | Except.ok response => response.ok
  | Except.error _ => false

/-! ## Sample data for the listener and the sync -/

/-- A request to another host whose URL starts with the text of the worker's origin. -/
def foreignScript : Request :=
  { url := "https://rolex.test.evil.example/app.js", pathname := "/app.js", method := "GET",
    mode := "no-cors", destination := "script" }

/-- A POST to the worker's origin. -/
def samplePost : Request :=
  { url := "https://rolex.test/api/contact", pathname := "/api/contact", method := "POST",
    mode := "cors", destination := "" }

/-- Three queued records. -/
def sampleQueue : SyncWorld :=
  { stored := [{ id := 1, data := "a" }, { id := 2, data := "b" }, { id := 3, data := "c" }],
    posted := [], notified := [] }

/-- A sync in which the POST of record 1 succeeds, the POST of record 2 fails and the POST
of record 3 is answered with 404. -/
def sampleSyncEnv : SyncEnv :=
  { deliver := fun r =>
      if r.id = 1 then Except.ok sampleResponse
      else if r.id = 2 then Except.error (JsError.network "Failed to fetch")
      else Except.ok notFoundResponse,
    getFails := false,
    removeFails := fun _ => false,
    matchAll := Except.ok ["window-1"] }

/-! ## Sample data for the write path -/

/-- A response that already carries a `sw-cache-date`, of time 1. -/
def datedResponse : Response :=
  { status := 200, statusText := "OK",
    headers := [("sw-cache-date", HeaderValue.isoDate 1)], body := "A" }

/-- The Dynamic cache holds `sampleResponse` for `sampleImage`, stored at time 0. -/
def oldWorld : World :=
  { caches := [(DYNAMIC_CACHE_NAME, [(sampleImage.url, stamped 0 sampleResponse)])],
    fetched := [] }

/-- The Dynamic cache holds two images, `sampleImage` the older. -/
def twoImages : World :=
  { caches := [(DYNAMIC_CACHE_NAME,
      [(sampleImage.url, stamped 10 sampleResponse),
       (sampleImage2.url, stamped 20 sampleResponse)])],
    fetched := [] }

/-- A request for the shell page. -/
def shellRequest : Request :=
  { url := "https://rolex.test/", pathname := "/", method := "GET", mode := "cors",
    destination := "" }

/-- An environment whose network answers and whose `caches.open` rejects. -/
def brokenOpenEnv : Env :=
  { network := onlineNetwork, now := 5000, origin := sampleOrigin,
    fails := fun op => op == StoreOp.cachesOpen, checks := true }

/-- An environment whose network answers and whose `cache.put` rejects. -/
def brokenPutEnv : Env :=
  { network := onlineNetwork, now := 5000, origin := sampleOrigin,
    fails := fun op => op == StoreOp.cachePut, checks := true }

/-! ## Descriptions of the outcomes on any store -/

/-- What the `catch` of `networkFirst` answers for the error it caught, `cached` being
what the Dynamic cache holds for the request when the `catch` runs: the error of a
failing `caches.open` or `cache.match`, else the cached entry, else the error caught. -/
def servedFromCache (env : Env) (error : JsError) (cached : Option Response) :
    Except JsError Response :=
  if env.fails StoreOp.cachesOpen then Except.error (JsError.storage StoreOp.cachesOpen)
  else if env.fails StoreOp.cacheMatch then Except.error (JsError.storage StoreOp.cacheMatch)
  else match cached with
    | some cachedResponse => Except.ok cachedResponse
    | none => Except.error error

/-- Whether `cache.put` stores the response: it does not fail and, with the checks of the
platform in force, does not refuse it. -/
def putAccepts (env : Env) (response : Response) : Bool :=
  !env.fails StoreOp.cachePut && !(env.checks && putRefuses response)

/-- The error with which `cacheResponse` rejects, if it does, for a response whose status
`new Response` accepts, `c` being the entries of the cache before the call: the error of a
failing `cache.put`, the `TypeError` of a response `cache.put` refuses and, when the rule
has a size limit, the error of a failing `cache.keys` or, with the cache over the limit, of
a failing `cache.delete`. -/
def storeError (env : Env) (url : String) (response : Response) (rule : Option Rule)
    (c : Cache) : Option JsError :=
  if env.fails StoreOp.cachePut then some (JsError.storage StoreOp.cachePut)
  else if env.checks && putRefuses response then
    some (JsError.error "TypeError: the response cannot be stored")
  else
    match truthy (rule.bind Rule.maxEntries) with
    | none => none
    | some maxEntries =>
      if env.fails StoreOp.cacheKeys then some (JsError.storage StoreOp.cacheKeys)
      else if decide ((c.filter (fun p => p.1 != url)).length + 1 > maxEntries) &&
          env.fails StoreOp.cacheDelete then
        some (JsError.storage StoreOp.cacheDelete)
      else none

/-! ## Sample data for the checks of the platform and a failing store -/

/-- A response of status 206 (Partial Content). -/
def partialResponse : Response :=
  { status := 206, statusText := "Partial Content",
    headers := [("content-range", HeaderValue.text "bytes 0-0/2" none)], body := "B" }

/-- A successful response with `Vary: *`. -/
def variedResponse : Response :=
  { status := 200, statusText := "OK",
    headers := [("vary", HeaderValue.text "accept-encoding, *" none)], body := "B" }

/-- A network that answers every request with `partialResponse`. -/
def partialNetwork : Request → Except JsError Response :=
  fun _ => Except.ok partialResponse

/-- A network that answers every request with `variedResponse`. -/
def variedNetwork : Request → Except JsError Response :=
  fun _ => Except.ok variedResponse

/-- An environment whose network is down and whose `cache.match` rejects. -/
def brokenMatchEnv : Env :=
  { network := offlineNetwork, now := 5000, origin := sampleOrigin,
    fails := fun op => op == StoreOp.cacheMatch, checks := true }

/-! ## The store: views of a world -/

theorem lookup_upsert_same (name : String) (c : Cache) :
    ∀ (l : List (String × Cache)), (upsert name c l).lookup name = some c := by
  intro l
  induction l with
  | nil => simp [upsert, List.lookup]
  | cons a t ih =>
    obtain ⟨k, v⟩ := a
    by_cases hk : k = name
    · subst hk; simp [upsert, List.lookup]
    · have hk2 : (name == k) = false := by simpa using fun e => hk e.symm
      simp [upsert, List.lookup, hk, hk2, ih]

theorem lookup_upsert_other (name n : String) (c : Cache) (hn : n ≠ name) :
    ∀ (l : List (String × Cache)), (upsert name c l).lookup n = l.lookup n := by
  intro l
  induction l with
  | nil =>
    have : (n == name) = false := by simpa using hn
    simp [upsert, List.lookup, this]
  | cons a t ih =>
    obtain ⟨k, v⟩ := a
    by_cases hk : k = name
    · subst hk
      have : (n == k) = false := by simpa using hn
      simp [upsert, List.lookup, this]
    · by_cases hnk : n = k
      · subst hnk; simp [upsert, List.lookup, hk]
      · have : (n == k) = false := by simpa using hnk
        simp [upsert, List.lookup, hk, this, ih]

@[simp] theorem World.cache_setCache_same (w : World) (name : String) (c : Cache) :
    (w.setCache name c).cache name = c := by
  simp [World.setCache, World.cache, lookup_upsert_same]

theorem World.cache_setCache_other (w : World) (name n : String) (c : Cache) (hn : n ≠ name) :
    (w.setCache name c).cache n = w.cache n := by
  simp [World.setCache, World.cache, lookup_upsert_other name n c hn]

@[simp] theorem World.fetched_setCache (w : World) (name : String) (c : Cache) :
    (w.setCache name c).fetched = w.fetched := rfl

@[simp] theorem World.cache_ensure (w : World) (name n : String) :
    (w.ensure name).cache n = w.cache n := by
  unfold World.ensure
  cases h : w.caches.lookup name with
  | some c => rfl
  | none =>
    by_cases hn : n = name
    · subst hn
      simp [World.cache, h]
      exact World.cache_setCache_same w n []
    · exact World.cache_setCache_other w name n [] hn

@[simp] theorem World.fetched_ensure (w : World) (name : String) :
    (w.ensure name).fetched = w.fetched := by
  unfold World.ensure
  split <;> rfl

theorem World.ensure_of_cache_ne_nil (w : World) (name : String) (h : w.cache name ≠ []) :
    w.ensure name = w := by
  unfold World.ensure
  cases h1 : w.caches.lookup name with
  | some c => rfl
  | none => exact absurd (by simp [World.cache, h1]) h

/-! ## Promises: unfolding -/

theorem SW.bind_eq {α β : Type} (m : SW α) (f : α → SW β) : m >>= f = SW.bind m f := rfl

@[simp] theorem SW.pure_apply {α : Type} (a : α) (w : World) :
    (pure a : SW α) w = (Except.ok a, w) := rfl

theorem SW.bind_of_ok {α β : Type} (m : SW α) (f : α → SW β) (w w1 : World) (a : α)
    (h : m w = (Except.ok a, w1)) : SW.bind m f w = f a w1 := by
  simp [SW.bind, h]

theorem SW.bind_of_error {α β : Type} (m : SW α) (f : α → SW β) (w w1 : World) (e : JsError)
    (h : m w = (Except.error e, w1)) : SW.bind m f w = (Except.error e, w1) := by
  simp [SW.bind, h]

/-! ## The store operations when the store is healthy -/

theorem cachesOpen_healthy (network : Request → Except JsError Response) (now : Nat)
    (origin name : String) (w : World) :
    cachesOpen (Env.healthy network now origin) name w = (Except.ok name, w.ensure name) := by
  simp [cachesOpen, Env.healthy]

theorem cacheMatch_healthy (network : Request → Except JsError Response) (now : Nat)
    (origin cache url : String) (w : World) :
    cacheMatch (Env.healthy network now origin) cache url w
      = (Except.ok ((w.cache cache).lookup url), w) := by
  simp [cacheMatch, Env.healthy]

theorem cachePut_healthy (network : Request → Except JsError Response) (now : Nat)
    (origin cache : String) (request : Request) (response : Response) (w : World) :
    cachePut (Env.healthy network now origin) cache request response w
      = (Except.ok (), w.setCache cache
          ((w.cache cache).filter (fun p => p.1 != request.url) ++
            [(request.url, response)])) := by
  simp [cachePut, Env.healthy]

theorem newResponse_healthy (network : Request → Except JsError Response) (now : Nat)
    (origin : String) (response : Response) (w : World) :
    newResponse (Env.healthy network now origin) response w = (Except.ok response, w) := by
  simp [newResponse, Env.healthy]

theorem cacheKeys_healthy (network : Request → Except JsError Response) (now : Nat)
    (origin cache : String) (w : World) :
    cacheKeys (Env.healthy network now origin) cache w
      = (Except.ok ((w.cache cache).map (fun p => p.1)), w) := by
  simp [cacheKeys, Env.healthy]

theorem cacheDelete_healthy (network : Request → Except JsError Response) (now : Nat)
    (origin cache url : String) (w : World) :
    cacheDelete (Env.healthy network now origin) cache url w
      = (Except.ok (), w.setCache cache ((w.cache cache).filter (fun p => p.1 != url))) := by
  simp [cacheDelete, Env.healthy]

theorem all_delete_healthy (network : Request → Except JsError Response) (now : Nat)
    (origin cache : String) :
    ∀ (keys : List String) (w : World),
      SW.all (keys.map (fun key => cacheDelete (Env.healthy network now origin) cache key)) w
        = (Except.ok (), deleteKeys cache keys w) := by
  have gen : ∀ (keys : List String) (w : World),
      (keys.map (fun key => cacheDelete (Env.healthy network now origin) cache key)).foldl
        (fun (acc : Except JsError Unit × World) (t : SW Unit) =>
          match t acc.2 with
          | (r, w1) => (match acc.1 with
                        | Except.ok _ => r
                        | Except.error e => Except.error e, w1))
        (Except.ok (), w) = (Except.ok (), deleteKeys cache keys w) := by
    intro keys
    induction keys with
    | nil => intro w; rfl
    | cons k t ih =>
      intro w
      simp only [List.map_cons, List.foldl_cons, cacheDelete_healthy]
      rw [ih]
      rfl
  intro keys w
  exact gen keys w

theorem cache_deleteKeys (cache : String) :
    ∀ (keys : List String) (w : World),
      (deleteKeys cache keys w).cache cache
        = (w.cache cache).filter (fun p => !keys.contains p.1) := by
  intro keys
  induction keys with
  | nil => intro w; simp [deleteKeys]
  | cons k t ih =>
    intro w
    have h := ih (w.setCache cache ((w.cache cache).filter (fun p => p.1 != k)))
    simp only [deleteKeys, List.foldl_cons] at h ⊢
    rw [h, World.cache_setCache_same, List.filter_filter]
    congr 1
    funext p
    by_cases hp : p.1 = k
    · simp [hp]
    · have : (p.1 == k) = false := by simpa using hp
      simp [List.contains_cons, this, hp]

theorem cache_deleteKeys_other (cache n : String) (hn : n ≠ cache) :
    ∀ (keys : List String) (w : World), (deleteKeys cache keys w).cache n = w.cache n := by
  intro keys
  induction keys with
  | nil => intro w; rfl
  | cons k t ih =>
    intro w
    have h := ih (w.setCache cache ((w.cache cache).filter (fun p => p.1 != k)))
    simp only [deleteKeys, List.foldl_cons] at h ⊢
    rw [h, World.cache_setCache_other _ _ _ _ hn]

theorem fetched_deleteKeys (cache : String) :
    ∀ (keys : List String) (w : World), (deleteKeys cache keys w).fetched = w.fetched := by
  intro keys
  induction keys with
  | nil => intro w; rfl
  | cons k t ih =>
    intro w
    have h := ih (w.setCache cache ((w.cache cache).filter (fun p => p.1 != k)))
    simp only [deleteKeys, List.foldl_cons] at h ⊢
    rw [h, World.fetched_setCache]

theorem limitCacheSize_healthy (network : Request → Except JsError Response) (now : Nat)
    (origin cache : String) (maxEntries : Nat) (w : World) :
    ∃ w1, limitCacheSize (Env.healthy network now origin) cache maxEntries w = (Except.ok (), w1) ∧
      w1.cache cache = evict maxEntries (w.cache cache) ∧
      (∀ n, n ≠ cache → w1.cache n = w.cache n) ∧ w1.fetched = w.fetched := by
  by_cases h : (w.cache cache).length > maxEntries
  · have h1 : ((w.cache cache).map (fun p => p.1)).length > maxEntries := by simpa using h
    refine ⟨deleteKeys cache (((w.cache cache).map (fun p => p.1)).take
        (((w.cache cache).map (fun p => p.1)).length - maxEntries)) w, ?_, ?_, ?_, ?_⟩
    · simp only [limitCacheSize, SW.bind_eq]
      rw [SW.bind_of_ok _ _ _ _ _ (cacheKeys_healthy ..), if_pos h1]
      exact all_delete_healthy ..
    · simp [cache_deleteKeys, evict, h]
    · intro n hn; exact cache_deleteKeys_other cache n hn _ _
    · exact fetched_deleteKeys cache _ _
  · have h1 : ¬ ((w.cache cache).map (fun p => p.1)).length > maxEntries := by simpa using h
    refine ⟨w, ?_, ?_, ?_, ?_⟩
    · simp only [limitCacheSize, SW.bind_eq]
      rw [SW.bind_of_ok _ _ _ _ _ (cacheKeys_healthy ..), if_neg h1]
      rfl
    · simp [evict, h]
    · intro n _; rfl
    · rfl

theorem cacheResponse_healthy (network : Request → Except JsError Response) (now : Nat)
    (origin cache : String) (request : Request) (response : Response) (rule : Option Rule)
    (w : World) :
    ∃ w1, cacheResponse (Env.healthy network now origin) cache request response rule w
        = (Except.ok (), w1) ∧
      w1.cache cache = written now request.url response rule (w.cache cache) ∧
      (∀ n, n ≠ cache → w1.cache n = w.cache n) ∧ w1.fetched = w.fetched := by
  cases hm : truthy (rule.bind Rule.maxEntries) with
  | none =>
    refine ⟨w.setCache cache ((w.cache cache).filter (fun p => p.1 != request.url) ++
        [(request.url, stamped now response)]), ?_, ?_, ?_, ?_⟩
    · simp only [cacheResponse, SW.bind_eq, hm]
      rw [SW.bind_of_ok _ _ _ _ _ (newResponse_healthy ..),
        SW.bind_of_ok _ _ _ _ _ (cachePut_healthy ..)]
      rfl
    · simp [written, limitTo, hm]
    · intro n hn; exact World.cache_setCache_other _ _ _ _ hn
    · rfl
  | some N =>
    obtain ⟨w1, h1, h2, h3, h4⟩ := limitCacheSize_healthy network now origin cache N
      (w.setCache cache ((w.cache cache).filter (fun p => p.1 != request.url) ++
        [(request.url, stamped now response)]))
    refine ⟨w1, ?_, ?_, ?_, ?_⟩
    · simp only [cacheResponse, SW.bind_eq, hm]
      rw [SW.bind_of_ok _ _ _ _ _ (newResponse_healthy ..),
        SW.bind_of_ok _ _ _ _ _ (cachePut_healthy ..)]
      exact h1
    · rw [h2]; simp [written, limitTo, hm]
    · intro n hn; rw [h3 n hn]; exact World.cache_setCache_other _ _ _ _ hn
    · rw [h4]; rfl

/-! ## Eviction on lists -/

theorem filter_take_keys_nil (c : Cache) (m : Nat) :
    (c.take m).filter (fun p => !((c.map (fun q => q.1)).take m).contains p.1) = [] := by
  rw [List.filter_eq_nil_iff]
  intro p hp
  have : p.1 ∈ (c.map (fun q => q.1)).take m := by
    rw [← List.map_take]
    exact List.mem_map_of_mem (fun q => q.1) hp
  simp [this]

theorem evict_eq_filter_drop (N : Nat) (c : Cache) (h : c.length > N) :
    evict N c = (c.drop (c.length - N)).filter
      (fun p => !((c.map (fun q => q.1)).take (c.length - N)).contains p.1) := by
  unfold evict
  rw [if_pos h]
  conv_lhs => rw [← List.take_append_drop (c.length - N) c]
  rw [List.filter_append]
  have := filter_take_keys_nil c (c.length - N)
  rw [List.take_append_drop] 
  rw [this, List.nil_append]

theorem evict_length_le (N : Nat) (c : Cache) : (evict N c).length ≤ N := by
  by_cases h : c.length > N
  · rw [evict_eq_filter_drop N c h]
    calc _ ≤ (c.drop (c.length - N)).length := List.length_filter_le _ _
      _ = N := by rw [List.length_drop]; omega
  · unfold evict
    rw [if_neg h]
    omega

theorem evict_nodup (N : Nat) (c : Cache) (hc : (c.map (fun q => q.1)).Nodup) :
    evict N c = c.drop (c.length - N) := by
  by_cases h : c.length > N
  · rw [evict_eq_filter_drop N c h, List.filter_eq_self]
    intro p hp
    have hsplit : c.map (fun q => q.1)
        = (c.map (fun q => q.1)).take (c.length - N) ++ (c.map (fun q => q.1)).drop (c.length - N) :=
      (List.take_append_drop _ _).symm
    rw [hsplit, List.nodup_append] at hc
    have hmem : p.1 ∈ (c.map (fun q => q.1)).drop (c.length - N) := by
      rw [← List.map_drop]
      exact List.mem_map_of_mem (fun q => q.1) hp
    have : p.1 ∉ (c.map (fun q => q.1)).take (c.length - N) := fun h1 => hc.2.2 h1 hmem
    simp [this]
  · unfold evict
    rw [if_neg h]
    have : c.length - N = 0 := by omega
    rw [this, List.drop_zero]

theorem evict_snoc (N : Nat) (hN : 1 ≤ N) (X : Cache) (url : String) (r : Response)
    (hX : ∀ p ∈ X, p.1 ≠ url) :
    ∃ Y : Cache, evict N (X ++ [(url, r)]) = Y ++ [(url, r)] ∧ (∀ p ∈ Y, p ∈ X) := by
  by_cases h : (X ++ [(url, r)]).length > N
  · refine ⟨X.filter (fun p => !(((X ++ [(url, r)]).map (fun q => q.1)).take
        ((X ++ [(url, r)]).length - N)).contains p.1), ?_, ?_⟩
    · unfold evict
      rw [if_pos h, List.filter_append]
      congr 1
      rw [List.filter_eq_self]
      intro p hp
      have hp1 : p = (url, r) := by simpa using hp
      subst hp1
      have hlen : (X ++ [(url, r)]).length - N ≤ (X.map (fun q => q.1)).length := by
        simp; omega
      have : url ∉ ((X ++ [(url, r)]).map (fun q => q.1)).take ((X ++ [(url, r)]).length - N) := by
        rw [List.map_append, List.take_append_of_le_length hlen]
        intro hmem
        have := List.mem_of_mem_take hmem
        obtain ⟨q, hq, hq1⟩ := List.mem_map.mp this
        exact hX q hq hq1
      simpa using this
    · intro p hp
      exact (List.mem_filter.mp hp).1
  · refine ⟨X, ?_, fun p hp => hp⟩
    unfold evict
    rw [if_neg h]

theorem written_snoc (now : Nat) (url : String) (response : Response) (rule : Option Rule)
    (c : Cache) :
    ∃ Y : Cache, written now url response rule c = Y ++ [(url, stamped now response)] ∧
      (∀ p ∈ Y, p.1 ≠ url) ∧ (∀ p ∈ Y, p ∈ c) ∧
      (∀ N, truthy (rule.bind Rule.maxEntries) = some N → Y.length + 1 ≤ N) := by
  have hX : ∀ p ∈ c.filter (fun p => p.1 != url), p.1 ≠ url := by
    intro p hp
    simpa using (List.mem_filter.mp hp).2
  cases hm : truthy (rule.bind Rule.maxEntries) with
  | none =>
    refine ⟨c.filter (fun p => p.1 != url), ?_, hX, ?_, ?_⟩
    · simp [written, limitTo, hm]
    · intro p hp; exact (List.mem_filter.mp hp).1
    · intro N hN; cases hN
  | some N =>
    have hN : 1 ≤ N := by
      cases hr : rule.bind Rule.maxEntries with
      | none => simp [truthy, hr] at hm
      | some n =>
        simp only [truthy, hr] at hm
        split at hm
        · cases hm
        · cases hm; omega
    obtain ⟨Y, hY, hsub⟩ := evict_snoc N hN _ url (stamped now response) hX
    refine ⟨Y, ?_, ?_, ?_, ?_⟩
    · simp [written, limitTo, hm, hY]
    · intro p hp; exact hX p (hsub p hp)
    · intro p hp; exact (List.mem_filter.mp (hsub p hp)).1
    · intro N1 hN1
      cases hN1
      have := evict_length_le N (c.filter (fun p => p.1 != url) ++ [(url, stamped now response)])
      rw [hY] at this
      simpa using this

/-! ## The strategies when the store is healthy -/

theorem fetch_apply (env : Env) (request : Request) (w : World) :
    fetch env request w = (env.network request, w.logFetch request) := rfl

theorem fetchAndCache_error (network : Request → Except JsError Response) (now : Nat)
    (origin cache : String) (request : Request) (rule : Option Rule) (w : World) (e : JsError)
    (hn : network request = Except.error e) :
    fetchAndCache (Env.healthy network now origin) request cache rule w
      = (Except.error e, w.logFetch request) := by
  simp only [fetchAndCache, SW.bind_eq]
  exact SW.bind_of_error _ _ _ _ _ (by rw [fetch_apply]; simp [Env.healthy, hn])

theorem fetchAndCache_not_ok (network : Request → Except JsError Response) (now : Nat)
    (origin cache : String) (request : Request) (rule : Option Rule) (w : World)
    (response : Response) (hn : network request = Except.ok response)
    (hok : response.ok = false) :
    fetchAndCache (Env.healthy network now origin) request cache rule w
      = (Except.ok response, w.logFetch request) := by
  simp only [fetchAndCache, SW.bind_eq]
  rw [SW.bind_of_ok _ _ w (w.logFetch request) response
    (by rw [fetch_apply]; simp [Env.healthy, hn])]
  simp only [hok]
  rfl

theorem fetchAndCache_ok (network : Request → Except JsError Response) (now : Nat)
    (origin cache : String) (request : Request) (rule : Option Rule) (w : World)
    (response : Response) (hn : network request = Except.ok response)
    (hok : response.ok = true) :
    ∃ w1, fetchAndCache (Env.healthy network now origin) request cache rule w
        = (Except.ok response, w1) ∧
      w1.cache cache = written now request.url response rule (w.cache cache) ∧
      (∀ n, n ≠ cache → w1.cache n = w.cache n) ∧
      w1.fetched = w.fetched ++ [request] := by
  obtain ⟨w1, h1, h2, h3, h4⟩ := cacheResponse_healthy network now origin cache request
    response rule (w.logFetch request)
  refine ⟨w1, ?_, h2, h3, h4⟩
  simp only [fetchAndCache, SW.bind_eq]
  rw [SW.bind_of_ok _ _ w (w.logFetch request) response
    (by rw [fetch_apply]; simp [Env.healthy, hn])]
  simp only [hok, if_true]
  rw [SW.bind_of_ok _ _ _ _ _ h1]
  rfl

@[simp] theorem World.cache_logFetch (w : World) (request : Request) (n : String) :
    (w.logFetch request).cache n = w.cache n := rfl

@[simp] theorem World.fetched_logFetch (w : World) (request : Request) :
    (w.logFetch request).fetched = w.fetched ++ [request] := rfl

theorem cache_ne_nil_of_lookup {w : World} {name url : String} {cached : Response}
    (hc : (w.cache name).lookup url = some cached) : w.cache name ≠ [] := by
  intro h
  rw [h] at hc
  cases hc

/-- A hit of `cacheFirst`: what is left to run after the entry has been read. -/
theorem cacheFirst_hit (network : Request → Except JsError Response) (now : Nat)
    (origin : String) (request : Request) (rule : Option Rule) (w : World) (cached : Response)
    (hc : (w.cache DYNAMIC_CACHE_NAME).lookup request.url = some cached) :
    cacheFirst (Env.healthy network now origin) request rule w
      = match truthy (rule.bind Rule.maxAge) with
        | some maxAge =>
          if isExpired now cached maxAge then
            (Except.ok cached,
              (fetchAndCache (Env.healthy network now origin) request DYNAMIC_CACHE_NAME rule w).2)
          else (Except.ok cached, w)
        | none => (Except.ok cached, w) := by
  simp only [cacheFirst, SW.bind_eq]
  rw [SW.bind_of_ok _ _ _ _ _ (cachesOpen_healthy ..),
    World.ensure_of_cache_ne_nil w _ (cache_ne_nil_of_lookup hc),
    SW.bind_of_ok _ _ _ _ _ (cacheMatch_healthy ..)]
  simp only [hc]
  cases truthy (rule.bind Rule.maxAge) with
  | none => rfl
  | some m =>
    simp only [Env.healthy]
    by_cases he : isExpired now cached m = true
    · simp only [he, if_true]
      rfl
    · simp only [he]
      rfl

/-- A miss of `cacheFirst`: the response is fetched and stored whatever its status. -/
theorem cacheFirst_miss_ok (network : Request → Except JsError Response) (now : Nat)
    (origin : String) (request : Request) (rule : Option Rule) (w : World) (response : Response)
    (hc : (w.cache DYNAMIC_CACHE_NAME).lookup request.url = none)
    (hn : network request = Except.ok response) :
    ∃ w1, cacheFirst (Env.healthy network now origin) request rule w = (Except.ok response, w1) ∧
      w1.cache DYNAMIC_CACHE_NAME
        = written now request.url response rule (w.cache DYNAMIC_CACHE_NAME) ∧
      (∀ n, n ≠ DYNAMIC_CACHE_NAME → w1.cache n = w.cache n) ∧
      w1.fetched = w.fetched ++ [request] := by
  obtain ⟨w1, h1, h2, h3, h4⟩ := cacheResponse_healthy network now origin DYNAMIC_CACHE_NAME
    request response rule ((w.ensure DYNAMIC_CACHE_NAME).logFetch request)
  refine ⟨w1, ?_, ?_, ?_, ?_⟩
  · simp only [cacheFirst, SW.bind_eq]
    rw [SW.bind_of_ok _ _ _ _ _ (cachesOpen_healthy ..),
      SW.bind_of_ok _ _ _ _ _ (cacheMatch_healthy ..)]
    simp only [World.cache_ensure, hc, SW.bind_eq]
    rw [SW.bind_of_ok _ _ _ ((w.ensure DYNAMIC_CACHE_NAME).logFetch request) response
      (by rw [fetch_apply]; simp [Env.healthy, hn])]
    rw [SW.bind_of_ok _ _ _ _ _ h1]
    rfl
  · rw [h2]; simp
  · intro n hn1; rw [h3 n hn1]; simp
  · rw [h4]; simp

theorem cacheFirst_miss_error (network : Request → Except JsError Response) (now : Nat)
    (origin : String) (request : Request) (rule : Option Rule) (w : World) (e : JsError)
    (hc : (w.cache DYNAMIC_CACHE_NAME).lookup request.url = none)
    (hn : network request = Except.error e) :
    cacheFirst (Env.healthy network now origin) request rule w
      = (Except.error e, (w.ensure DYNAMIC_CACHE_NAME).logFetch request) := by
  simp only [cacheFirst, SW.bind_eq]
  rw [SW.bind_of_ok _ _ _ _ _ (cachesOpen_healthy ..),
    SW.bind_of_ok _ _ _ _ _ (cacheMatch_healthy ..)]
  simp only [World.cache_ensure, hc, SW.bind_eq]
  exact SW.bind_of_error _ _ _ _ _ (by rw [fetch_apply]; simp [Env.healthy, hn])

/-! ## Association lists -/

theorem lookup_eq_none_of_keys {β : Type} (k : String) :
    ∀ (l : List (String × β)), (∀ p ∈ l, p.1 ≠ k) → l.lookup k = none := by
  intro l
  induction l with
  | nil => intro _; rfl
  | cons a t ih =>
    intro h
    obtain ⟨k1, v1⟩ := a
    have h1 : (k == k1) = false := by
      have := h (k1, v1) (List.mem_cons_self _ _)
      simpa using fun e => this e.symm
    simp only [List.lookup, h1]
    exact ih (fun p hp => h p (List.mem_cons_of_mem _ hp))

theorem lookup_append_of_keys {β : Type} (k : String) (l2 : List (String × β)) :
    ∀ (l : List (String × β)), (∀ p ∈ l, p.1 ≠ k) → (l ++ l2).lookup k = l2.lookup k := by
  intro l
  induction l with
  | nil => intro _; rfl
  | cons a t ih =>
    intro h
    obtain ⟨k1, v1⟩ := a
    have h1 : (k == k1) = false := by
      have := h (k1, v1) (List.mem_cons_self _ _)
      simpa using fun e => this e.symm
    simp only [List.cons_append, List.lookup, h1]
    exact ih (fun p hp => h p (List.mem_cons_of_mem _ hp))

theorem lookup_snoc_same {β : Type} (k : String) (v : β) (l : List (String × β))
    (h : ∀ p ∈ l, p.1 ≠ k) : (l ++ [(k, v)]).lookup k = some v := by
  rw [lookup_append_of_keys k _ l h]
  simp [List.lookup]

theorem cacheDateTime_stamped (now : Nat) (response : Response) :
    cacheDateTime (stamped now response) = some (now : Int) := by
  have h : ∀ p ∈ response.headers.filter (fun h => h.1 != "sw-cache-date"),
      p.1 ≠ "sw-cache-date" := by
    intro p hp
    simpa using (List.mem_filter.mp hp).2
  simp only [cacheDateTime, stamped, setHeader]
  rw [lookup_snoc_same "sw-cache-date" _ _ h]
  rfl

theorem isExpired_iff (now : Nat) (cached : Response) (s m : Nat)
    (hs : cached.headers.lookup "sw-cache-date" = some (HeaderValue.isoDate s)) :
    isExpired now cached m = true ↔ (now : Int) - (s : Int) > (m : Int) := by
  simp [isExpired, cacheDateTime, hs, HeaderValue.getTime]

theorem truthy_pos (m : Nat) (h : 0 < m) : truthy (some m) = some m := by
  simp [truthy]; omega

/-! ## Rule selection -/

theorem find?_first_match {α : Type} (p : α → Bool) :
    ∀ (l : List α) (i : Nat) (hi : i < l.length), p l[i] = true →
      ∃ k, ∃ hk : k < l.length, k ≤ i ∧ p l[k] = true ∧
        (∀ m, ∀ hm : m < k, p (l[m]) = false) ∧ l.find? p = some l[k] := by
  intro l
  induction l with
  | nil => intro i hi; simp at hi
  | cons a t ih =>
    intro i hi hp
    by_cases ha : p a = true
    · exact ⟨0, by simp, Nat.zero_le _, by simpa using ha, by intro m hm; omega,
        by simp [List.find?, ha]⟩
    · cases i with
      | zero => simp at hp; exact absurd hp ha
      | succ i =>
        have hi2 : i < t.length := by simpa using hi
        obtain ⟨k, hk, hki, hpk, hlt, hfind⟩ := ih i hi2 (by simpa using hp)
        refine ⟨k + 1, by simpa using hk, by omega, by simpa using hpk, ?_, ?_⟩
        · intro m hm
          cases m with
          | zero => simpa using ha
          | succ m => simpa using hlt m (by omega)
        · simp [List.find?, ha, hfind]

/-! ## Claims -/

/-- C1. The rule `handleRequest` selects is the first rule, in list order, whose pattern
matches the path: when the rule at position `i` matches, the selected rule is the one at a
position `k ≤ i` where no rule before `k` matches, so a rule at a later position `j > i`,
matching or not, is never the one selected; the request is dispatched with the rule at `k`. -/
theorem handleRequest_selects_first_match (rules : List Rule) (env : Env) (request : Request)
    (i j : Nat) (hij : i < j) (hj : j < rules.length)
    (hmi : (rules[i]).pattern request.pathname = true) :
    ∃ k, ∃ hk : k < rules.length, k ≤ i ∧ k ≠ j ∧
      (rules[k]).pattern request.pathname = true ∧
      (∀ m, ∀ hm : m < k, (rules[m]).pattern request.pathname = false) ∧
      findRule rules request.pathname = some rules[k] ∧
      handleRequest rules env request =
        SW.tryCatch (runStrategy env (strategyOf (some rules[k])) request (some rules[k]))
          (fun _ => getOfflineFallback env request) := by
  obtain ⟨k, hk, hki, hpk, hlt, hfind⟩ :=
    find?_first_match (fun rule => rule.pattern request.pathname) rules i (by omega) hmi
  have hfind1 : findRule rules request.pathname = some rules[k] := hfind
  refine ⟨k, hk, hki, by omega, hpk, hlt, hfind1, ?_⟩
  simp only [handleRequest]
  rw [hfind1]

/-- Witness of C1: the path `/api/app.js` matches the first and the last rule of
`CACHE_RULES`. -/
theorem handleRequest_selects_first_match_witness :
    ∃ k, ∃ hk : k < CACHE_RULES.length, k ≤ 0 ∧ k ≠ 3 ∧
      (CACHE_RULES[k]).pattern sampleApiScript.pathname = true ∧
      (∀ m, ∀ hm : m < k, (CACHE_RULES[m]).pattern sampleApiScript.pathname = false) ∧
      findRule CACHE_RULES sampleApiScript.pathname = some CACHE_RULES[k] ∧
      handleRequest CACHE_RULES sampleEnv sampleApiScript =
        SW.tryCatch (runStrategy sampleEnv (strategyOf (some CACHE_RULES[k])) sampleApiScript
            (some CACHE_RULES[k]))
          (fun _ => getOfflineFallback sampleEnv sampleApiScript) :=
  handleRequest_selects_first_match CACHE_RULES sampleEnv sampleApiScript 0 3 (by decide)
    (by decide) (by decide)

/-- C2. Rule matching in `handleRequest` is total: whatever the rules and the path, the
request is dispatched to one of the five strategies; and when no rule matches the path, no
rule is selected, the strategy is NetworkFirst and the request is handled by `networkFirst`. -/
theorem handleRequest_total_default_networkFirst (rules : List Rule) (env : Env)
    (request : Request) :
    (runStrategy env (strategyOf (findRule rules request.pathname)) request
          (findRule rules request.pathname)
        = cacheFirst env request (findRule rules request.pathname) ∨
      runStrategy env (strategyOf (findRule rules request.pathname)) request
          (findRule rules request.pathname)
        = networkFirst env request (findRule rules request.pathname) ∨
      runStrategy env (strategyOf (findRule rules request.pathname)) request
          (findRule rules request.pathname)
        = staleWhileRevalidate env request (findRule rules request.pathname) ∨
      runStrategy env (strategyOf (findRule rules request.pathname)) request
          (findRule rules request.pathname)
        = fetch env request ∨
      runStrategy env (strategyOf (findRule rules request.pathname)) request
          (findRule rules request.pathname)
        = cacheOnly env request) ∧
    ((∀ r ∈ rules, r.pattern request.pathname = false) →
      findRule rules request.pathname = none ∧
      strategyOf (findRule rules request.pathname) = NETWORK_FIRST ∧
      handleRequest rules env request =
        SW.tryCatch (networkFirst env request none) (fun _ => getOfflineFallback env request)) := by
  constructor
  · unfold runStrategy
    split
    · exact Or.inl rfl
    · split
      · exact Or.inr (Or.inl rfl)
      · split
        · exact Or.inr (Or.inr (Or.inl rfl))
        · split
          · exact Or.inr (Or.inr (Or.inr (Or.inl rfl)))
          · split
            · exact Or.inr (Or.inr (Or.inr (Or.inr rfl)))
            · exact Or.inr (Or.inl rfl)
  · intro h
    have hnone : findRule rules request.pathname = none := by
      unfold findRule
      rw [List.find?_eq_none]
      intro r hr
      simp [h r hr]
    refine ⟨hnone, ?_, ?_⟩
    · rw [hnone]; rfl
    · simp only [handleRequest, hnone]
      rfl

/-- Witness of C2: `/index.html` matches no rule of `CACHE_RULES`. -/
theorem handleRequest_total_default_networkFirst_witness :
    findRule CACHE_RULES samplePage.pathname = none ∧
      strategyOf (findRule CACHE_RULES samplePage.pathname) = NETWORK_FIRST ∧
      handleRequest CACHE_RULES sampleEnv samplePage =
        SW.tryCatch (networkFirst sampleEnv samplePage none)
          (fun _ => getOfflineFallback sampleEnv samplePage) :=
  (handleRequest_total_default_networkFirst CACHE_RULES sampleEnv samplePage).2 (by decide)

/-- C3. For a cached entry whose stored timestamp is `s` and a rule with a positive
`maxAge` of `m`, the expiry check of `cacheFirst` reports the entry expired exactly when
`now - s > m`: the refresh fetch is issued in that case and in no other. With `m = 1000`, an
entry written at `t0` is expired at `t0 + 1001`, and neither at `t0 + 999` nor at
`t0 + 1000`. -/
theorem cacheFirst_expiry_strict (network : Request → Except JsError Response) (now : Nat)
    (origin : String) (request : Request) (rule : Rule) (w : World) (cached : Response)
    (s m : Nat)
    (hc : (w.cache DYNAMIC_CACHE_NAME).lookup request.url = some cached)
    (hs : cached.headers.lookup "sw-cache-date" = some (HeaderValue.isoDate s))
    (hm : rule.maxAge = some m) (hpos : 0 < m) :
    (isExpired now cached m = true ↔ (now : Int) - (s : Int) > (m : Int)) ∧
    (cacheFirst (Env.healthy network now origin) request (some rule) w).2.fetched
      = (if (now : Int) - (s : Int) > (m : Int) then w.fetched ++ [request] else w.fetched) ∧
    (∀ (t0 : Nat) (response : Response),
      isExpired (t0 + 1001) (stamped t0 response) 1000 = true ∧
      isExpired (t0 + 999) (stamped t0 response) 1000 = false ∧
      isExpired (t0 + 1000) (stamped t0 response) 1000 = false) := by
  have hiff := isExpired_iff now cached s m hs
  refine ⟨hiff, ?_, ?_⟩
  · rw [cacheFirst_hit network now origin request (some rule) w cached hc]
    have ht : truthy ((some rule).bind Rule.maxAge) = some m := by
      simp only [Option.bind, hm]
      exact truthy_pos m hpos
    simp only [ht]
    by_cases he : (now : Int) - (s : Int) > (m : Int)
    · rw [if_pos (hiff.mpr he), if_pos he]
      cases hnet : network request with
      | error e =>
        rw [fetchAndCache_error network now origin _ request _ w e hnet]
        rfl
      | ok response =>
        by_cases hok : response.ok = true
        · obtain ⟨w1, h1, _, _, h4⟩ :=
            fetchAndCache_ok network now origin DYNAMIC_CACHE_NAME request (some rule) w
              response hnet hok
          rw [h1]
          exact h4
        · rw [fetchAndCache_not_ok network now origin _ request _ w response hnet
            (by simpa using hok)]
          rfl
    · have he2 : ¬ (isExpired now cached m = true) := fun h => he (hiff.mp h)
      rw [if_neg he2, if_neg he]
  · intro t0 response
    have h := fun n => isExpired_iff n (stamped t0 response) t0 1000 (by
      have h : ∀ p ∈ response.headers.filter (fun h => h.1 != "sw-cache-date"),
          p.1 ≠ "sw-cache-date" := by
        intro p hp
        simpa using (List.mem_filter.mp hp).2
      simp only [stamped, setHeader]
      exact lookup_snoc_same "sw-cache-date" _ _ h)
    refine ⟨(h _).mpr (by push_cast; omega), ?_, ?_⟩
    · have := (h (t0 + 999)).not.mpr (by push_cast; omega)
      simpa using this
    · have := (h (t0 + 1000)).not.mpr (by push_cast; omega)
      simpa using this

/-- C4. When no rule is matched, or the matched rule carries no `maxAge`, a cached entry is
never reported expired: whatever its stored timestamp and the current time, `cacheFirst`
returns the cached entry and the world is left as it was, so no refresh fetch is issued. -/
theorem cacheFirst_no_maxAge_never_expires (network : Request → Except JsError Response)
    (now : Nat) (origin : String) (request : Request) (rule : Option Rule) (w : World)
    (cached : Response)
    (hr : rule = none ∨ ∃ r, rule = some r ∧ r.maxAge = none)
    (hc : (w.cache DYNAMIC_CACHE_NAME).lookup request.url = some cached) :
    cacheFirst (Env.healthy network now origin) request rule w = (Except.ok cached, w) := by
  rw [cacheFirst_hit network now origin request rule w cached hc]
  have ht : truthy (rule.bind Rule.maxAge) = none := by
    rcases hr with hr | ⟨r, hr, hnone⟩
    · subst hr; rfl
    · subst hr
      simp only [Option.bind, hnone]
      rfl
  simp only [ht]

theorem truthy_eq_some {v : Option Nat} {m : Nat} (h : truthy v = some m) :
    v = some m ∧ 0 < m := by
  cases v with
  | none => cases h
  | some n =>
    simp only [truthy] at h
    split at h
    · cases h
    · cases h
      exact ⟨rfl, by omega⟩

/-- C8. When the Dynamic cache holds an entry for the request and the entry is not expired
under the matched rule (the rule has no `maxAge`, or the expiry check is false for it),
`cacheFirst` returns exactly the stored entry and the world is left as it was: no request
reaches `fetch` and no cache changes. -/
theorem cacheFirst_warm_cache (network : Request → Except JsError Response) (now : Nat)
    (origin : String) (request : Request) (rule : Option Rule) (w : World) (cached : Response)
    (hc : (w.cache DYNAMIC_CACHE_NAME).lookup request.url = some cached)
    (hfresh : ∀ m, rule.bind Rule.maxAge = some m → isExpired now cached m = false) :
    cacheFirst (Env.healthy network now origin) request rule w = (Except.ok cached, w) ∧
    (cacheFirst (Env.healthy network now origin) request rule w).2.fetched = w.fetched ∧
    (cacheFirst (Env.healthy network now origin) request rule w).2.caches = w.caches := by
  have h : cacheFirst (Env.healthy network now origin) request rule w = (Except.ok cached, w) := by
    rw [cacheFirst_hit network now origin request rule w cached hc]
    cases ht : truthy (rule.bind Rule.maxAge) with
    | none => rfl
    | some m =>
      have := hfresh m (truthy_eq_some ht).1
      simp only [this]
      rfl
  rw [h]
  exact ⟨rfl, rfl, rfl⟩

/-- C9, as amended. When the cached entry is expired under a positive `maxAge` of the
matched rule, `cacheFirst` returns the cached entry whatever the network answers, and
passes the request to `fetch` exactly once; when that fetch fails, or answers with a status
that is not successful, no cache changes. -/
theorem cacheFirst_expired_returns_cached (network : Request → Except JsError Response)
    (now : Nat) (origin : String) (request : Request) (rule : Rule) (w : World)
    (cached : Response) (m : Nat)
    (hc : (w.cache DYNAMIC_CACHE_NAME).lookup request.url = some cached)
    (hm : rule.maxAge = some m) (hpos : 0 < m)
    (hexp : isExpired now cached m = true) :
    (cacheFirst (Env.healthy network now origin) request (some rule) w).1 = Except.ok cached ∧
    (cacheFirst (Env.healthy network now origin) request (some rule) w).2.fetched
      = w.fetched ++ [request] ∧
    (∀ e, network request = Except.error e →
      (cacheFirst (Env.healthy network now origin) request (some rule) w).2.caches = w.caches) ∧
    (∀ response, network request = Except.ok response → response.ok = false →
      (cacheFirst (Env.healthy network now origin) request (some rule) w).2.caches = w.caches) := by
  have ht : truthy ((some rule).bind Rule.maxAge) = some m := by
    simp only [Option.bind, hm]
    exact truthy_pos m hpos
  rw [cacheFirst_hit network now origin request (some rule) w cached hc]
  simp only [ht, hexp, if_true]
  refine ⟨trivial, ?_, ?_, ?_⟩
  · cases hnet : network request with
    | error e =>
      rw [fetchAndCache_error network now origin _ request _ w e hnet]
      rfl
    | ok response =>
      by_cases hok : response.ok = true
      · obtain ⟨w1, h1, _, _, h4⟩ :=
          fetchAndCache_ok network now origin DYNAMIC_CACHE_NAME request (some rule) w
            response hnet hok
        rw [h1]
        exact h4
      · rw [fetchAndCache_not_ok network now origin _ request _ w response hnet
          (by simpa using hok)]
        rfl
  · intro e hnet
    rw [fetchAndCache_error network now origin _ request _ w e hnet]
    rfl
  · intro response hnet hok
    rw [fetchAndCache_not_ok network now origin _ request _ w response hnet hok]
    rfl

/-- The outcome and the world of `networkFirst` when the fetch fails. -/
theorem networkFirst_error (network : Request → Except JsError Response) (now : Nat)
    (origin : String) (request : Request) (rule : Option Rule) (w : World) (e : JsError)
    (hn : network request = Except.error e) :
    networkFirst (Env.healthy network now origin) request rule w
      = (match (w.cache DYNAMIC_CACHE_NAME).lookup request.url with
          | some cached => Except.ok cached
          | none => Except.error e,
         (w.logFetch request).ensure DYNAMIC_CACHE_NAME) := by
  unfold networkFirst SW.tryCatch
  simp only [SW.bind_eq]
  rw [SW.bind_of_error _ _ _ (w.logFetch request) e
    (by rw [fetch_apply]; simp [Env.healthy, hn])]
  simp only []
  rw [SW.bind_of_ok _ _ _ _ _ (cachesOpen_healthy ..),
    SW.bind_of_ok _ _ _ _ _ (cacheMatch_healthy ..)]
  simp only [World.cache_ensure, World.cache_logFetch]
  cases (w.cache DYNAMIC_CACHE_NAME).lookup request.url with
  | none => rfl
  | some cached => rfl

/-- The outcome of `networkFirst` when the fetch succeeds. -/
theorem networkFirst_ok (network : Request → Except JsError Response) (now : Nat)
    (origin : String) (request : Request) (rule : Option Rule) (w : World)
    (response : Response) (hn : network request = Except.ok response) :
    ∃ w1, networkFirst (Env.healthy network now origin) request rule w
        = (Except.ok response, w1) ∧
      w1.cache DYNAMIC_CACHE_NAME
        = (if response.ok then written now request.url response rule (w.cache DYNAMIC_CACHE_NAME)
           else w.cache DYNAMIC_CACHE_NAME) ∧
      (∀ n, n ≠ DYNAMIC_CACHE_NAME → w1.cache n = w.cache n) ∧
      w1.fetched = w.fetched ++ [request] := by
  have hf : fetch (Env.healthy network now origin) request w
      = (Except.ok response, w.logFetch request) := by
    rw [fetch_apply]; simp [Env.healthy, hn]
  by_cases hok : response.ok = true
  · obtain ⟨w1, h1, h2, h3, h4⟩ := cacheResponse_healthy network now origin
      DYNAMIC_CACHE_NAME request response rule ((w.logFetch request).ensure DYNAMIC_CACHE_NAME)
    refine ⟨w1, ?_, ?_, ?_, ?_⟩
    · unfold networkFirst SW.tryCatch
      simp only [SW.bind_eq]
      rw [SW.bind_of_ok _ _ _ _ _ hf]
      simp only [hok, if_true]
      rw [SW.bind_of_ok _ _ _ _ _ (cachesOpen_healthy ..), SW.bind_of_ok _ _ _ _ _ h1]
      rfl
    · rw [h2]; simp [hok]
    · intro n hn1; rw [h3 n hn1]; simp
    · rw [h4]; simp
  · refine ⟨w.logFetch request, ?_, ?_, ?_, ?_⟩
    · unfold networkFirst SW.tryCatch
      simp only [SW.bind_eq]
      rw [SW.bind_of_ok _ _ _ _ _ hf]
      simp only [hok]
      rfl
    · simp [hok]
    · intro n _; rfl
    · rfl

/-! ## Writes -/

theorem lookup_of_mem_nodup {β : Type} :
    ∀ (l : List (String × β)), (l.map (fun q => q.1)).Nodup →
      ∀ p, p ∈ l → l.lookup p.1 = some p.2 := by
  intro l
  induction l with
  | nil => intro _ p hp; cases hp
  | cons a t ih =>
    intro hnd p hp
    obtain ⟨k1, v1⟩ := a
    rw [List.map_cons, List.nodup_cons] at hnd
    rcases List.mem_cons.mp hp with h | h
    · subst h; simp [List.lookup]
    · have hne : (p.1 == k1) = false := by
        have : p.1 ≠ k1 := by
          intro e
          exact hnd.1 (e ▸ List.mem_map_of_mem (fun q => q.1) h)
        simpa using this
      simp only [List.lookup, hne]
      exact ih hnd.2 p h

theorem written_twice (t1 t2 : Nat) (url : String) (r1 r2 : Response) (rule : Option Rule)
    (c : Cache) :
    ∃ Y : Cache, written t1 url r1 rule c = Y ++ [(url, stamped t1 r1)] ∧
      written t2 url r2 rule (written t1 url r1 rule c) = Y ++ [(url, stamped t2 r2)] ∧
      (∀ p ∈ Y, p.1 ≠ url) := by
  obtain ⟨Y, hY, hne, _, hlen⟩ := written_snoc t1 url r1 rule c
  refine ⟨Y, hY, ?_, hne⟩
  have hfilter : (Y ++ [(url, stamped t1 r1)]).filter (fun p => p.1 != url) = Y := by
    rw [List.filter_append]
    have h1 : Y.filter (fun p => p.1 != url) = Y := by
      rw [List.filter_eq_self]
      intro p hp
      simpa using hne p hp
    rw [h1]
    simp
  rw [hY]
  unfold written
  rw [hfilter]
  cases hm : truthy (rule.bind Rule.maxEntries) with
  | none => rfl
  | some N =>
    have := hlen N hm
    simp only [limitTo, evict]
    rw [if_neg (by simp; omega)]

theorem cacheResponse_cache (network : Request → Except JsError Response) (now : Nat)
    (origin cache : String) (request : Request) (response : Response) (rule : Option Rule)
    (w : World) :
    (cacheResponse (Env.healthy network now origin) cache request response rule w).2.cache cache
      = written now request.url response rule (w.cache cache) := by
  obtain ⟨w1, h1, h2, _, _⟩ :=
    cacheResponse_healthy network now origin cache request response rule w
  rw [h1]
  exact h2

/-- C5. Writing the same request twice through `cacheResponse`, first with one response
and then with another, leaves exactly one entry for the request; it is the second response
with the time of the second write as `sw-cache-date`, and the cache has as many entries
after the second write as after the first. -/
theorem cacheResponse_same_key_twice (network : Request → Except JsError Response)
    (origin cache : String) (request : Request) (r1 r2 : Response) (rule : Option Rule)
    (t1 t2 : Nat) (w : World) :
    (((cacheResponse (Env.healthy network t2 origin) cache request r2 rule
        (cacheResponse (Env.healthy network t1 origin) cache request r1 rule w).2).2.cache
          cache).filter (fun p => p.1 == request.url)).length = 1 ∧
    ((cacheResponse (Env.healthy network t2 origin) cache request r2 rule
        (cacheResponse (Env.healthy network t1 origin) cache request r1 rule w).2).2.cache
          cache).lookup request.url = some (stamped t2 r2) ∧
    (stamped t2 r2).body = r2.body ∧
    (stamped t2 r2).status = r2.status ∧
    cacheDateTime (stamped t2 r2) = some (t2 : Int) ∧
    ((cacheResponse (Env.healthy network t2 origin) cache request r2 rule
        (cacheResponse (Env.healthy network t1 origin) cache request r1 rule w).2).2.cache
          cache).length
      = ((cacheResponse (Env.healthy network t1 origin) cache request r1 rule w).2.cache
          cache).length := by
  obtain ⟨Y, h1, h2, hne⟩ := written_twice t1 t2 request.url r1 r2 rule (w.cache cache)
  rw [cacheResponse_cache, cacheResponse_cache, h2, h1]
  refine ⟨?_, lookup_snoc_same _ _ _ hne, rfl, rfl, cacheDateTime_stamped t2 r2, by simp⟩
  rw [List.filter_append]
  have : Y.filter (fun p => p.1 == request.url) = [] := by
    rw [List.filter_eq_nil_iff]
    intro p hp
    simpa using hne p hp
  rw [this]
  simp

/-- The entries of the cache after the writes, computed on the entries alone. -/
theorem writeAll_cache (network : Request → Except JsError Response) (origin cache : String)
    (rule : Option Rule) :
    ∀ (writes : List Write) (w : World),
      (writeAll network origin cache rule writes w).cache cache
        = writes.foldl (fun c x => written x.now x.request.url x.response rule c)
            (w.cache cache) := by
  intro writes
  induction writes with
  | nil => intro w; rfl
  | cons x rest ih =>
    intro w
    simp only [writeAll, List.foldl_cons]
    rw [ih, cacheResponse_cache]

theorem foldl_written_distinct (rule : Rule) (N : Nat) (hN : 1 ≤ N)
    (hr : rule.maxEntries = some N) :
    ∀ (writes : List Write) (c : Cache),
      ((c ++ writes.map Write.entry).map (fun q => q.1)).Nodup → c.length ≤ N →
      writes.foldl (fun c x => written x.now x.request.url x.response (some rule) c) c
        = (c ++ writes.map Write.entry).drop ((c ++ writes.map Write.entry).length - N) := by
  have ht : truthy ((some rule).bind Rule.maxEntries) = some N := by
    simp only [Option.bind, hr]
    exact truthy_pos N hN
  intro writes
  induction writes with
  | nil =>
    intro c _ hlen
    have : c.length - N = 0 := by omega
    simp [this]
  | cons x rest ih =>
    intro c hnd hlen
    have hsplit : c ++ (x :: rest).map Write.entry
        = (c ++ [x.entry]) ++ rest.map Write.entry := by simp
    rw [hsplit] at hnd ⊢
    have hnd1 : ((c ++ [x.entry]).map (fun q => q.1)).Nodup :=
      List.Nodup.sublist ((List.sublist_append_left _ _).map _) hnd
    have hfresh : c.filter (fun p => p.1 != x.request.url) = c := by
      rw [List.filter_eq_self]
      intro p hp
      have hnd2 := hnd1
      rw [List.map_append, List.nodup_append] at hnd2
      have : p.1 ≠ x.request.url := by
        intro e
        exact hnd2.2.2 (List.mem_map_of_mem (fun q => q.1) hp)
          (by simp [Write.entry, e])
      simpa using this
    have hstep : written x.now x.request.url x.response (some rule) c
        = (c ++ [x.entry]).drop ((c ++ [x.entry]).length - N) := by
      unfold written
      rw [hfresh, ht]
      exact evict_nodup N (c ++ [x.entry]) hnd1
    rw [List.foldl_cons, hstep]
    have hsub : (c ++ [x.entry]).drop ((c ++ [x.entry]).length - N) ++ rest.map Write.entry
        = ((c ++ [x.entry]) ++ rest.map Write.entry).drop ((c ++ [x.entry]).length - N) :=
      (@List.drop_append_of_le_length _ (c ++ [x.entry]) (rest.map Write.entry) _
        (Nat.sub_le _ _)).symm
    rw [ih _ (by
        rw [hsub]
        exact List.Nodup.sublist ((List.drop_sublist _ _).map _) hnd)
      (by simp; omega)]
    rw [hsub, List.drop_drop]
    congr 1
    simp
    omega

/-- C6. Starting from an empty cache, writing `N + k` requests with distinct URLs one after
the other through `cacheResponse` under a rule with `maxEntries = N ≥ 1` leaves exactly `N`
entries: the first `k` requests written have no entry, and each of the last `N` requests has
the entry its write stored. -/
theorem cacheResponse_eviction_bound (network : Request → Except JsError Response)
    (origin cache : String) (rule : Rule) (N k : Nat) (hN : 1 ≤ N)
    (hr : rule.maxEntries = some N) (writes : List Write) (hlen : writes.length = N + k)
    (hd : (writes.map (fun x => x.request.url)).Nodup) (w : World)
    (hw : w.cache cache = []) :
    ((writeAll network origin cache (some rule) writes w).cache cache).length = N ∧
    (∀ x ∈ writes.take k,
      ((writeAll network origin cache (some rule) writes w).cache cache).lookup x.request.url
        = none) ∧
    (∀ x ∈ writes.drop k,
      ((writeAll network origin cache (some rule) writes w).cache cache).lookup x.request.url
        = some (stamped x.now x.response)) ∧
    ((writeAll network origin cache (some rule) writes w).cache cache).map (fun p => p.1)
      = (writes.drop k).map (fun x => x.request.url) := by
  have hkeys : (writes.map Write.entry).map (fun q => q.1)
      = writes.map (fun x => x.request.url) := by
    rw [List.map_map]; rfl
  have hfinal : (writeAll network origin cache (some rule) writes w).cache cache
      = (writes.drop k).map Write.entry := by
    rw [writeAll_cache, hw,
      foldl_written_distinct rule N hN hr writes [] (by simpa [hkeys] using hd) (by simp)]
    simp only [List.nil_append, List.length_map, hlen, List.map_drop]
    congr 1
    omega
  have hnd : (((writes.drop k).map Write.entry).map (fun q => q.1)).Nodup := by
    have hk2 : ((writes.drop k).map Write.entry).map (fun q => q.1)
        = (writes.drop k).map (fun x => x.request.url) := by
      rw [List.map_map]; rfl
    rw [hk2]
    exact List.Nodup.sublist ((List.drop_sublist _ _).map _) hd
  rw [hfinal]
  refine ⟨by simp [hlen], ?_, ?_, ?_⟩
  · intro x hx
    apply lookup_eq_none_of_keys
    intro p hp e
    obtain ⟨y, hy, hyp⟩ := List.mem_map.mp hp
    have hd2 := hd
    rw [← List.take_append_drop k writes, List.map_append, List.nodup_append] at hd2
    refine hd2.2.2 (List.mem_map_of_mem (fun x => x.request.url) hx) ?_
    rw [← e, ← hyp]
    exact List.mem_map_of_mem (fun x => x.request.url) hy
  · intro x hx
    exact lookup_of_mem_nodup _ hnd x.entry (List.mem_map_of_mem Write.entry hx)
  · rw [List.map_map]; rfl

/-! ## Witnesses and evaluations -/

/-- Witness of C3: an entry stored at 3000, read at 5000 under a `maxAge` of 1000. -/
theorem cacheFirst_expiry_strict_witness :
    (isExpired 5000 (stamped 3000 sampleResponse) 1000 = true ↔
      ((5000 : Nat) : Int) - ((3000 : Nat) : Int) > ((1000 : Nat) : Int)) ∧
    (cacheFirst sampleEnv sampleImage (some sampleRule) warmWorld).2.fetched = [sampleImage] :=
  ⟨(cacheFirst_expiry_strict onlineNetwork 5000 sampleOrigin sampleImage sampleRule warmWorld
      (stamped 3000 sampleResponse) 3000 1000 (by decide) (by decide) rfl (by decide)).1,
   (cacheFirst_expiry_strict onlineNetwork 5000 sampleOrigin sampleImage sampleRule warmWorld
      (stamped 3000 sampleResponse) 3000 1000 (by decide) (by decide) rfl (by decide)).2.1⟩

/-- Witness of C4: no rule, a warm cache. -/
theorem cacheFirst_no_maxAge_never_expires_witness :
    cacheFirst sampleEnv sampleImage none warmWorld
      = (Except.ok (stamped 3000 sampleResponse), warmWorld) :=
  cacheFirst_no_maxAge_never_expires onlineNetwork 5000 sampleOrigin sampleImage none warmWorld
    (stamped 3000 sampleResponse) (Or.inl rfl) (by decide)

/-- Witness of C6: three writes under a limit of two entries. -/
theorem cacheResponse_eviction_bound_witness :
    ((writeAll onlineNetwork sampleOrigin DYNAMIC_CACHE_NAME (some sampleRule) sampleWrites
        emptyWorld).cache DYNAMIC_CACHE_NAME).length = 2 ∧
    ((writeAll onlineNetwork sampleOrigin DYNAMIC_CACHE_NAME (some sampleRule) sampleWrites
        emptyWorld).cache DYNAMIC_CACHE_NAME).map (fun p => p.1)
      = [sampleImage2.url, sampleImage3.url] :=
  ⟨(cacheResponse_eviction_bound onlineNetwork sampleOrigin DYNAMIC_CACHE_NAME sampleRule 2 1
      (by decide) rfl sampleWrites rfl (by decide) emptyWorld rfl).1,
   (cacheResponse_eviction_bound onlineNetwork sampleOrigin DYNAMIC_CACHE_NAME sampleRule 2 1
      (by decide) rfl sampleWrites rfl (by decide) emptyWorld rfl).2.2.2⟩

/-- Evaluation for C7: on a miss, `cacheFirst` stores a 404 response in the Dynamic cache,
alone and through `handleRequest` with the configured rules. -/
theorem cacheFirst_miss_stores_error_response :
    notFoundResponse.ok = false ∧
    emptyWorld.cache DYNAMIC_CACHE_NAME = [] ∧
    (cacheFirst (Env.healthy notFoundNetwork 5000 sampleOrigin) sampleImage (some sampleRule)
        emptyWorld).1 = Except.ok notFoundResponse ∧
    ((cacheFirst (Env.healthy notFoundNetwork 5000 sampleOrigin) sampleImage (some sampleRule)
        emptyWorld).2.cache DYNAMIC_CACHE_NAME)
      = [(sampleImage.url, stamped 5000 notFoundResponse)] ∧
    ((handleRequest CACHE_RULES (Env.healthy notFoundNetwork 5000 sampleOrigin) sampleImage
        emptyWorld).2.cache DYNAMIC_CACHE_NAME)
      = [(sampleImage.url, stamped 5000 notFoundResponse)] :=
  ⟨by decide, by decide, rfl, by decide, by decide⟩

/-- Witness of C8: the entry stored at 3000 is read at 3500 under a `maxAge` of 1000. -/
theorem cacheFirst_warm_cache_witness :
    cacheFirst (Env.healthy offlineNetwork 3500 sampleOrigin) sampleImage (some sampleRule)
        warmWorld
      = (Except.ok (stamped 3000 sampleResponse), warmWorld) :=
  (cacheFirst_warm_cache offlineNetwork 3500 sampleOrigin sampleImage (some sampleRule)
    warmWorld (stamped 3000 sampleResponse) (by decide)
    (by intro m hm; cases hm; decide)).1

/-- Counterexample to C9 as stated: under a rule whose `maxAge` is 0 the entry stored at
3000 is older than the `maxAge` at 5000, and `cacheFirst` passes nothing to `fetch`. -/
theorem cacheFirst_zero_maxAge_no_refresh :
    zeroAgeRule.maxAge = some 0 ∧
    (warmWorld.cache DYNAMIC_CACHE_NAME).lookup sampleImage.url
      = some (stamped 3000 sampleResponse) ∧
    isExpired 5000 (stamped 3000 sampleResponse) 0 = true ∧
    (cacheFirst sampleEnv sampleImage (some zeroAgeRule) warmWorld).1
      = Except.ok (stamped 3000 sampleResponse) ∧
    (cacheFirst sampleEnv sampleImage (some zeroAgeRule) warmWorld).2.fetched = [] :=
  ⟨rfl, by decide, by decide, rfl, by decide⟩

/-- Witness of C9 as amended: the entry is expired at 5000 and the network is down. -/
theorem cacheFirst_expired_returns_cached_witness :
    (cacheFirst (Env.healthy offlineNetwork 5000 sampleOrigin) sampleImage (some sampleRule)
        warmWorld).1 = Except.ok (stamped 3000 sampleResponse) ∧
    (cacheFirst (Env.healthy offlineNetwork 5000 sampleOrigin) sampleImage (some sampleRule)
        warmWorld).2.fetched = [sampleImage] ∧
    (cacheFirst (Env.healthy offlineNetwork 5000 sampleOrigin) sampleImage (some sampleRule)
        warmWorld).2.caches = warmWorld.caches :=
  ⟨(cacheFirst_expired_returns_cached offlineNetwork 5000 sampleOrigin sampleImage sampleRule
      warmWorld (stamped 3000 sampleResponse) 1000 (by decide) rfl (by decide) (by decide)).1,
   (cacheFirst_expired_returns_cached offlineNetwork 5000 sampleOrigin sampleImage sampleRule
      warmWorld (stamped 3000 sampleResponse) 1000 (by decide) rfl (by decide) (by decide)).2.1,
   (cacheFirst_expired_returns_cached offlineNetwork 5000 sampleOrigin sampleImage sampleRule
      warmWorld (stamped 3000 sampleResponse) 1000 (by decide) rfl (by decide)
      (by decide)).2.2.1 (JsError.network "Failed to fetch") rfl⟩

/-! ## Stale-while-revalidate and cache-only when the store is healthy -/

/-- The outcome of `fetchAndCache` is the answer of the network, and the request is logged
once. -/
theorem fetchAndCache_outcome (network : Request → Except JsError Response) (now : Nat)
    (origin cache : String) (request : Request) (rule : Option Rule) (w : World) :
    (fetchAndCache (Env.healthy network now origin) request cache rule w).1 = network request ∧
    (fetchAndCache (Env.healthy network now origin) request cache rule w).2.fetched
      = w.fetched ++ [request] := by
  cases hnet : network request with
  | error e =>
    rw [fetchAndCache_error network now origin cache request rule w e hnet]
    exact ⟨rfl, rfl⟩
  | ok response =>
    by_cases hok : response.ok = true
    · obtain ⟨w1, h1, _, _, h4⟩ :=
        fetchAndCache_ok network now origin cache request rule w response hnet hok
      rw [h1]
      exact ⟨rfl, h4⟩
    · rw [fetchAndCache_not_ok network now origin cache request rule w response hnet
        (by simpa using hok)]
      exact ⟨rfl, rfl⟩

theorem SW.settle_apply {α : Type} (m : SW α) (w : World) :
    SW.settle m w = (Except.ok (m w).1, (m w).2) := rfl

/-- The function `staleWhileRevalidate` with a healthy store: the refresh runs on the world
left by `caches.open`, and the cached entry, when there is one, is what is returned. -/
theorem staleWhileRevalidate_healthy (network : Request → Except JsError Response) (now : Nat)
    (origin : String) (request : Request) (rule : Option Rule) (w : World) :
    staleWhileRevalidate (Env.healthy network now origin) request rule w
      = (match (w.cache DYNAMIC_CACHE_NAME).lookup request.url with
          | some cached => Except.ok cached
          | none => (fetchAndCache (Env.healthy network now origin) request DYNAMIC_CACHE_NAME
              rule (w.ensure DYNAMIC_CACHE_NAME)).1,
         (fetchAndCache (Env.healthy network now origin) request DYNAMIC_CACHE_NAME rule
            (w.ensure DYNAMIC_CACHE_NAME)).2) := by
  simp only [staleWhileRevalidate, SW.bind_eq]
  rw [SW.bind_of_ok _ _ _ _ _ (cachesOpen_healthy ..),
    SW.bind_of_ok _ _ _ _ _ (cacheMatch_healthy ..),
    SW.bind_of_ok _ _ _ _ _ (SW.settle_apply ..)]
  simp only [World.cache_ensure]
  cases (w.cache DYNAMIC_CACHE_NAME).lookup request.url with
  | some cached => rfl
  | none =>
    simp only []
    cases (fetchAndCache (Env.healthy network now origin) request DYNAMIC_CACHE_NAME rule
        (w.ensure DYNAMIC_CACHE_NAME)).1 with
    | ok response => rfl
    | error e => rfl

/-- The function `cacheOnly` with a healthy store. -/
theorem cacheOnly_healthy (network : Request → Except JsError Response) (now : Nat)
    (origin : String) (request : Request) (w : World) :
    cacheOnly (Env.healthy network now origin) request w
      = (match (w.cache DYNAMIC_CACHE_NAME).lookup request.url with
          | some cached => Except.ok cached
          | none => Except.error (JsError.error "Resource not found in cache"),
         w.ensure DYNAMIC_CACHE_NAME) := by
  simp only [cacheOnly, SW.bind_eq]
  rw [SW.bind_of_ok _ _ _ _ _ (cachesOpen_healthy ..),
    SW.bind_of_ok _ _ _ _ _ (cacheMatch_healthy ..)]
  simp only [World.cache_ensure]
  cases (w.cache DYNAMIC_CACHE_NAME).lookup request.url with
  | some cached => rfl
  | none => rfl

/-- C13. The function `cacheOnly` never calls the network: it returns the cached entry when
the Dynamic cache has one for the request and fails with the error "Resource not found in
cache" when it has none, as on an empty cache; in both cases no request is passed to
`fetch` and the entries of every cache are what they were. -/
theorem cacheOnly_outcome (network : Request → Except JsError Response) (now : Nat)
    (origin : String) (request : Request) (w : World) :
    (cacheOnly (Env.healthy network now origin) request w).1
      = (match (w.cache DYNAMIC_CACHE_NAME).lookup request.url with
          | some cached => Except.ok cached
          | none => Except.error (JsError.error "Resource not found in cache")) ∧
    (cacheOnly (Env.healthy network now origin) request w).2.fetched = w.fetched ∧
    (∀ name, (cacheOnly (Env.healthy network now origin) request w).2.cache name
      = w.cache name) ∧
    (cacheOnly (Env.healthy network now origin) request emptyWorld).1
      = Except.error (JsError.error "Resource not found in cache") := by
  rw [cacheOnly_healthy, cacheOnly_healthy]
  exact ⟨rfl, World.fetched_ensure _ _, fun name => World.cache_ensure _ _ _, rfl⟩

/-! ## Offline fallback and request handler -/

theorem getOfflineFallback_navigate (network : Request → Except JsError Response) (now : Nat)
    (origin : String) (request : Request) (w : World) (hnav : request.mode = "navigate") :
    getOfflineFallback (Env.healthy network now origin) request w
      = (match (w.cache STATIC_CACHE_NAME).lookup (origin ++ "/") with
          | some shell => Except.ok shell
          | none => Except.ok offlineResponse,
         w.ensure STATIC_CACHE_NAME) := by
  simp only [getOfflineFallback, hnav, if_true, SW.bind_eq]
  rw [SW.bind_of_ok _ _ _ _ _ (cachesOpen_healthy ..),
    SW.bind_of_ok _ _ _ _ _ (cacheMatch_healthy ..)]
  simp only [World.cache_ensure, Env.healthy]
  cases (w.cache STATIC_CACHE_NAME).lookup (origin ++ "/") with
  | some shell => rfl
  | none => rfl

theorem getOfflineFallback_image (env : Env) (request : Request) (w : World)
    (hnav : request.mode ≠ "navigate") (himg : request.destination = "image") :
    getOfflineFallback env request w = (Except.ok placeholderResponse, w) := by
  simp only [getOfflineFallback, hnav, himg, if_true, if_false]
  rfl

theorem getOfflineFallback_other (env : Env) (request : Request) (w : World)
    (hnav : request.mode ≠ "navigate") (himg : request.destination ≠ "image") :
    getOfflineFallback env request w
      = (Except.error (JsError.error "Resource not available offline"), w) := by
  simp only [getOfflineFallback, hnav, himg, if_false]
  rfl

theorem handleRequest_eq (rules : List Rule) (env : Env) (request : Request) :
    handleRequest rules env request
      = SW.tryCatch (strategyCall rules env request) (fun _ => getOfflineFallback env request) :=
  rfl

theorem tryCatch_of_ok {α : Type} (m : SW α) (h : JsError → SW α) (w w1 : World) (a : α)
    (hm : m w = (Except.ok a, w1)) : SW.tryCatch m h w = (Except.ok a, w1) := by
  simp [SW.tryCatch, hm]

theorem tryCatch_of_error {α : Type} (m : SW α) (h : JsError → SW α) (w w1 : World)
    (e : JsError) (hm : m w = (Except.error e, w1)) : SW.tryCatch m h w = h e w1 := by
  simp [SW.tryCatch, hm]

/-- C20. For an image request that is not a navigation, `getOfflineFallback` returns the
fixed placeholder: an SVG of 200 by 200 with content type `image/svg+xml`. The response is
the same for any two such requests, worlds and environments, a store whose operations fail
included, and the world is left as it was: no cache is read and nothing is fetched. -/
theorem getOfflineFallback_image_placeholder (env1 env2 : Env) (request1 request2 : Request)
    (w1 w2 : World)
    (hnav1 : request1.mode ≠ "navigate") (himg1 : request1.destination = "image")
    (hnav2 : request2.mode ≠ "navigate") (himg2 : request2.destination = "image") :
    getOfflineFallback env1 request1 w1 = (Except.ok placeholderResponse, w1) ∧
    (getOfflineFallback env1 request1 w1).1 = (getOfflineFallback env2 request2 w2).1 ∧
    placeholderResponse.headers.lookup "content-type"
      = some (HeaderValue.text "image/svg+xml" none) ∧
    placeholderResponse.body = placeholderSvg ∧
    containsText "<svg xmlns=\"http://www.w3.org/2000/svg\" width=\"200\" height=\"200\""
      placeholderSvg = true := by
  rw [getOfflineFallback_image env1 request1 w1 hnav1 himg1,
    getOfflineFallback_image env2 request2 w2 hnav2 himg2]
  exact ⟨rfl, rfl, rfl, rfl, by decide⟩

theorem strategyCall_cacheOnly (rules : List Rule) (env : Env) (request : Request) (rule : Rule)
    (hrule : findRule rules request.pathname = some rule) (hs : rule.strategy = CACHE_ONLY) :
    strategyCall rules env request = cacheOnly env request := by
  simp only [strategyCall, hrule, strategyOf, hs, runStrategy]
  rfl

/-- C14, as amended. For a request handled under a CacheOnly rule with no cached entry, the
caller of `handleRequest` sees the outcome of the offline fallback: a failure, with the
error "Resource not available offline", when the request is neither a navigation nor an
image request; the placeholder image for an image request; the cached shell page, or the
503 response, for a navigation. Nothing is fetched. -/
theorem handleRequest_cacheOnly_miss (rules : List Rule)
    (network : Request → Except JsError Response) (now : Nat) (origin : String)
    (request : Request) (w : World) (rule : Rule)
    (hrule : findRule rules request.pathname = some rule) (hs : rule.strategy = CACHE_ONLY)
    (hmiss : (w.cache DYNAMIC_CACHE_NAME).lookup request.url = none) :
    (request.mode ≠ "navigate" → request.destination ≠ "image" →
      (handleRequest rules (Env.healthy network now origin) request w).1
        = Except.error (JsError.error "Resource not available offline")) ∧
    (request.mode ≠ "navigate" → request.destination = "image" →
      (handleRequest rules (Env.healthy network now origin) request w).1
        = Except.ok placeholderResponse) ∧
    (request.mode = "navigate" →
      (handleRequest rules (Env.healthy network now origin) request w).1
        = (match (w.cache STATIC_CACHE_NAME).lookup (origin ++ "/") with
            | some shell => Except.ok shell
            | none => Except.ok offlineResponse)) ∧
    (handleRequest rules (Env.healthy network now origin) request w).2.fetched = w.fetched := by
  have hcall : strategyCall rules (Env.healthy network now origin) request w
      = (Except.error (JsError.error "Resource not found in cache"),
          w.ensure DYNAMIC_CACHE_NAME) := by
    rw [strategyCall_cacheOnly rules _ request rule hrule hs, cacheOnly_healthy, hmiss]
  have hh : handleRequest rules (Env.healthy network now origin) request w
      = getOfflineFallback (Env.healthy network now origin) request
          (w.ensure DYNAMIC_CACHE_NAME) := by
    rw [handleRequest_eq]
    exact tryCatch_of_error _ _ _ _ _ hcall
  rw [hh]
  refine ⟨?_, ?_, ?_, ?_⟩
  · intro hnav himg
    rw [getOfflineFallback_other _ request _ hnav himg]
  · intro hnav himg
    rw [getOfflineFallback_image _ request _ hnav himg]
  · intro hnav
    rw [getOfflineFallback_navigate network now origin request _ hnav]
    simp only [World.cache_ensure]
  · by_cases hnav : request.mode = "navigate"
    · rw [getOfflineFallback_navigate network now origin request _ hnav]
      simp
    · by_cases himg : request.destination = "image"
      · rw [getOfflineFallback_image _ request _ hnav himg]; simp
      · rw [getOfflineFallback_other _ request _ hnav himg]; simp

/-! ## Lifecycle -/

/-- A listener body wrapped in `try { ... } catch (error) { console.error(...) }` never
rejects. -/
theorem tryCatch_log_ok (m : SW Unit) (w : World) :
    (SW.tryCatch m (fun _ => pure ()) w).1 = Except.ok () := by
  unfold SW.tryCatch
  cases hm : m w with
  | mk r w1 =>
    cases r with
    | ok a => rfl
    | error e => rfl

theorem all_cachesDelete_healthy (network : Request → Except JsError Response) (now : Nat)
    (origin : String) :
    ∀ (names : List String) (w : World),
      SW.all (names.map (fun name => cachesDelete (Env.healthy network now origin) name)) w
        = (Except.ok (), deleteCaches names w) := by
  have gen : ∀ (names : List String) (w : World),
      (names.map (fun name => cachesDelete (Env.healthy network now origin) name)).foldl
        (fun (acc : Except JsError Unit × World) (t : SW Unit) =>
          match t acc.2 with
          | (r, w1) => (match acc.1 with
                        | Except.ok _ => r
                        | Except.error e => Except.error e, w1))
        (Except.ok (), w) = (Except.ok (), deleteCaches names w) := by
    intro names
    induction names with
    | nil => intro w; rfl
    | cons k t ih =>
      intro w
      have hd : cachesDelete (Env.healthy network now origin) k w
          = (Except.ok (), { w with caches := w.caches.filter (fun p => p.1 != k) }) := by
        simp [cachesDelete, Env.healthy]
      simp only [List.map_cons, List.foldl_cons, hd]
      rw [ih]
      rfl
  intro names w
  exact gen names w

theorem caches_deleteCaches :
    ∀ (names : List String) (w : World),
      (deleteCaches names w).caches = w.caches.filter (fun p => !names.contains p.1) ∧
      (deleteCaches names w).fetched = w.fetched := by
  intro names
  induction names with
  | nil => intro w; simp [deleteCaches]
  | cons k t ih =>
    intro w
    have h := ih { w with caches := w.caches.filter (fun p => p.1 != k) }
    simp only [deleteCaches, List.foldl_cons] at h ⊢
    refine ⟨?_, h.2⟩
    rw [h.1, List.filter_filter]
    congr 1
    funext p
    by_cases hp : p.1 = k
    · simp [hp]
    · have : (p.1 == k) = false := by simpa using hp
      simp [List.contains_cons, this, hp]

theorem postMessageAll_apply (clients : List String) (w : World) :
    postMessageAll clients w = (Except.ok (), w) := by
  have gen : ∀ (l : List String) (w : World),
      (l.map (fun _ => (pure () : SW Unit))).foldl
        (fun (acc : Except JsError Unit × World) (t : SW Unit) =>
          match t acc.2 with
          | (r, w1) => (match acc.1 with
                        | Except.ok _ => r
                        | Except.error e => Except.error e, w1))
        (Except.ok (), w) = (Except.ok (), w) := by
    intro l
    induction l with
    | nil => intro w; rfl
    | cons k t ih =>
      intro w
      simp only [List.map_cons, List.foldl_cons]
      exact ih w
  exact gen clients w

/-- The caches `activate` leaves when the claim succeeds and the store is healthy. -/
theorem activate_healthy (network : Request → Except JsError Response) (now : Nat)
    (origin : String) (clients : Clients) (w : World) (hclaim : clients.claim = Except.ok ()) :
    activate (Env.healthy network now origin) clients w
      = (Except.ok (), deleteCaches ((w.caches.map (fun p => p.1)).filter isOldCache) w) := by
  have hkeys : cachesKeys (Env.healthy network now origin) w
      = (Except.ok (w.caches.map (fun p => p.1)), w) := by
    simp [cachesKeys, Env.healthy]
  unfold activate SW.tryCatch
  simp only [SW.bind_eq]
  rw [SW.bind_of_ok _ _ w w () (by simp [clientsClaim, hclaim]),
    SW.bind_of_ok _ _ _ _ _ hkeys,
    SW.bind_of_ok _ _ _ _ _ (all_cachesDelete_healthy network now origin _ w)]
  cases hm : clients.matchAll with
  | error e =>
    rw [SW.bind_of_error _ _ _ (deleteCaches ((w.caches.map (fun p => p.1)).filter isOldCache) w)
      e (by simp [clientsMatchAll, hm])]
    rfl
  | ok cl =>
    rw [SW.bind_of_ok _ _ _ (deleteCaches ((w.caches.map (fun p => p.1)).filter isOldCache) w)
      cl (by simp [clientsMatchAll, hm]), postMessageAll_apply]

theorem activate_claim_fails (env : Env) (clients : Clients) (w : World) (e : JsError)
    (hclaim : clients.claim = Except.error e) :
    activate env clients w = (Except.ok (), w) := by
  unfold activate SW.tryCatch
  simp only [SW.bind_eq]
  rw [SW.bind_of_error _ _ w w e (by simp [clientsClaim, hclaim])]
  rfl

theorem isOldCache_iff (name : String) :
    isOldCache name = true ↔
      (startsWith name "rolex-batteries-" = true ∧ name ≠ CACHE_NAME ∧
        name ≠ STATIC_CACHE_NAME ∧ name ≠ DYNAMIC_CACHE_NAME) := by
  simp [isOldCache, and_assoc]

/-- C15, as amended. After an activation whose client claim succeeds, the caches that
remain are the persisted caches, with their entries, except every cache whose name starts
with `rolex-batteries-` and is none of the three current names `CACHE_NAME`,
`STATIC_CACHE_NAME` and `DYNAMIC_CACHE_NAME`. With the current Static cache, the current
Dynamic cache and one cache of an old generation persisted, the two current caches remain. -/
theorem activate_removes_old_caches (network : Request → Except JsError Response) (now : Nat)
    (origin : String) (clients : Clients) (w : World) (hclaim : clients.claim = Except.ok ()) :
    (activate (Env.healthy network now origin) clients w).2.caches
      = w.caches.filter (fun p => !isOldCache p.1) ∧
    (activate (Env.healthy network now origin) clients w).2.caches.map (fun p => p.1)
      = (w.caches.map (fun p => p.1)).filter (fun name => !isOldCache name) ∧
    (∀ name, isOldCache name = true ↔
      (startsWith name "rolex-batteries-" = true ∧ name ≠ CACHE_NAME ∧
        name ≠ STATIC_CACHE_NAME ∧ name ≠ DYNAMIC_CACHE_NAME)) ∧
    (∀ (old : String) (static dynamic leftover : Cache), isOldCache old = true →
      w.caches = [(STATIC_CACHE_NAME, static), (DYNAMIC_CACHE_NAME, dynamic), (old, leftover)] →
      (activate (Env.healthy network now origin) clients w).2.caches
        = [(STATIC_CACHE_NAME, static), (DYNAMIC_CACHE_NAME, dynamic)]) := by
  have hmain : (activate (Env.healthy network now origin) clients w).2.caches
      = w.caches.filter (fun p => !isOldCache p.1) := by
    rw [activate_healthy network now origin clients w hclaim]
    simp only []
    rw [(caches_deleteCaches _ w).1]
    apply List.filter_congr
    intro p hp
    by_cases hold : isOldCache p.1 = true
    · have : p.1 ∈ (w.caches.map (fun p => p.1)).filter isOldCache :=
        List.mem_filter.mpr ⟨List.mem_map_of_mem (fun p => p.1) hp, hold⟩
      simp [hold, this]
    · have : p.1 ∉ (w.caches.map (fun p => p.1)).filter isOldCache :=
        fun h => hold (List.mem_filter.mp h).2
      simp [hold, this]
  refine ⟨hmain, ?_, isOldCache_iff, ?_⟩
  · rw [hmain, List.filter_map]
    rfl
  · intro old static dynamic leftover hold hw
    rw [hmain, hw]
    have h1 : isOldCache STATIC_CACHE_NAME = false := by decide
    have h2 : isOldCache DYNAMIC_CACHE_NAME = false := by decide
    simp [List.filter, h1, h2, hold]

/-- C16, as amended. When the fetch of at least one asset of the manifest fails, the promise
of the `install` listener still resolves, so the install step does not report a failure;
no asset of the manifest is stored: the entries of the Static cache, and of every other
cache, are what they were. -/
theorem install_asset_failure (assets : List String)
    (network : Request → Except JsError Response) (now : Nat) (origin : String) (w : World)
    (hfail : ∃ path ∈ assets, ∃ e, network (assetRequest origin path) = Except.error e) :
    (install assets (Env.healthy network now origin) w).1 = Except.ok () ∧
    (install assets (Env.healthy network now origin) w).2.cache STATIC_CACHE_NAME
      = w.cache STATIC_CACHE_NAME ∧
    (∀ name, (install assets (Env.healthy network now origin) w).2.cache name
      = w.cache name) := by
  have herr : ∀ (requests : List Request),
      (∃ r ∈ requests, ∃ e, network r = Except.error e) →
      ∃ e, addAllResponses (Env.healthy network now origin) requests = Except.error e := by
    intro requests
    induction requests with
    | nil => intro ⟨r, hr, _⟩; cases hr
    | cons a t ih =>
      intro ⟨r, hr, e, he⟩
      cases hna : network a with
      | error e1 =>
        exact ⟨e1, by
          have hnet : (Env.healthy network now origin).network a = Except.error e1 := hna
          simp only [addAllResponses, hnet]⟩
      | ok response =>
        have hrt : r ∈ t := by
          rcases List.mem_cons.mp hr with h | h
          · subst h; rw [hna] at he; cases he
          · exact h
        obtain ⟨e2, he2⟩ := ih ⟨r, hrt, e, he⟩
        have hnet : (Env.healthy network now origin).network a = Except.ok response := hna
        by_cases hok : response.ok = true
        · exact ⟨e2, by simp only [addAllResponses, hnet, hok, if_true, he2]⟩
        · exact ⟨JsError.error "TypeError: bad response status", by
            simp only [addAllResponses, hnet, hok]
            rfl⟩
  obtain ⟨path, hpath, e, he⟩ := hfail
  obtain ⟨e1, he1⟩ := herr (assets.map (assetRequest origin))
    ⟨assetRequest origin path, List.mem_map_of_mem _ hpath, e, he⟩
  have hinstall : install assets (Env.healthy network now origin) w
      = (Except.ok (), { w.ensure STATIC_CACHE_NAME with
          fetched := (w.ensure STATIC_CACHE_NAME).fetched ++ assets.map (assetRequest origin) }) := by
    unfold install SW.tryCatch
    simp only [SW.bind_eq]
    rw [SW.bind_of_ok _ _ _ _ _ (cachesOpen_healthy ..)]
    rw [SW.bind_of_error _ _ _ { w.ensure STATIC_CACHE_NAME with
          fetched := (w.ensure STATIC_CACHE_NAME).fetched ++ assets.map (assetRequest origin) }
        e1 (by
          have : (Env.healthy network now origin).origin = origin := rfl
          simp only [cacheAddAll, this, he1])]
    rfl
  rw [hinstall]
  have hview : ∀ name, World.cache { w.ensure STATIC_CACHE_NAME with
      fetched := (w.ensure STATIC_CACHE_NAME).fetched ++ assets.map (assetRequest origin) } name
      = w.cache name := by
    intro name
    exact World.cache_ensure w STATIC_CACHE_NAME name
  exact ⟨rfl, hview _, hview⟩

/-- C17, as amended. The promise of the `activate` listener resolves whatever fails inside
it, a store whose operations reject included, so activation does not report a failure. The
client claim is awaited before the caches are listed: when it fails, no cache is deleted
and the world is left as it was. -/
theorem activate_never_fails (env : Env) (clients : Clients) (w : World) :
    (activate env clients w).1 = Except.ok () ∧
    (∀ e, clients.claim = Except.error e → activate env clients w = (Except.ok (), w)) := by
  refine ⟨?_, fun e h => activate_claim_fails env clients w e h⟩
  unfold activate
  exact tryCatch_log_ok _ w

/-! ## Witnesses and evaluations for the fallback and the lifecycle -/

/-- Counterexample to C14 as stated: under a CacheOnly rule, with nothing cached, the caller
of `handleRequest` receives the placeholder for an image request, not a failure. -/
theorem handleRequest_cacheOnly_miss_substituted :
    findRule [cacheOnlyRule] sampleImage.pathname = some cacheOnlyRule ∧
    cacheOnlyRule.strategy = CACHE_ONLY ∧
    (emptyWorld.cache DYNAMIC_CACHE_NAME).lookup sampleImage.url = none ∧
    (cacheOnly sampleEnv sampleImage emptyWorld).1
      = Except.error (JsError.error "Resource not found in cache") ∧
    (handleRequest [cacheOnlyRule] sampleEnv sampleImage emptyWorld).1
      = Except.ok placeholderResponse :=
  ⟨rfl, rfl, by decide, rfl, rfl⟩

/-- Witness of C14 as amended: an image request and a request that is neither an image nor
a navigation, under a CacheOnly rule, with nothing cached. -/
theorem handleRequest_cacheOnly_miss_witness :
    (handleRequest [cacheOnlyRule] sampleEnv sampleImage emptyWorld).1
      = Except.ok placeholderResponse ∧
    (handleRequest [{ cacheOnlyRule with pattern := containsText "/api/" }] sampleEnv sampleData
        emptyWorld).1
      = Except.error (JsError.error "Resource not available offline") :=
  ⟨(handleRequest_cacheOnly_miss [cacheOnlyRule] onlineNetwork 5000 sampleOrigin sampleImage
      emptyWorld cacheOnlyRule rfl rfl (by decide)).2.1 (by decide) rfl,
   (handleRequest_cacheOnly_miss [{ cacheOnlyRule with pattern := containsText "/api/" }]
      onlineNetwork 5000 sampleOrigin sampleData emptyWorld
      { cacheOnlyRule with pattern := containsText "/api/" } rfl rfl (by decide)).1
      (by decide) (by decide)⟩

/-- Counterexample to C15 as stated: a persisted cache called `rolex-batteries-v1.0.0` has
the prefix and is neither the Static nor the Dynamic cache, and it is still there after
activation. -/
theorem activate_keeps_cache_name :
    startsWith CACHE_NAME "rolex-batteries-" = true ∧
    CACHE_NAME ≠ STATIC_CACHE_NAME ∧ CACHE_NAME ≠ DYNAMIC_CACHE_NAME ∧
    sampleClients.claim = Except.ok () ∧
    namedCaches.caches.map (fun p => p.1)
      = [CACHE_NAME, STATIC_CACHE_NAME, DYNAMIC_CACHE_NAME] ∧
    (activate sampleEnv sampleClients namedCaches).2.caches.map (fun p => p.1)
      = [CACHE_NAME, STATIC_CACHE_NAME, DYNAMIC_CACHE_NAME] :=
  ⟨by decide, by decide, by decide, rfl, by decide, by decide⟩

/-- Witness of C15 as amended: the leftover of an old generation is deleted. -/
theorem activate_removes_old_caches_witness :
    (activate sampleEnv sampleClients threeCaches).2.caches
      = [(STATIC_CACHE_NAME, []), (DYNAMIC_CACHE_NAME, [])] :=
  (activate_removes_old_caches onlineNetwork 5000 sampleOrigin sampleClients threeCaches
    rfl).2.2.2 oldCacheName [] [] [] (by decide) rfl

/-- Counterexample to C16 as stated: with a manifest of five assets whose third fetch
fails, the promise of the `install` listener resolves. -/
theorem install_third_fetch_fails_resolves :
    sampleManifest.length = 5 ∧
    thirdFailsNetwork (assetRequest sampleOrigin "/css/critical.css")
      = Except.error (JsError.network "Failed to fetch") ∧
    (install sampleManifest (Env.healthy thirdFailsNetwork 5000 sampleOrigin) emptyWorld).1
      = Except.ok () :=
  ⟨rfl, rfl, rfl⟩

/-- Witness of C16 as amended: the same install stores nothing in the Static cache. -/
theorem install_asset_failure_witness :
    (install sampleManifest (Env.healthy thirdFailsNetwork 5000 sampleOrigin) emptyWorld).1
      = Except.ok () ∧
    (install sampleManifest (Env.healthy thirdFailsNetwork 5000 sampleOrigin)
        emptyWorld).2.cache STATIC_CACHE_NAME = [] :=
  ⟨(install_asset_failure sampleManifest thirdFailsNetwork 5000 sampleOrigin emptyWorld
      ⟨"/css/critical.css", by decide, JsError.network "Failed to fetch", rfl⟩).1,
   (install_asset_failure sampleManifest thirdFailsNetwork 5000 sampleOrigin emptyWorld
      ⟨"/css/critical.css", by decide, JsError.network "Failed to fetch", rfl⟩).2.1⟩

/-- Counterexample to C17 as stated: the client claim fails, the promise of the `activate`
listener resolves all the same, and the cache of the old generation is not deleted. -/
theorem activate_claim_failure_resolves :
    unclaimedClients.claim = Except.error (JsError.error "InvalidStateError") ∧
    isOldCache oldCacheName = true ∧
    (activate sampleEnv unclaimedClients threeCaches).1 = Except.ok () ∧
    (activate sampleEnv unclaimedClients threeCaches).2.caches.map (fun p => p.1)
      = [STATIC_CACHE_NAME, DYNAMIC_CACHE_NAME, oldCacheName] :=
  ⟨rfl, by decide, rfl, by decide⟩

/-- Witness of C17 as amended: a failed claim leaves the three caches. -/
theorem activate_never_fails_witness :
    activate sampleEnv unclaimedClients threeCaches = (Except.ok (), threeCaches) :=
  (activate_never_fails sampleEnv unclaimedClients threeCaches).2
    (JsError.error "InvalidStateError") rfl

/-- Witness of C20: two image requests, two worlds, two environments. -/
theorem getOfflineFallback_image_placeholder_witness :
    (getOfflineFallback sampleEnv sampleImage emptyWorld).1
      = (getOfflineFallback (Env.healthy offlineNetwork 7 sampleOrigin) sampleImage2
          warmWorld).1 :=
  (getOfflineFallback_image_placeholder sampleEnv (Env.healthy offlineNetwork 7 sampleOrigin)
    sampleImage sampleImage2 emptyWorld warmWorld (by decide) rfl (by decide) rfl).2.1

/-! ## Fetch listener -/

/-- C21. For a request whose method is not GET the `fetch` listener returns without calling
`event.respondWith`: `handleRequest` is not invoked, so no strategy runs and no cache is
read or written, and the request is left to the browser, on the network. -/
theorem fetchListener_non_get (rules : List Rule) (env : Env) (request : Request)
    (hmethod : request.method ≠ "GET") :
    fetchListener rules env request = none := by
  unfold fetchListener
  split
  · rfl
  · simp [hmethod]

/-- Witness of C21: a POST to the worker's own origin. -/
theorem fetchListener_non_get_witness :
    startsWith samplePost.url sampleEnv.origin = true ∧
    fetchListener CACHE_RULES sampleEnv samplePost = none :=
  ⟨by decide, fetchListener_non_get CACHE_RULES sampleEnv samplePost (by decide)⟩

/-- C30. The same-origin test of the `fetch` listener is a test on the text of the URL: a
request is passed to `handleRequest` exactly when its URL starts with the origin string and
its method is GET. So a GET of `https://rolex.test.evil.example/app.js`, a URL of another
host, is handled by the worker of origin `https://rolex.test`, and its response is stored in
the Dynamic cache. -/
theorem fetchListener_origin_is_text_test (rules : List Rule) (env : Env) (request : Request) :
    (fetchListener rules env request).isSome
      = (startsWith request.url env.origin && request.method == "GET") ∧
    (fetchListener rules env request = some (handleRequest rules env request)
      ↔ (startsWith request.url env.origin = true ∧ request.method = "GET")) ∧
    (startsWith foreignScript.url sampleEnv.origin = true ∧
      foreignScript.url ≠ sampleEnv.origin ++ foreignScript.pathname ∧
      (fetchListener CACHE_RULES sampleEnv foreignScript).isSome = true ∧
      ((handleRequest CACHE_RULES sampleEnv foreignScript emptyWorld).2.cache
          DYNAMIC_CACHE_NAME).map (fun p => p.1) = [foreignScript.url]) := by
  refine ⟨?_, ?_, by decide, by decide, by decide, by decide⟩
  · unfold fetchListener
    by_cases h1 : startsWith request.url env.origin = true
    · by_cases h2 : request.method = "GET"
      · simp [h1, h2]
      · simp [h1, h2]
    · simp [h1]
  · unfold fetchListener
    by_cases h1 : startsWith request.url env.origin = true
    · by_cases h2 : request.method = "GET"
      · simp [h1, h2]
      · simp [h1, h2]
    · simp [h1]

/-! ## Background sync -/

theorem Sync.step_eq {α β : Type} (m : Sync α) (f : α → Sync β) : m >>= f = Sync.bind m f := rfl

theorem Sync.step_of_ok {α β : Type} (m : Sync α) (f : α → Sync β) (s s1 : SyncWorld) (a : α)
    (h : m s = (Except.ok a, s1)) : Sync.bind m f s = f a s1 := by
  simp [Sync.bind, h]

theorem Sync.step_of_error {α β : Type} (m : Sync α) (f : α → Sync β) (s s1 : SyncWorld)
    (e : JsError) (h : m s = (Except.error e, s1)) : Sync.bind m f s = (Except.error e, s1) := by
  simp [Sync.bind, h]

theorem Sync.logErrors_of_ok (m : Sync Unit) (s s1 : SyncWorld)
    (h : m s = (Except.ok (), s1)) : Sync.logErrors m s = (Except.ok (), s1) := by
  simp [Sync.logErrors, h]

theorem Sync.logErrors_of_error (m : Sync Unit) (s s1 : SyncWorld) (e : JsError)
    (h : m s = (Except.error e, s1)) : Sync.logErrors m s = (Except.ok (), s1) := by
  simp [Sync.logErrors, h]

/-- One turn of the loop: the record is posted; it is removed when the POST was answered
with a successful status and the removal did not fail; the turn never rejects. -/
theorem syncTurn (env : SyncEnv) (formData : FormRecord) (s : SyncWorld) :
    ∃ s1,
      Sync.logErrors (Sync.bind (postContact env formData) (fun response =>
        if response.ok = true then
          Sync.bind (removeStoredFormData env formData.id) (fun _ => notifyClients env)
        else pure PUnit.unit)) s = (Except.ok (), s1) ∧
      s1.posted = s.posted ++ [formData] ∧
      s1.stored = (if env.delivered formData && !env.removeFails formData.id then
        s.stored.filter (fun r => r.id != formData.id) else s.stored) := by
  cases hd : env.deliver formData with
  | error e =>
    have hp : postContact env formData s
        = (Except.error e, { s with posted := s.posted ++ [formData] }) := by
      simp [postContact, hd]
    refine ⟨({ s with posted := s.posted ++ [formData] } : SyncWorld), Sync.logErrors_of_error _ _ _ _ (Sync.step_of_error _ _ _ _ _ hp), rfl, ?_⟩
    simp [SyncEnv.delivered, hd]
  | ok response =>
    have hp : postContact env formData s
        = (Except.ok response, { s with posted := s.posted ++ [formData] }) := by
      simp [postContact, hd]
    by_cases hok : response.ok = true
    · by_cases hr : env.removeFails formData.id = true
      · have hrem : removeStoredFormData env formData.id
            { s with posted := s.posted ++ [formData] }
            = (Except.error (JsError.error "IndexedDB request failed"),
                { s with posted := s.posted ++ [formData] }) := by
          simp [removeStoredFormData, hr]
        refine ⟨({ s with posted := s.posted ++ [formData] } : SyncWorld), Sync.logErrors_of_error _ _ _ (JsError.error "IndexedDB request failed") ?_, rfl, ?_⟩
        · rw [Sync.step_of_ok _ _ _ _ _ hp]
          simp only [hok, if_true]
          exact Sync.step_of_error _ _ _ _ _ hrem
        · simp [SyncEnv.delivered, hd, hr]
      · have hr2 : env.removeFails formData.id = false := by simpa using hr
        have hrem : removeStoredFormData env formData.id
            { s with posted := s.posted ++ [formData] }
            = (Except.ok (),
                { stored := s.stored.filter (fun r => r.id != formData.id),
                  posted := s.posted ++ [formData], notified := s.notified }) := by
          simp [removeStoredFormData, hr2]
        cases hm : env.matchAll with
        | error e =>
          refine ⟨({ stored := s.stored.filter (fun r => r.id != formData.id), posted := s.posted ++ [formData], notified := s.notified } : SyncWorld), Sync.logErrors_of_error _ _ _ e ?_, rfl, ?_⟩
          · rw [Sync.step_of_ok _ _ _ _ _ hp]
            simp only [hok, if_true]
            rw [Sync.step_of_ok _ _ _ _ _ hrem]
            simp only [notifyClients, hm]
          · simp [SyncEnv.delivered, hd, hr2, hok]
        | ok clients =>
          refine ⟨({ stored := s.stored.filter (fun r => r.id != formData.id), posted := s.posted ++ [formData], notified := s.notified ++ clients } : SyncWorld), Sync.logErrors_of_ok _ _ _ ?_, rfl, ?_⟩
          · rw [Sync.step_of_ok _ _ _ _ _ hp]
            simp only [hok, if_true]
            rw [Sync.step_of_ok _ _ _ _ _ hrem]
            simp only [notifyClients, hm]
          · simp [SyncEnv.delivered, hd, hr2, hok]
    · refine ⟨({ s with posted := s.posted ++ [formData] } : SyncWorld), Sync.logErrors_of_ok _ _ _ ?_, rfl, ?_⟩
      · rw [Sync.step_of_ok _ _ _ _ _ hp]
        simp only [hok]
        rfl
      · simp [SyncEnv.delivered, hd, hok]

/-- The loop over the records: every record is posted, in order, and the loop never
rejects. -/
theorem syncEach_spec (env : SyncEnv) :
    ∀ (l : List FormRecord) (s : SyncWorld),
      ∃ s1, syncEach env l s = (Except.ok (), s1) ∧
        s1.posted = s.posted ++ l ∧
        s1.stored = s.stored.filter (fun r =>
          !(l.any (fun f => f.id == r.id && (env.delivered f && !env.removeFails f.id)))) := by
  intro l
  induction l with
  | nil => intro s; exact ⟨s, rfl, by simp, by simp⟩
  | cons f rest ih =>
    intro s
    obtain ⟨s1, h1, hp1, hs1⟩ := syncTurn env f s
    obtain ⟨s2, h2, hp2, hs2⟩ := ih s1
    refine ⟨s2, ?_, ?_, ?_⟩
    · simp only [syncEach, Sync.step_eq]
      rw [Sync.step_of_ok _ _ _ _ _ h1]
      exact h2
    · rw [hp2, hp1]; simp
    · rw [hs2, hs1]
      by_cases hc : (env.delivered f && !env.removeFails f.id) = true
      · rw [if_pos hc, List.filter_filter]
        apply List.filter_congr
        intro r _
        by_cases hid : r.id = f.id
        · simp [hid, hc]
        · have h3 : (f.id == r.id) = false := by simpa using fun e => hid e.symm
          have h4 : (r.id != f.id) = true := by simpa using hid
          simp [h3, h4]
      · have hc2 : (env.delivered f && !env.removeFails f.id) = false := by simpa using hc
        rw [if_neg hc]
        apply List.filter_congr
        intro r _
        simp [hc2]

/-- C22. Whatever the outcome of each POST, of each removal and of the messages to the
clients, `syncContactForm` posts every queued record exactly once, in the order of the
queue, a failure on one record leaving the others to be posted, and it never rejects. The
removals succeeding and the keys of the records being distinct, the records it removes from
the queue are exactly those whose POST was answered with a successful status. -/
theorem syncContactForm_delivers_all (env : SyncEnv) (s : SyncWorld)
    (hget : env.getFails = false) :
    (syncContactForm env s).1 = Except.ok () ∧
    (syncContactForm env s).2.posted = s.posted ++ s.stored ∧
    ((∀ id, env.removeFails id = false) → (s.stored.map (fun r => r.id)).Nodup →
      (syncContactForm env s).2.stored = s.stored.filter (fun r => !env.delivered r)) := by
  obtain ⟨s1, h1, hp, hs⟩ := syncEach_spec env s.stored s
  have hrun : syncContactForm env s = (Except.ok (), s1) := by
    have hg : getStoredFormData env s = (Except.ok s.stored, s) := by
      simp [getStoredFormData, hget]
    simp only [syncContactForm, Sync.step_eq]
    refine Sync.logErrors_of_ok _ _ _ ?_
    rw [Sync.step_of_ok _ _ _ _ _ hg]
    exact h1
  rw [hrun]
  refine ⟨rfl, hp, ?_⟩
  intro hremove hkeys
  simp only []
  rw [hs]
  apply List.filter_congr
  intro r hr
  congr 1
  by_cases hd : env.delivered r = true
  · have : s.stored.any (fun f => f.id == r.id && (env.delivered f && !env.removeFails f.id))
        = true := by
      rw [List.any_eq_true]
      exact ⟨r, hr, by simp [hd, hremove]⟩
    rw [this, hd]
  · have hd2 : env.delivered r = false := by simpa using hd
    have : s.stored.any (fun f => f.id == r.id && (env.delivered f && !env.removeFails f.id))
        = false := by
      rw [List.any_eq_false]
      intro f hf
      by_cases hid : f.id = r.id
      · have : f = r := List.inj_on_of_nodup_map hkeys hf hr hid
        subst this
        simp [hd2]
      · simp [hid]
    rw [this, hd2]

/-- Witness of C22: three records, the first delivered, the second failing on the network,
the third answered with 404. -/
theorem syncContactForm_delivers_all_witness :
    (syncContactForm sampleSyncEnv sampleQueue).2.posted = sampleQueue.stored ∧
    (syncContactForm sampleSyncEnv sampleQueue).2.stored
      = [{ id := 2, data := "b" }, { id := 3, data := "c" }] :=
  ⟨(syncContactForm_delivers_all sampleSyncEnv sampleQueue rfl).2.1,
   (syncContactForm_delivers_all sampleSyncEnv sampleQueue rfl).2.2 (fun _ => rfl)
      (by decide)⟩

/-! ## Write path: timestamp and size limit -/

/-- Counterexample to C24 as stated: a response that carries a `sw-cache-date` of time 1 is
stored at time 5000 with a `sw-cache-date` of 5000. -/
theorem cacheResponse_overwrites_cache_date :
    datedResponse.headers.lookup "sw-cache-date" = some (HeaderValue.isoDate 1) ∧
    ((cacheResponse sampleEnv DYNAMIC_CACHE_NAME sampleImage datedResponse none
        emptyWorld).2.cache DYNAMIC_CACHE_NAME)
      = [(sampleImage.url,
          { status := 200, statusText := "OK",
            headers := [("sw-cache-date", HeaderValue.isoDate 5000)], body := "A" })] :=
  ⟨by decide, by decide⟩

/-- C24, as amended. The entry `cacheResponse` stores always carries the time of the write
as its `sw-cache-date`, and carries it once: a value the response already had is replaced,
and the other headers, the status and the body are those of the response. -/
theorem cacheResponse_always_stamps (network : Request → Except JsError Response) (now : Nat)
    (origin cache : String) (request : Request) (response : Response) (rule : Option Rule)
    (w : World) :
    ((cacheResponse (Env.healthy network now origin) cache request response rule w).2.cache
        cache).lookup request.url = some (stamped now response) ∧
    (stamped now response).headers.lookup "sw-cache-date" = some (HeaderValue.isoDate now) ∧
    ((stamped now response).headers.filter (fun h => h.1 == "sw-cache-date")).length = 1 ∧
    (stamped now response).headers.filter (fun h => h.1 != "sw-cache-date")
      = response.headers.filter (fun h => h.1 != "sw-cache-date") ∧
    (stamped now response).status = response.status ∧
    (stamped now response).body = response.body := by
  obtain ⟨Y, hY, hne, _, _⟩ := written_snoc now request.url response rule (w.cache cache)
  have hh : ∀ p ∈ response.headers.filter (fun h => h.1 != "sw-cache-date"),
      p.1 ≠ "sw-cache-date" := by
    intro p hp
    simpa using (List.mem_filter.mp hp).2
  refine ⟨?_, ?_, ?_, ?_, rfl, rfl⟩
  · rw [cacheResponse_cache, hY]
    exact lookup_snoc_same _ _ _ hne
  · simp only [stamped, setHeader]
    exact lookup_snoc_same "sw-cache-date" _ _ hh
  · simp only [stamped, setHeader]
    rw [List.filter_append, List.filter_filter]
    have : (response.headers.filter (fun h => h.1 == "sw-cache-date" && h.1 != "sw-cache-date"))
        = [] := by
      rw [List.filter_eq_nil_iff]
      intro p _
      by_cases h : p.1 = "sw-cache-date" <;> simp [h]
    rw [this]
    simp
  · simp only [stamped, setHeader]
    rw [List.filter_append, List.filter_filter]
    simp

/-- Counterexample to C25 as stated: under a rule whose `maxAge` is 0, an entry stored at
time 0 and read at time 1 is returned by `cacheFirst` with no refresh fetch. -/
theorem cacheFirst_zero_maxAge_not_expired :
    zeroAgeRule.maxAge = some 0 ∧
    (oldWorld.cache DYNAMIC_CACHE_NAME).lookup sampleImage.url
      = some (stamped 0 sampleResponse) ∧
    cacheDateTime (stamped 0 sampleResponse) = some 0 ∧
    cacheFirst (Env.healthy onlineNetwork 1 sampleOrigin) sampleImage (some zeroAgeRule)
        oldWorld = (Except.ok (stamped 0 sampleResponse), oldWorld) ∧
    (cacheFirst (Env.healthy onlineNetwork 1 sampleOrigin) sampleImage (some zeroAgeRule)
        oldWorld).2.fetched = [] :=
  ⟨rfl, by decide, by decide, rfl, by decide⟩

/-- C25, as amended. A `maxAge` of zero is read as no `maxAge`: under a rule with
`maxAge = 0`, whatever the stored timestamp of the cached entry and the current time,
`cacheFirst` returns the cached entry and leaves the world as it was, so no refresh is
triggered. -/
theorem cacheFirst_zero_maxAge_is_absent (network : Request → Except JsError Response)
    (now : Nat) (origin : String) (request : Request) (rule : Rule) (w : World)
    (cached : Response) (hzero : rule.maxAge = some 0)
    (hc : (w.cache DYNAMIC_CACHE_NAME).lookup request.url = some cached) :
    truthy ((some rule).bind Rule.maxAge) = none ∧
    cacheFirst (Env.healthy network now origin) request (some rule) w = (Except.ok cached, w) ∧
    (cacheFirst (Env.healthy network now origin) request (some rule) w).2.fetched
      = w.fetched := by
  have ht : truthy ((some rule).bind Rule.maxAge) = none := by
    simp only [Option.bind, hzero]
    rfl
  have h : cacheFirst (Env.healthy network now origin) request (some rule) w
      = (Except.ok cached, w) := by
    rw [cacheFirst_hit network now origin request (some rule) w cached hc]
    simp only [ht]
  rw [h]
  exact ⟨ht, rfl, rfl⟩

/-- Witness of C25 as amended. -/
theorem cacheFirst_zero_maxAge_is_absent_witness :
    cacheFirst (Env.healthy offlineNetwork 9000 sampleOrigin) sampleImage (some zeroAgeRule)
        oldWorld = (Except.ok (stamped 0 sampleResponse), oldWorld) :=
  (cacheFirst_zero_maxAge_is_absent offlineNetwork 9000 sampleOrigin sampleImage zeroAgeRule
    oldWorld (stamped 0 sampleResponse) rfl (by decide)).2.1

theorem filter_ne_nodup (c : Cache) (url : String) (r : Response)
    (hc : (c.map (fun q => q.1)).Nodup) :
    ((c.filter (fun p => p.1 != url) ++ [(url, r)]).map (fun q => q.1)).Nodup := by
  rw [List.map_append, List.nodup_append]
  refine ⟨List.Nodup.sublist ((List.filter_sublist c).map _) hc, by simp, ?_⟩
  intro a ha hb
  obtain ⟨p, hp, hpa⟩ := List.mem_map.mp ha
  have h1 : p.1 ≠ url := by simpa using (List.mem_filter.mp hp).2
  have h2 : a = url := by simpa using hb
  exact h1 (hpa.trans h2)

/-- C26. The size limit is enforced on the whole cache the response is stored in, whichever
rules stored the other entries: after `cacheResponse` under a rule with `maxEntries = M ≥ 1`
the cache holds at most `M` entries, the entry just written being the last of them; they are
the `M` most recently inserted ones, the one just written included. A write with `M = 20`
into a cache of 50 other entries evicts the 31 oldest. The keys of a cache being distinct,
they stay distinct. -/
theorem cacheResponse_limits_whole_cache (network : Request → Except JsError Response)
    (now : Nat) (origin cache : String) (request : Request) (response : Response) (rule : Rule)
    (M : Nat) (w : World) (hM : 1 ≤ M) (hr : rule.maxEntries = some M)
    (hkeys : ((w.cache cache).map (fun q => q.1)).Nodup) :
    ((cacheResponse (Env.healthy network now origin) cache request response (some rule)
        w).2.cache cache).length ≤ M ∧
    ((cacheResponse (Env.healthy network now origin) cache request response (some rule)
        w).2.cache cache).getLast? = some (request.url, stamped now response) ∧
    (cacheResponse (Env.healthy network now origin) cache request response (some rule)
        w).2.cache cache
      = ((w.cache cache).filter (fun p => p.1 != request.url)
            ++ [(request.url, stamped now response)]).drop
          (((w.cache cache).filter (fun p => p.1 != request.url)
            ++ [(request.url, stamped now response)]).length - M) ∧
    (((cacheResponse (Env.healthy network now origin) cache request response (some rule)
        w).2.cache cache).map (fun q => q.1)).Nodup ∧
    (M = 20 → (w.cache cache).length = 50 →
      (∀ p ∈ w.cache cache, p.1 ≠ request.url) →
      (cacheResponse (Env.healthy network now origin) cache request response (some rule)
          w).2.cache cache
        = (w.cache cache).drop 31 ++ [(request.url, stamped now response)]) := by
  have ht : truthy ((some rule).bind Rule.maxEntries) = some M := by
    simp only [Option.bind, hr]
    exact truthy_pos M hM
  have hnd := filter_ne_nodup (w.cache cache) request.url (stamped now response) hkeys
  have hfinal : (cacheResponse (Env.healthy network now origin) cache request response
      (some rule) w).2.cache cache
      = ((w.cache cache).filter (fun p => p.1 != request.url)
            ++ [(request.url, stamped now response)]).drop
          (((w.cache cache).filter (fun p => p.1 != request.url)
            ++ [(request.url, stamped now response)]).length - M) := by
    rw [cacheResponse_cache]
    simp only [written, ht, limitTo]
    exact evict_nodup M _ hnd
  obtain ⟨Y, hY, _, _, hlen⟩ := written_snoc now request.url response (some rule) (w.cache cache)
  refine ⟨?_, ?_, hfinal, ?_, ?_⟩
  · rw [cacheResponse_cache, hY]
    have := hlen M ht
    simpa using this
  · rw [cacheResponse_cache, hY]
    simp
  · rw [hfinal]
    exact List.Nodup.sublist ((List.drop_sublist _ _).map _) hnd
  · intro h20 h50 hfresh
    have hf : (w.cache cache).filter (fun p => p.1 != request.url) = w.cache cache := by
      rw [List.filter_eq_self]
      intro p hp
      simpa using hfresh p hp
    rw [hfinal, hf, h20]
    have : (w.cache cache ++ [(request.url, stamped now response)]).length - 20 = 31 := by
      simp [h50]
    rw [this, List.drop_append_of_le_length (by omega)]

/-- Witness of C26: a third image written under a limit of two entries. -/
theorem cacheResponse_limits_whole_cache_witness :
    (cacheResponse sampleEnv DYNAMIC_CACHE_NAME sampleImage3 sampleResponse (some sampleRule)
        twoImages).2.cache DYNAMIC_CACHE_NAME
      = [(sampleImage2.url, stamped 20 sampleResponse),
         (sampleImage3.url, stamped 5000 sampleResponse)] :=
  ((cacheResponse_limits_whole_cache onlineNetwork 5000 sampleOrigin DYNAMIC_CACHE_NAME
    sampleImage3 sampleResponse sampleRule 2 twoImages (by decide) rfl (by decide)).2.2.1).trans
    (by decide)

/-! ## The configured rules -/

/-- C27. With the configured `CACHE_RULES` the strategy depends on the ending of the path
alone: StaleWhileRevalidate when the path ends in `.js` or `.css`, whether or not it
contains `/api/`; otherwise CacheFirst when it ends in one of the image or font extensions;
otherwise NetworkFirst. No path is dispatched to NetworkOnly or CacheOnly. -/
theorem cacheRules_strategy_by_suffix (path : String) :
    strategyOf (findRule CACHE_RULES path)
      = (if endsWithDot ["js", "css"] path then STALE_WHILE_REVALIDATE
         else if endsWithDot
            ["png", "jpg", "jpeg", "svg", "webp", "ico", "woff", "woff2", "ttf", "eot"] path
           then CACHE_FIRST
         else NETWORK_FIRST) ∧
    strategyOf (findRule CACHE_RULES path) ≠ NETWORK_ONLY ∧
    strategyOf (findRule CACHE_RULES path) ≠ CACHE_ONLY ∧
    (∀ (env : Env) (request : Request), request.pathname = path →
      strategyCall CACHE_RULES env request
        = (if endsWithDot ["js", "css"] path then
            staleWhileRevalidate env request (findRule CACHE_RULES path)
           else if endsWithDot
              ["png", "jpg", "jpeg", "svg", "webp", "ico", "woff", "woff2", "ttf", "eot"] path
             then cacheFirst env request (findRule CACHE_RULES path)
           else networkFirst env request (findRule CACHE_RULES path))) ∧
    (∀ exts, endsWithDot exts path = true
      ↔ ∃ e ∈ exts, (".".toList ++ e.toList) <:+ path.toList) ∧
    strategyOf (findRule CACHE_RULES "/api/app.js") = STALE_WHILE_REVALIDATE := by
  have hsplit : endsWithDot
      ["png", "jpg", "jpeg", "svg", "webp", "ico", "woff", "woff2", "ttf", "eot"] path
      = (endsWithDot ["png", "jpg", "jpeg", "svg", "webp", "ico"] path
          || endsWithDot ["woff", "woff2", "ttf", "eot"] path) := by
    have : ["png", "jpg", "jpeg", "svg", "webp", "ico", "woff", "woff2", "ttf", "eot"]
        = ["png", "jpg", "jpeg", "svg", "webp", "ico"] ++ ["woff", "woff2", "ttf", "eot"] := rfl
    unfold endsWithDot
    rw [this, List.any_append]
  have hmain : strategyOf (findRule CACHE_RULES path)
      = (if endsWithDot ["js", "css"] path then STALE_WHILE_REVALIDATE
         else if endsWithDot
            ["png", "jpg", "jpeg", "svg", "webp", "ico", "woff", "woff2", "ttf", "eot"] path
           then CACHE_FIRST
         else NETWORK_FIRST) := by
    rw [hsplit]
    by_cases h1 : endsWithDot ["js", "css"] path = true
    · simp [findRule, CACHE_RULES, List.find?, h1, strategyOf, STALE_WHILE_REVALIDATE]
    · have h1f : endsWithDot ["js", "css"] path = false := by simpa using h1
      by_cases h2 : endsWithDot ["png", "jpg", "jpeg", "svg", "webp", "ico"] path = true
      · simp [findRule, CACHE_RULES, List.find?, h1f, h2, strategyOf, CACHE_FIRST]
      · have h2f : endsWithDot ["png", "jpg", "jpeg", "svg", "webp", "ico"] path = false := by
          simpa using h2
        by_cases h3 : endsWithDot ["woff", "woff2", "ttf", "eot"] path = true
        · simp [findRule, CACHE_RULES, List.find?, h1f, h2f, h3, strategyOf, CACHE_FIRST]
        · have h3f : endsWithDot ["woff", "woff2", "ttf", "eot"] path = false := by
            simpa using h3
          by_cases h4 : containsText "/api/" path = true
          · simp [findRule, CACHE_RULES, List.find?, h1f, h2f, h3f, h4, strategyOf,
              NETWORK_FIRST]
          · have h4f : containsText "/api/" path = false := by simpa using h4
            simp [findRule, CACHE_RULES, List.find?, h1f, h2f, h3f, h4f, strategyOf]
  refine ⟨hmain, ?_, ?_, ?_, ?_, by decide⟩
  · rw [hmain]
    split
    · decide
    · split <;> decide
  · rw [hmain]
    split
    · decide
    · split <;> decide
  · intro env request hp
    subst hp
    unfold strategyCall
    rw [hmain]
    by_cases h1 : endsWithDot ["js", "css"] request.pathname = true
    · simp only [h1, if_true]
      rfl
    · by_cases h2 : endsWithDot
          ["png", "jpg", "jpeg", "svg", "webp", "ico", "woff", "woff2", "ttf", "eot"]
          request.pathname = true
      · simp only [h1, h2, if_true]
        rfl
      · simp only [h1, h2]
        rfl
  · intro exts
    simp [endsWithDot, List.any_eq_true]

/-! ## Rules that differ in `maxAge` -/

/-- C28. The functions `networkFirst` and `staleWhileRevalidate` do not consult `maxAge`:
with a rule and with the same rule given any other `maxAge`, the same request, world and
environment give the same outcome and the same world. In particular `networkFirst` returns
the cached entry, whatever its age, when the fetch fails. -/
theorem networkFirst_staleWhileRevalidate_ignore_maxAge (env : Env) (request : Request)
    (rule : Rule) (maxAge : Option Nat) (w : World) :
    networkFirst env request (some { rule with maxAge := maxAge }) w
      = networkFirst env request (some rule) w ∧
    staleWhileRevalidate env request (some { rule with maxAge := maxAge }) w
      = staleWhileRevalidate env request (some rule) w ∧
    (∀ (network : Request → Except JsError Response) (now : Nat) (origin : String)
        (e : JsError) (cached : Response),
      network request = Except.error e →
      (w.cache DYNAMIC_CACHE_NAME).lookup request.url = some cached →
      (networkFirst (Env.healthy network now origin) request (some rule) w).1
        = Except.ok cached) := by
  refine ⟨rfl, rfl, ?_⟩
  intro network now origin e cached hn hc
  rw [networkFirst_error network now origin request (some rule) w e hn, hc]

/-- Witness of C28: offline, an entry stored at 3000 is returned at 5000000 under a `maxAge`
of one second. -/
theorem networkFirst_staleWhileRevalidate_ignore_maxAge_witness :
    (networkFirst (Env.healthy offlineNetwork 5000000 sampleOrigin) sampleImage
        (some sampleRule) warmWorld).1 = Except.ok (stamped 3000 sampleResponse) :=
  (networkFirst_staleWhileRevalidate_ignore_maxAge sampleEnv sampleImage sampleRule none
    warmWorld).2.2 offlineNetwork 5000000 sampleOrigin (JsError.network "Failed to fetch")
    (stamped 3000 sampleResponse) rfl (by decide)

/-! ## The Static cache and the strategies -/

theorem dynamic_ne_static : DYNAMIC_CACHE_NAME ≠ STATIC_CACHE_NAME := by decide

/-- With a healthy store `fetchAndCache` changes the entries of no other cache. -/
theorem fetchAndCache_frame (network : Request → Except JsError Response) (now : Nat)
    (origin cache : String) (request : Request) (rule : Option Rule) (w : World) (n : String)
    (hn : n ≠ cache) :
    (fetchAndCache (Env.healthy network now origin) request cache rule w).2.cache n
      = w.cache n := by
  cases hnet : network request with
  | error e => rw [fetchAndCache_error network now origin cache request rule w e hnet]; rfl
  | ok response =>
    by_cases hok : response.ok = true
    · obtain ⟨w1, h1, _, h3, _⟩ :=
        fetchAndCache_ok network now origin cache request rule w response hnet hok
      rw [h1]
      exact h3 n hn
    · rw [fetchAndCache_not_ok network now origin cache request rule w response hnet
        (by simpa using hok)]
      rfl

/-- The outcome of `cacheFirst` with a healthy store. -/
theorem cacheFirst_outcome_eq (network : Request → Except JsError Response) (now : Nat)
    (origin : String) (request : Request) (rule : Option Rule) (w : World) :
    (cacheFirst (Env.healthy network now origin) request rule w).1
      = match (w.cache DYNAMIC_CACHE_NAME).lookup request.url with
        | some cached => Except.ok cached
        | none => network request := by
  cases hc : (w.cache DYNAMIC_CACHE_NAME).lookup request.url with
  | some cached =>
    rw [cacheFirst_hit network now origin request rule w cached hc]
    cases truthy (rule.bind Rule.maxAge) with
    | none => rfl
    | some m =>
      simp only []
      split <;> rfl
  | none =>
    cases hnet : network request with
    | error e => rw [cacheFirst_miss_error network now origin request rule w e hc hnet]
    | ok response =>
      obtain ⟨w1, h1, _⟩ := cacheFirst_miss_ok network now origin request rule w response hc hnet
      rw [h1]

theorem cacheFirst_frame (network : Request → Except JsError Response) (now : Nat)
    (origin : String) (request : Request) (rule : Option Rule) (w : World) (n : String)
    (hn : n ≠ DYNAMIC_CACHE_NAME) :
    (cacheFirst (Env.healthy network now origin) request rule w).2.cache n = w.cache n := by
  cases hc : (w.cache DYNAMIC_CACHE_NAME).lookup request.url with
  | some cached =>
    rw [cacheFirst_hit network now origin request rule w cached hc]
    cases truthy (rule.bind Rule.maxAge) with
    | none => rfl
    | some m =>
      simp only []
      split
      · exact fetchAndCache_frame network now origin _ request rule w n hn
      · rfl
  | none =>
    cases hnet : network request with
    | error e =>
      rw [cacheFirst_miss_error network now origin request rule w e hc hnet]
      simp
    | ok response =>
      obtain ⟨w1, h1, _, h3, _⟩ :=
        cacheFirst_miss_ok network now origin request rule w response hc hnet
      rw [h1]
      exact h3 n hn

theorem networkFirst_outcome_eq (network : Request → Except JsError Response) (now : Nat)
    (origin : String) (request : Request) (rule : Option Rule) (w : World) :
    (networkFirst (Env.healthy network now origin) request rule w).1
      = match network request with
        | Except.ok response => Except.ok response
        | Except.error e =>
          match (w.cache DYNAMIC_CACHE_NAME).lookup request.url with
          | some cached => Except.ok cached
          | none => Except.error e := by
  cases hn : network request with
  | error e => rw [networkFirst_error network now origin request rule w e hn]
  | ok response =>
    obtain ⟨w1, h1, _⟩ := networkFirst_ok network now origin request rule w response hn
    rw [h1]

theorem networkFirst_frame (network : Request → Except JsError Response) (now : Nat)
    (origin : String) (request : Request) (rule : Option Rule) (w : World) (n : String)
    (hn : n ≠ DYNAMIC_CACHE_NAME) :
    (networkFirst (Env.healthy network now origin) request rule w).2.cache n = w.cache n := by
  cases hnet : network request with
  | error e =>
    rw [networkFirst_error network now origin request rule w e hnet]
    simp
  | ok response =>
    obtain ⟨w1, h1, _, h3, _⟩ := networkFirst_ok network now origin request rule w response hnet
    rw [h1]
    exact h3 n hn

theorem staleWhileRevalidate_outcome_eq (network : Request → Except JsError Response)
    (now : Nat) (origin : String) (request : Request) (rule : Option Rule) (w : World) :
    (staleWhileRevalidate (Env.healthy network now origin) request rule w).1
      = match (w.cache DYNAMIC_CACHE_NAME).lookup request.url with
        | some cached => Except.ok cached
        | none => network request := by
  rw [staleWhileRevalidate_healthy]
  simp only [(fetchAndCache_outcome network now origin DYNAMIC_CACHE_NAME request rule
    (w.ensure DYNAMIC_CACHE_NAME)).1]

theorem staleWhileRevalidate_frame (network : Request → Except JsError Response) (now : Nat)
    (origin : String) (request : Request) (rule : Option Rule) (w : World) (n : String)
    (hn : n ≠ DYNAMIC_CACHE_NAME) :
    (staleWhileRevalidate (Env.healthy network now origin) request rule w).2.cache n
      = w.cache n := by
  rw [staleWhileRevalidate_healthy]
  simp only []
  rw [fetchAndCache_frame network now origin _ request rule _ n hn, World.cache_ensure]

theorem getOfflineFallback_frame (network : Request → Except JsError Response) (now : Nat)
    (origin : String) (request : Request) (w : World) (n : String) :
    (getOfflineFallback (Env.healthy network now origin) request w).2.cache n = w.cache n := by
  by_cases hnav : request.mode = "navigate"
  · rw [getOfflineFallback_navigate network now origin request w hnav]
    exact World.cache_ensure _ _ _
  · by_cases himg : request.destination = "image"
    · rw [getOfflineFallback_image _ request w hnav himg]
    · rw [getOfflineFallback_other _ request w hnav himg]

theorem strategyCall_frame (rules : List Rule) (network : Request → Except JsError Response)
    (now : Nat) (origin : String) (request : Request) (w : World) (n : String)
    (hn : n ≠ DYNAMIC_CACHE_NAME) :
    (strategyCall rules (Env.healthy network now origin) request w).2.cache n = w.cache n := by
  unfold strategyCall runStrategy
  split
  · exact cacheFirst_frame network now origin request _ w n hn
  · split
    · exact networkFirst_frame network now origin request _ w n hn
    · split
      · exact staleWhileRevalidate_frame network now origin request _ w n hn
      · split
        · rfl
        · split
          · rw [cacheOnly_healthy]
            exact World.cache_ensure _ _ _
          · exact networkFirst_frame network now origin request _ w n hn

theorem handleRequest_frame (rules : List Rule) (network : Request → Except JsError Response)
    (now : Nat) (origin : String) (request : Request) (w : World) (n : String)
    (hn : n ≠ DYNAMIC_CACHE_NAME) :
    (handleRequest rules (Env.healthy network now origin) request w).2.cache n = w.cache n := by
  have hs := strategyCall_frame rules network now origin request w n hn
  rw [handleRequest_eq]
  cases hcall : strategyCall rules (Env.healthy network now origin) request w with
  | mk r w1 =>
    rw [hcall] at hs
    cases r with
    | ok response =>
      rw [tryCatch_of_ok _ _ _ _ _ hcall]
      exact hs
    | error e =>
      rw [tryCatch_of_error _ _ _ _ _ hcall, getOfflineFallback_frame]
      exact hs

/-- C29. The strategies neither read nor write the Static cache. With a healthy store,
`handleRequest` leaves the entries of the Static cache as they were, and the outcome of
`cacheFirst`, `networkFirst`, `staleWhileRevalidate` and `cacheOnly` is the same whatever
the Static cache holds, so an asset held in the Static cache only is a miss. The fallback
reads the Static cache for a navigation only, and only the entry of `/`. -/
theorem strategies_ignore_static_cache (rules : List Rule)
    (network : Request → Except JsError Response) (now : Nat) (origin : String)
    (request : Request) (rule : Option Rule) (w : World) (static : Cache) :
    (handleRequest rules (Env.healthy network now origin) request w).2.cache STATIC_CACHE_NAME
      = w.cache STATIC_CACHE_NAME ∧
    (cacheFirst (Env.healthy network now origin) request rule
        (w.setCache STATIC_CACHE_NAME static)).1
      = (cacheFirst (Env.healthy network now origin) request rule w).1 ∧
    (networkFirst (Env.healthy network now origin) request rule
        (w.setCache STATIC_CACHE_NAME static)).1
      = (networkFirst (Env.healthy network now origin) request rule w).1 ∧
    (staleWhileRevalidate (Env.healthy network now origin) request rule
        (w.setCache STATIC_CACHE_NAME static)).1
      = (staleWhileRevalidate (Env.healthy network now origin) request rule w).1 ∧
    (cacheOnly (Env.healthy network now origin) request
        (w.setCache STATIC_CACHE_NAME static)).1
      = (cacheOnly (Env.healthy network now origin) request w).1 ∧
    (getOfflineFallback (Env.healthy network now origin) request
        (w.setCache STATIC_CACHE_NAME static)).1
      = (if request.mode = "navigate" then
          (match static.lookup (origin ++ "/") with
            | some shell => Except.ok shell
            | none => Except.ok offlineResponse)
         else (getOfflineFallback (Env.healthy network now origin) request w).1) ∧
    ((shellWorld.cache STATIC_CACHE_NAME).lookup shellRequest.url = some sampleResponse ∧
      (cacheOnly sampleEnv shellRequest shellWorld).1
        = Except.error (JsError.error "Resource not found in cache") ∧
      (cacheFirst sampleEnv shellRequest none shellWorld).2.fetched = [shellRequest]) := by
  have hdyn : (w.setCache STATIC_CACHE_NAME static).cache DYNAMIC_CACHE_NAME
      = w.cache DYNAMIC_CACHE_NAME :=
    World.cache_setCache_other w STATIC_CACHE_NAME DYNAMIC_CACHE_NAME static dynamic_ne_static
  refine ⟨handleRequest_frame rules network now origin request w STATIC_CACHE_NAME
      (fun h => dynamic_ne_static h.symm), ?_, ?_, ?_, ?_, ?_, by decide, rfl, by decide⟩
  · rw [cacheFirst_outcome_eq, cacheFirst_outcome_eq, hdyn]
  · rw [networkFirst_outcome_eq, networkFirst_outcome_eq, hdyn]
  · rw [staleWhileRevalidate_outcome_eq, staleWhileRevalidate_outcome_eq, hdyn]
  · rw [cacheOnly_healthy, cacheOnly_healthy, hdyn]
  · by_cases hnav : request.mode = "navigate"
    · rw [getOfflineFallback_navigate network now origin request _ hnav, if_pos hnav,
        World.cache_setCache_same]
    · rw [if_neg hnav]
      by_cases himg : request.destination = "image"
      · rw [getOfflineFallback_image _ request _ hnav himg,
          getOfflineFallback_image _ request _ hnav himg]
      · rw [getOfflineFallback_other _ request _ hnav himg,
          getOfflineFallback_other _ request _ hnav himg]

/-! ## A store whose operations reject -/

theorem cachesOpen_fails (env : Env) (name : String) (w : World)
    (h : env.fails StoreOp.cachesOpen = true) :
    cachesOpen env name w = (Except.error (JsError.storage StoreOp.cachesOpen), w) := by
  simp [cachesOpen, h]

theorem cachesOpen_works (env : Env) (name : String) (w : World)
    (h : env.fails StoreOp.cachesOpen = false) :
    cachesOpen env name w = (Except.ok name, w.ensure name) := by
  simp [cachesOpen, h]

theorem cacheMatch_fails (env : Env) (cache url : String) (w : World)
    (h : env.fails StoreOp.cacheMatch = true) :
    cacheMatch env cache url w = (Except.error (JsError.storage StoreOp.cacheMatch), w) := by
  simp [cacheMatch, h]

theorem cacheMatch_works (env : Env) (cache url : String) (w : World)
    (h : env.fails StoreOp.cacheMatch = false) :
    cacheMatch env cache url w = (Except.ok ((w.cache cache).lookup url), w) := by
  simp [cacheMatch, h]

theorem statusInRange_of_ok (response : Response) (hok : response.ok = true) :
    statusInRange response.status = true := by
  simp only [Response.ok, statusInRange, Bool.and_eq_true, decide_eq_true_eq] at hok ⊢
  omega

/-- The expression `new Response(body, init)` with a status in the range. -/
theorem newResponse_in_range (env : Env) (response : Response) (w : World)
    (h : statusInRange response.status = true) :
    newResponse env response w = (Except.ok response, w) := by
  simp [newResponse, h]

theorem cacheResponse_put_fails (env : Env) (cache : String) (request : Request)
    (response : Response) (rule : Option Rule) (w : World) (hok : response.ok = true)
    (h : env.fails StoreOp.cachePut = true) :
    cacheResponse env cache request response rule w
      = (Except.error (JsError.storage StoreOp.cachePut), w) := by
  simp only [cacheResponse, SW.bind_eq]
  have hr : statusInRange (stamped env.now response).status = true :=
    statusInRange_of_ok response hok
  exact (SW.bind_of_ok _ _ _ _ _
    (newResponse_in_range env (stamped env.now response) w hr)).trans
    (SW.bind_of_error _ _ _ _ _ (by simp [cachePut, h]))

theorem fetchAndCache_put_fails (env : Env) (cache : String) (request : Request)
    (response : Response) (rule : Option Rule) (w : World)
    (hnet : env.network request = Except.ok response) (hok : response.ok = true)
    (h : env.fails StoreOp.cachePut = true) :
    fetchAndCache env request cache rule w
      = (Except.error (JsError.storage StoreOp.cachePut), w.logFetch request) := by
  simp only [fetchAndCache, SW.bind_eq]
  rw [SW.bind_of_ok _ _ w (w.logFetch request) response (by rw [fetch_apply, hnet])]
  simp only [hok, if_true]
  exact SW.bind_of_error _ _ _ _ _
    (cacheResponse_put_fails env cache request response rule _ hok h)

/-- Counterexample to C23 as stated: the network answers with a successful response and
`caches.open` rejects; `cacheFirst`, `networkFirst` and `staleWhileRevalidate` reject with
the error of the store, and `handleRequest` answers an image request with the placeholder of
the offline fallback. -/
theorem strategies_reject_when_open_fails :
    brokenOpenEnv.network sampleImage = Except.ok sampleResponse ∧
    (cacheFirst brokenOpenEnv sampleImage (some sampleRule) emptyWorld).1
      = Except.error (JsError.storage StoreOp.cachesOpen) ∧
    (networkFirst brokenOpenEnv sampleImage (some sampleRule) emptyWorld).1
      = Except.error (JsError.storage StoreOp.cachesOpen) ∧
    (staleWhileRevalidate brokenOpenEnv sampleImage (some sampleRule) emptyWorld).1
      = Except.error (JsError.storage StoreOp.cachesOpen) ∧
    (handleRequest CACHE_RULES brokenOpenEnv sampleImage emptyWorld).1
      = Except.ok placeholderResponse ∧
    (handleRequest CACHE_RULES brokenOpenEnv sampleApiScript emptyWorld).1
      = Except.error (JsError.error "Resource not available offline") :=
  ⟨rfl, rfl, rfl, rfl, rfl, rfl⟩

/-- C23, as amended. No strategy recovers from a failure of the store by answering from the
network. While the network answers with a successful response: when `caches.open` rejects,
`cacheFirst` and `staleWhileRevalidate` reject with the error of the store before any fetch,
and `networkFirst` rejects with it after its fetch; when `cache.match` rejects, `cacheFirst`
and `staleWhileRevalidate` reject; when `cache.put` rejects, `cacheFirst` rejects on a miss,
and `networkFirst` and `staleWhileRevalidate` return the entry cached before when there is
one and reject otherwise. A strategy that rejects inside `handleRequest` is answered by the
offline fallback. -/
theorem strategies_do_not_recover_store_failure (env : Env) (request : Request)
    (rule : Option Rule) (w : World) (response : Response)
    (hnet : env.network request = Except.ok response) (hok : response.ok = true) :
    (env.fails StoreOp.cachesOpen = true →
      cacheFirst env request rule w = (Except.error (JsError.storage StoreOp.cachesOpen), w) ∧
      staleWhileRevalidate env request rule w
        = (Except.error (JsError.storage StoreOp.cachesOpen), w) ∧
      networkFirst env request rule w
        = (Except.error (JsError.storage StoreOp.cachesOpen), w.logFetch request)) ∧
    (env.fails StoreOp.cachesOpen = false → env.fails StoreOp.cacheMatch = true →
      cacheFirst env request rule w
        = (Except.error (JsError.storage StoreOp.cacheMatch), w.ensure DYNAMIC_CACHE_NAME) ∧
      staleWhileRevalidate env request rule w
        = (Except.error (JsError.storage StoreOp.cacheMatch), w.ensure DYNAMIC_CACHE_NAME)) ∧
    (env.fails StoreOp.cachesOpen = false → env.fails StoreOp.cacheMatch = false →
      env.fails StoreOp.cachePut = true →
      ((w.cache DYNAMIC_CACHE_NAME).lookup request.url = none →
        (cacheFirst env request rule w).1 = Except.error (JsError.storage StoreOp.cachePut)) ∧
      (networkFirst env request rule w).1
        = (match (w.cache DYNAMIC_CACHE_NAME).lookup request.url with
            | some cached => Except.ok cached
            | none => Except.error (JsError.storage StoreOp.cachePut)) ∧
      (staleWhileRevalidate env request rule w).1
        = (match (w.cache DYNAMIC_CACHE_NAME).lookup request.url with
            | some cached => Except.ok cached
            | none => Except.error (JsError.storage StoreOp.cachePut))) ∧
    (∀ (rules : List Rule) (e : JsError) (w1 : World),
      strategyCall rules env request w = (Except.error e, w1) →
      handleRequest rules env request w = getOfflineFallback env request w1) := by
  have hfetch : fetch env request w = (Except.ok response, w.logFetch request) := by
    rw [fetch_apply, hnet]
  refine ⟨?_, ?_, ?_, ?_⟩
  · intro hopen
    refine ⟨?_, ?_, ?_⟩
    · simp only [cacheFirst, SW.bind_eq]
      exact SW.bind_of_error _ _ _ _ _ (cachesOpen_fails env _ w hopen)
    · simp only [staleWhileRevalidate, SW.bind_eq]
      exact SW.bind_of_error _ _ _ _ _ (cachesOpen_fails env _ w hopen)
    · unfold networkFirst SW.tryCatch
      simp only [SW.bind_eq]
      rw [SW.bind_of_ok _ _ _ _ _ hfetch]
      simp only [hok, if_true]
      rw [SW.bind_of_error _ _ _ _ _ (cachesOpen_fails env _ _ hopen)]
      simp only []
      exact SW.bind_of_error _ _ _ _ _ (cachesOpen_fails env _ _ hopen)
  · intro hopen hmatch
    refine ⟨?_, ?_⟩
    · simp only [cacheFirst, SW.bind_eq]
      rw [SW.bind_of_ok _ _ _ _ _ (cachesOpen_works env _ w hopen)]
      exact SW.bind_of_error _ _ _ _ _ (cacheMatch_fails env _ _ _ hmatch)
    · simp only [staleWhileRevalidate, SW.bind_eq]
      rw [SW.bind_of_ok _ _ _ _ _ (cachesOpen_works env _ w hopen)]
      exact SW.bind_of_error _ _ _ _ _ (cacheMatch_fails env _ _ _ hmatch)
  · intro hopen hmatch hput
    refine ⟨?_, ?_, ?_⟩
    · intro hmiss
      simp only [cacheFirst, SW.bind_eq]
      rw [SW.bind_of_ok _ _ _ _ _ (cachesOpen_works env _ w hopen),
        SW.bind_of_ok _ _ _ _ _ (cacheMatch_works env _ _ _ hmatch)]
      simp only [World.cache_ensure, hmiss]
      rw [SW.bind_of_ok _ _ _ ((w.ensure DYNAMIC_CACHE_NAME).logFetch request) response
        (by rw [fetch_apply, hnet])]
      rw [SW.bind_of_error _ _ _ _ _ (cacheResponse_put_fails env _ request response rule _ hok hput)]
    · unfold networkFirst SW.tryCatch
      simp only [SW.bind_eq]
      rw [SW.bind_of_ok _ _ _ _ _ hfetch]
      simp only [hok, if_true]
      rw [SW.bind_of_ok _ _ _ _ _ (cachesOpen_works env _ _ hopen),
        SW.bind_of_error _ _ _ _ _ (cacheResponse_put_fails env _ request response rule _ hok hput)]
      simp only []
      rw [SW.bind_of_ok _ _ _ _ _ (cachesOpen_works env _ _ hopen),
        SW.bind_of_ok _ _ _ _ _ (cacheMatch_works env _ _ _ hmatch)]
      simp only [World.cache_ensure, World.cache_logFetch]
      cases (w.cache DYNAMIC_CACHE_NAME).lookup request.url with
      | none => rfl
      | some cached => rfl
    · simp only [staleWhileRevalidate, SW.bind_eq]
      rw [SW.bind_of_ok _ _ _ _ _ (cachesOpen_works env _ w hopen),
        SW.bind_of_ok _ _ _ _ _ (cacheMatch_works env _ _ _ hmatch),
        SW.bind_of_ok _ _ _ _ _ (SW.settle_apply ..),
        fetchAndCache_put_fails env _ request response rule _ hnet hok hput]
      simp only [World.cache_ensure]
      cases (w.cache DYNAMIC_CACHE_NAME).lookup request.url with
      | none => rfl
      | some cached => rfl
  · intro rules e w1 h
    rw [handleRequest_eq]
    exact tryCatch_of_error _ _ _ _ _ h

/-- Witness of C23 as amended: `caches.open` rejects, and `cache.put` rejects. -/
theorem strategies_do_not_recover_store_failure_witness :
    cacheFirst brokenOpenEnv sampleImage (some sampleRule) emptyWorld
      = (Except.error (JsError.storage StoreOp.cachesOpen), emptyWorld) ∧
    (networkFirst brokenPutEnv sampleImage (some sampleRule) warmWorld).1
      = Except.ok (stamped 3000 sampleResponse) :=
  ⟨((strategies_do_not_recover_store_failure brokenOpenEnv sampleImage (some sampleRule)
      emptyWorld sampleResponse rfl (by decide)).1 rfl).1,
   ((strategies_do_not_recover_store_failure brokenPutEnv sampleImage (some sampleRule)
      warmWorld sampleResponse rfl (by decide)).2.2.1 rfl rfl rfl).2.1⟩

/-! ## A store with the checks of the platform, or whose operations reject -/

/-- The stamp `cacheResponse` adds does not change whether `cache.put` refuses the
response. -/
theorem putRefuses_stamped (now : Nat) (response : Response) :
    putRefuses (stamped now response) = putRefuses response := by
  have h : ∀ (l : List (String × HeaderValue)),
      (l.filter (fun h => h.1 != "sw-cache-date")).any (fun h => h.1 == "vary" && hasStar h.2)
        = l.any (fun h => h.1 == "vary" && hasStar h.2) := by
    intro l
    induction l with
    | nil => rfl
    | cons a t ih =>
      by_cases ha : a.1 = "sw-cache-date"
      · have h1 : (a.1 != "sw-cache-date") = false := by simp [ha]
        have h2 : (a.1 == "vary") = false := by rw [ha]; decide
        simp only [List.filter_cons, h1, List.any_cons, h2, Bool.false_and, Bool.false_or]
        exact ih
      · have h1 : (a.1 != "sw-cache-date") = true := by simpa using ha
        simp only [List.filter_cons, h1, if_true, List.any_cons, ih]
  have h3 : (("sw-cache-date" : String) == "vary") = false := by decide
  simp only [putRefuses, stamped, setHeader, List.any_append, h, List.any_cons, List.any_nil,
    h3, Bool.false_and, Bool.or_false]

theorem cachePut_accepts (env : Env) (cache : String) (request : Request)
    (response : Response) (w : World) (hreq : cacheable request = true)
    (h : putAccepts env response = true) :
    cachePut env cache request response w
      = (Except.ok (), w.setCache cache
          ((w.cache cache).filter (fun p => p.1 != request.url) ++
            [(request.url, response)])) := by
  simp only [putAccepts, Bool.and_eq_true, Bool.not_eq_true'] at h
  simp [cachePut, h.1, h.2, hreq]

theorem cachePut_rejects (env : Env) (cache : String) (request : Request)
    (response : Response) (w : World) (hreq : cacheable request = true)
    (h : putAccepts env response = false) :
    cachePut env cache request response w
      = (Except.error (if env.fails StoreOp.cachePut then JsError.storage StoreOp.cachePut
          else JsError.error "TypeError: the response cannot be stored"), w) := by
  by_cases hf : env.fails StoreOp.cachePut = true
  · simp [cachePut, hf]
  · have hf1 : env.fails StoreOp.cachePut = false := by simpa using hf
    have hc : (env.checks && putRefuses response) = true := by
      simpa [putAccepts, hf1] using h
    simp only [Bool.and_eq_true] at hc
    simp [cachePut, hf1, hc.1, hc.2, hreq]

theorem cacheKeys_fails (env : Env) (cache : String) (w : World)
    (h : env.fails StoreOp.cacheKeys = true) :
    cacheKeys env cache w = (Except.error (JsError.storage StoreOp.cacheKeys), w) := by
  simp [cacheKeys, h]

theorem cacheKeys_works (env : Env) (cache : String) (w : World)
    (h : env.fails StoreOp.cacheKeys = false) :
    cacheKeys env cache w = (Except.ok ((w.cache cache).map (fun p => p.1)), w) := by
  simp [cacheKeys, h]

theorem all_delete_fails (env : Env) (cache : String)
    (h : env.fails StoreOp.cacheDelete = true) (k : String) (keys : List String) (w : World) :
    SW.all ((k :: keys).map (fun key => cacheDelete env cache key)) w
      = (Except.error (JsError.storage StoreOp.cacheDelete), w) := by
  have gen : ∀ (keys : List String),
      (keys.map (fun key => cacheDelete env cache key)).foldl
        (fun (acc : Except JsError Unit × World) (t : SW Unit) =>
          match t acc.2 with
          | (r, w1) => (match acc.1 with
                        | Except.ok _ => r
                        | Except.error e => Except.error e, w1))
        (Except.error (JsError.storage StoreOp.cacheDelete), w)
        = (Except.error (JsError.storage StoreOp.cacheDelete), w) := by
    intro keys
    induction keys with
    | nil => rfl
    | cons k t ih =>
      simp only [List.map_cons, List.foldl_cons, cacheDelete, h, if_true]
      exact ih
  have h1 := gen keys
  simp only [SW.all, List.map_cons, List.foldl_cons, cacheDelete, h, if_true]
  exact h1

theorem all_delete_works (env : Env) (cache : String)
    (h : env.fails StoreOp.cacheDelete = false) :
    ∀ (keys : List String) (w : World),
      SW.all (keys.map (fun key => cacheDelete env cache key)) w
        = (Except.ok (), deleteKeys cache keys w) := by
  have gen : ∀ (keys : List String) (w : World),
      (keys.map (fun key => cacheDelete env cache key)).foldl
        (fun (acc : Except JsError Unit × World) (t : SW Unit) =>
          match t acc.2 with
          | (r, w1) => (match acc.1 with
                        | Except.ok _ => r
                        | Except.error e => Except.error e, w1))
        (Except.ok (), w) = (Except.ok (), deleteKeys cache keys w) := by
    intro keys
    induction keys with
    | nil => intro w; rfl
    | cons k t ih =>
      intro w
      simp only [List.map_cons, List.foldl_cons, cacheDelete, h]
      exact ih _
  intro keys w
  exact gen keys w

/-- The function `limitCacheSize` with any store: a failing `cache.keys`, or a failing
`cache.delete` when the cache is over the limit, makes it reject and leaves the world as it
was; otherwise the cache is cut down to the limit. -/
theorem limitCacheSize_any (env : Env) (cache : String) (maxEntries : Nat) (w : World) :
    ∃ w1, limitCacheSize env cache maxEntries w
        = ((if env.fails StoreOp.cacheKeys then Except.error (JsError.storage StoreOp.cacheKeys)
            else if decide ((w.cache cache).length > maxEntries) &&
                env.fails StoreOp.cacheDelete then
              Except.error (JsError.storage StoreOp.cacheDelete)
            else Except.ok ()), w1) ∧
      (w1.cache cache = w.cache cache ∨ w1.cache cache = evict maxEntries (w.cache cache)) ∧
      (∀ n, n ≠ cache → w1.cache n = w.cache n) ∧ w1.fetched = w.fetched := by
  by_cases hk : env.fails StoreOp.cacheKeys = true
  · refine ⟨w, ?_, Or.inl rfl, fun n _ => rfl, rfl⟩
    simp only [limitCacheSize, SW.bind_eq, hk, if_true]
    exact SW.bind_of_error _ _ _ _ _ (cacheKeys_fails env cache w hk)
  · have hk1 : env.fails StoreOp.cacheKeys = false := by simpa using hk
    by_cases h : (w.cache cache).length > maxEntries
    · have h1 : ((w.cache cache).map (fun p => p.1)).length > maxEntries := by simpa using h
      by_cases hd : env.fails StoreOp.cacheDelete = true
      · refine ⟨w, ?_, Or.inl rfl, fun n _ => rfl, rfl⟩
        simp only [limitCacheSize, SW.bind_eq]
        rw [SW.bind_of_ok _ _ _ _ _ (cacheKeys_works env cache w hk1), if_pos h1]
        have hne : ((w.cache cache).map (fun p => p.1)).take
            (((w.cache cache).map (fun p => p.1)).length - maxEntries) ≠ [] := by
          intro h0
          have := congrArg List.length h0
          simp only [List.length_take, List.length_nil] at this
          omega
        cases hl : ((w.cache cache).map (fun p => p.1)).take
            (((w.cache cache).map (fun p => p.1)).length - maxEntries) with
        | nil => exact absurd hl hne
        | cons k t =>
          rw [all_delete_fails env cache hd k t w]
          simp [hk1, h, hd]
      · have hd1 : env.fails StoreOp.cacheDelete = false := by simpa using hd
        refine ⟨deleteKeys cache (((w.cache cache).map (fun p => p.1)).take
            (((w.cache cache).map (fun p => p.1)).length - maxEntries)) w, ?_, Or.inr ?_, ?_, ?_⟩
        · simp only [limitCacheSize, SW.bind_eq]
          rw [SW.bind_of_ok _ _ _ _ _ (cacheKeys_works env cache w hk1), if_pos h1,
            all_delete_works env cache hd1]
          simp [hk1, hd1]
        · simp [cache_deleteKeys, evict, h]
        · intro n hn; exact cache_deleteKeys_other cache n hn _ _
        · exact fetched_deleteKeys cache _ _
    · have h1 : ¬ ((w.cache cache).map (fun p => p.1)).length > maxEntries := by simpa using h
      refine ⟨w, ?_, Or.inl rfl, fun n _ => rfl, rfl⟩
      simp only [limitCacheSize, SW.bind_eq]
      rw [SW.bind_of_ok _ _ _ _ _ (cacheKeys_works env cache w hk1), if_neg h1]
      simp [hk1, h]
      rfl

theorem putAccepts_stamped (env : Env) (now : Nat) (response : Response) :
    putAccepts env (stamped now response) = putAccepts env response := by
  simp only [putAccepts, putRefuses_stamped]

/-- The function `cacheResponse` with any store, for a response whose status `new Response`
accepts: whether it rejects and with what, and what the cache then holds for the request. -/
theorem cacheResponse_any (env : Env) (cache : String) (request : Request)
    (response : Response) (rule : Option Rule) (w : World)
    (hreq : cacheable request = true) (hr : statusInRange response.status = true) :
    ∃ w1, cacheResponse env cache request response rule w
        = ((match storeError env request.url response rule (w.cache cache) with
            | none => Except.ok ()
            | some e => Except.error e), w1) ∧
      (w1.cache cache).lookup request.url
        = (if putAccepts env response then some (stamped env.now response)
           else (w.cache cache).lookup request.url) ∧
      (∀ n, n ≠ cache → w1.cache n = w.cache n) ∧ w1.fetched = w.fetched := by
  have hr1 : statusInRange (stamped env.now response).status = true := hr
  have hnew := newResponse_in_range env (stamped env.now response) w hr1
  have hX : ∀ p ∈ (w.cache cache).filter (fun p => p.1 != request.url),
      p.1 ≠ request.url := by
    intro p hp
    simpa using (List.mem_filter.mp hp).2
  by_cases hacc : putAccepts env response = true
  · have hput := cachePut_accepts env cache request (stamped env.now response) w hreq
      (by rw [putAccepts_stamped]; exact hacc)
    have hacc1 := hacc
    simp only [putAccepts, Bool.and_eq_true, Bool.not_eq_true'] at hacc1
    have hf : env.fails StoreOp.cachePut = false := hacc1.1
    have hc : (env.checks && putRefuses response) = false := hacc1.2
    cases hm : truthy (rule.bind Rule.maxEntries) with
    | none =>
      refine ⟨w.setCache cache ((w.cache cache).filter (fun p => p.1 != request.url) ++
        [(request.url, stamped env.now response)]), ?_, ?_, ?_, ?_⟩
      · have h1 : cacheResponse env cache request response rule w
            = (Except.ok (), w.setCache cache
                ((w.cache cache).filter (fun p => p.1 != request.url) ++
                  [(request.url, stamped env.now response)])) := by
          simp only [cacheResponse, SW.bind_eq, hm]
          exact (SW.bind_of_ok _ _ _ _ _ hnew).trans
            ((SW.bind_of_ok _ _ _ _ _ hput).trans rfl)
        rw [h1]
        simp [storeError, hf, hc, hm]
      · rw [World.cache_setCache_same, if_pos hacc]
        exact lookup_snoc_same _ _ _ hX
      · intro n hn; exact World.cache_setCache_other _ _ _ _ hn
      · rfl
    | some N =>
      obtain ⟨w1, h1, h2, h3, h4⟩ := limitCacheSize_any env cache N
        (w.setCache cache ((w.cache cache).filter (fun p => p.1 != request.url) ++
          [(request.url, stamped env.now response)]))
      refine ⟨w1, ?_, ?_, ?_, ?_⟩
      · have h5 : cacheResponse env cache request response rule w
            = limitCacheSize env cache N
                (w.setCache cache ((w.cache cache).filter (fun p => p.1 != request.url) ++
                  [(request.url, stamped env.now response)])) := by
          simp only [cacheResponse, SW.bind_eq, hm]
          exact (SW.bind_of_ok _ _ _ _ _ hnew).trans
            ((SW.bind_of_ok _ _ _ _ _ hput).trans rfl)
        rw [h5, h1]
        simp only [storeError, hf, hc, hm, World.cache_setCache_same, List.length_append,
          List.length_singleton]
        by_cases hk : env.fails StoreOp.cacheKeys = true
        · simp [hk]
        · have hk1 : env.fails StoreOp.cacheKeys = false := by simpa using hk
          simp only [hk1]
          by_cases hd : (decide ((List.filter (fun p => p.1 != request.url)
              (w.cache cache)).length + 1 > N) && env.fails StoreOp.cacheDelete) = true
          · simp [hd]
          · have hd1 : (decide ((List.filter (fun p => p.1 != request.url)
              (w.cache cache)).length + 1 > N) && env.fails StoreOp.cacheDelete) = false := by
              simpa using hd
            simp [hd1]
      · rw [if_pos hacc]
        rcases h2 with h2 | h2
        · rw [h2, World.cache_setCache_same]
          exact lookup_snoc_same _ _ _ hX
        · rw [h2, World.cache_setCache_same]
          obtain ⟨Y, hY, hYX⟩ := evict_snoc N (truthy_eq_some hm).2
            ((w.cache cache).filter (fun p => p.1 != request.url)) request.url
            (stamped env.now response) hX
          rw [hY]
          exact lookup_snoc_same _ _ _ (fun p hp => hX p (hYX p hp))
      · intro n hn; rw [h3 n hn]; exact World.cache_setCache_other _ _ _ _ hn
      · rw [h4]; rfl
  · have hacc1 : putAccepts env response = false := by simpa using hacc
    have hput := cachePut_rejects env cache request (stamped env.now response) w hreq
      (by rw [putAccepts_stamped]; exact hacc1)
    refine ⟨w, ?_, ?_, fun n _ => rfl, rfl⟩
    · have h1 : cacheResponse env cache request response rule w
          = (Except.error (if env.fails StoreOp.cachePut then JsError.storage StoreOp.cachePut
              else JsError.error "TypeError: the response cannot be stored"), w) := by
        simp only [cacheResponse, SW.bind_eq]
        exact (SW.bind_of_ok _ _ _ _ _ hnew).trans (SW.bind_of_error _ _ _ _ _ hput)
      rw [h1]
      by_cases hf : env.fails StoreOp.cachePut = true
      · simp [storeError, hf]
      · have hf1 : env.fails StoreOp.cachePut = false := by simpa using hf
        have hc : (env.checks && putRefuses response) = true := by
          simpa [putAccepts, hf1] using hacc1
        simp [storeError, hf1, hc]
    · simp [hacc1]

/-- The function `fetchAndCache` with any store. -/
theorem fetchAndCache_any (env : Env) (cache : String) (request : Request)
    (rule : Option Rule) (w : World) (hreq : cacheable request = true) :
    ∃ w1, fetchAndCache env request cache rule w
        = ((match env.network request with
            | Except.error e => Except.error e
            | Except.ok response =>
              if response.ok then
                match storeError env request.url response rule (w.cache cache) with
                | none => Except.ok response
                | some e => Except.error e
              else Except.ok response), w1) ∧
      (w1.cache cache).lookup request.url
        = (match env.network request with
            | Except.error _ => (w.cache cache).lookup request.url
            | Except.ok response =>
              if response.ok && putAccepts env response then some (stamped env.now response)
              else (w.cache cache).lookup request.url) ∧
      (∀ n, n ≠ cache → w1.cache n = w.cache n) ∧
      w1.fetched = w.fetched ++ [request] := by
  cases hn : env.network request with
  | error e =>
    refine ⟨w.logFetch request, ?_, rfl, fun n _ => rfl, rfl⟩
    simp only [fetchAndCache, SW.bind_eq]
    exact SW.bind_of_error _ _ _ _ _ (by rw [fetch_apply, hn])
  | ok response =>
    have hf : fetch env request w = (Except.ok response, w.logFetch request) := by
      rw [fetch_apply, hn]
    by_cases hok : response.ok = true
    · obtain ⟨w1, h1, h2, h3, h4⟩ := cacheResponse_any env cache request response rule
        (w.logFetch request) hreq (statusInRange_of_ok response hok)
      refine ⟨w1, ?_, ?_, h3, h4⟩
      · simp only [fetchAndCache, SW.bind_eq]
        rw [SW.bind_of_ok _ _ _ _ _ hf]
        simp only [hok, if_true]
        rw [World.cache_logFetch] at h1
        cases hs : storeError env request.url response rule (w.cache cache) with
        | none =>
          rw [hs] at h1
          rw [SW.bind_of_ok _ _ _ _ _ h1]
          rfl
        | some e =>
          rw [hs] at h1
          rw [SW.bind_of_error _ _ _ _ _ h1]
      · rw [h2]
        simp [hok]
    · have hok1 : response.ok = false := by simpa using hok
      refine ⟨w.logFetch request, ?_, ?_, fun n _ => rfl, rfl⟩
      · simp only [fetchAndCache, SW.bind_eq]
        rw [SW.bind_of_ok _ _ _ _ _ hf]
        simp only [hok1]
        rfl
      · simp [hok1]

/-- The function `staleWhileRevalidate` with any store: a failing `caches.open` or
`cache.match` makes it reject before the refresh is started. -/
theorem staleWhileRevalidate_any (env : Env) (request : Request) (rule : Option Rule)
    (w : World) :
    staleWhileRevalidate env request rule w
      = (if env.fails StoreOp.cachesOpen then
          (Except.error (JsError.storage StoreOp.cachesOpen), w)
        else if env.fails StoreOp.cacheMatch then
          (Except.error (JsError.storage StoreOp.cacheMatch), w.ensure DYNAMIC_CACHE_NAME)
        else
          (match (w.cache DYNAMIC_CACHE_NAME).lookup request.url with
            | some cached => Except.ok cached
            | none => (fetchAndCache env request DYNAMIC_CACHE_NAME rule
                (w.ensure DYNAMIC_CACHE_NAME)).1,
           (fetchAndCache env request DYNAMIC_CACHE_NAME rule
              (w.ensure DYNAMIC_CACHE_NAME)).2)) := by
  by_cases ho : env.fails StoreOp.cachesOpen = true
  · simp only [ho, if_true]
    simp only [staleWhileRevalidate, SW.bind_eq]
    exact SW.bind_of_error _ _ _ _ _ (cachesOpen_fails env _ w ho)
  · have ho1 : env.fails StoreOp.cachesOpen = false := by simpa using ho
    by_cases hm : env.fails StoreOp.cacheMatch = true
    · simp only [ho1, hm, if_true]
      simp only [staleWhileRevalidate, SW.bind_eq]
      rw [SW.bind_of_ok _ _ _ _ _ (cachesOpen_works env _ w ho1)]
      exact SW.bind_of_error _ _ _ _ _ (cacheMatch_fails env _ _ _ hm)
    · have hm1 : env.fails StoreOp.cacheMatch = false := by simpa using hm
      simp only [ho1, hm1]
      simp only [staleWhileRevalidate, SW.bind_eq]
      rw [SW.bind_of_ok _ _ _ _ _ (cachesOpen_works env _ w ho1),
        SW.bind_of_ok _ _ _ _ _ (cacheMatch_works env _ _ _ hm1),
        SW.bind_of_ok _ _ _ _ _ (SW.settle_apply ..)]
      simp only [World.cache_ensure]
      cases (w.cache DYNAMIC_CACHE_NAME).lookup request.url with
      | some cached => rfl
      | none =>
        simp only []
        cases (fetchAndCache env request DYNAMIC_CACHE_NAME rule
            (w.ensure DYNAMIC_CACHE_NAME)).1 with
        | ok response => rfl
        | error e => rfl

/-- The `catch` of `networkFirst` with any store. -/
theorem networkFirst_catch (env : Env) (request : Request) (error : JsError) (w : World) :
    ((do
        let cache ← cachesOpen env DYNAMIC_CACHE_NAME
        let cachedResponse ← cacheMatch env cache request.url
        match cachedResponse with
        | some cachedResponse => pure cachedResponse
        | none => SW.throw error : SW Response) w).1
      = servedFromCache env error ((w.cache DYNAMIC_CACHE_NAME).lookup request.url) := by
  by_cases ho : env.fails StoreOp.cachesOpen = true
  · simp only [SW.bind_eq, servedFromCache, ho, if_true]
    rw [SW.bind_of_error _ _ _ _ _ (cachesOpen_fails env _ w ho)]
  · have ho1 : env.fails StoreOp.cachesOpen = false := by simpa using ho
    by_cases hm : env.fails StoreOp.cacheMatch = true
    · simp only [SW.bind_eq, servedFromCache, ho1, hm, if_true]
      rw [SW.bind_of_ok _ _ _ _ _ (cachesOpen_works env _ w ho1),
        SW.bind_of_error _ _ _ _ _ (cacheMatch_fails env _ _ _ hm)]
      rfl
    · have hm1 : env.fails StoreOp.cacheMatch = false := by simpa using hm
      simp only [SW.bind_eq, servedFromCache, ho1, hm1]
      rw [SW.bind_of_ok _ _ _ _ _ (cachesOpen_works env _ w ho1),
        SW.bind_of_ok _ _ _ _ _ (cacheMatch_works env _ _ _ hm1)]
      simp only [World.cache_ensure]
      cases (w.cache DYNAMIC_CACHE_NAME).lookup request.url with
      | some cached => rfl
      | none => rfl

/-- The function `networkFirst` with any store. -/
theorem networkFirst_any (env : Env) (request : Request) (rule : Option Rule) (w : World)
    (hreq : cacheable request = true) :
    (networkFirst env request rule w).1
      = match env.network request with
        | Except.error e =>
          servedFromCache env e ((w.cache DYNAMIC_CACHE_NAME).lookup request.url)
        | Except.ok response =>
          if response.ok then
            if env.fails StoreOp.cachesOpen then
              Except.error (JsError.storage StoreOp.cachesOpen)
            else
              match storeError env request.url response rule (w.cache DYNAMIC_CACHE_NAME) with
              | none => Except.ok response
              | some e =>
                servedFromCache env e
                  (if putAccepts env response then some (stamped env.now response)
                   else (w.cache DYNAMIC_CACHE_NAME).lookup request.url)
          else Except.ok response := by
  cases hn : env.network request with
  | error e =>
    have hc := networkFirst_catch env request e (w.logFetch request)
    simp only [World.cache_logFetch] at hc
    simp only []
    rw [← hc]
    unfold networkFirst SW.tryCatch
    simp only [SW.bind_eq]
    rw [SW.bind_of_error _ _ _ (w.logFetch request) e (by rw [fetch_apply, hn])]
  | ok response =>
    have hf : fetch env request w = (Except.ok response, w.logFetch request) := by
      rw [fetch_apply, hn]
    simp only []
    by_cases hok : response.ok = true
    · simp only [hok, if_true]
      by_cases ho : env.fails StoreOp.cachesOpen = true
      · simp only [ho, if_true]
        have hs : servedFromCache env (JsError.storage StoreOp.cachesOpen)
            (((w.logFetch request).cache DYNAMIC_CACHE_NAME).lookup request.url)
            = Except.error (JsError.storage StoreOp.cachesOpen) := by
          simp [servedFromCache, ho]
        have hin : ((cachesOpen env DYNAMIC_CACHE_NAME).bind (fun cache =>
            (cacheResponse env cache request response rule).bind
              fun _ => (pure response : SW Response))) (w.logFetch request)
            = (Except.error (JsError.storage StoreOp.cachesOpen), w.logFetch request) :=
          SW.bind_of_error _ _ _ _ _ (cachesOpen_fails env _ _ ho)
        rw [← hs, ← networkFirst_catch env request _ (w.logFetch request)]
        unfold networkFirst SW.tryCatch
        simp only [SW.bind_eq]
        rw [SW.bind_of_ok _ _ _ _ _ hf]
        simp only [hok, if_true]
        rw [hin]
      · have ho1 : env.fails StoreOp.cachesOpen = false := by simpa using ho
        simp only [ho1]
        obtain ⟨w1, h1, h2, _, _⟩ := cacheResponse_any env DYNAMIC_CACHE_NAME request response
          rule ((w.logFetch request).ensure DYNAMIC_CACHE_NAME) hreq
          (statusInRange_of_ok response hok)
        simp only [World.cache_ensure, World.cache_logFetch] at h1 h2
        cases hs : storeError env request.url response rule (w.cache DYNAMIC_CACHE_NAME) with
        | none =>
          rw [hs] at h1
          have hin : ((cachesOpen env DYNAMIC_CACHE_NAME).bind (fun cache =>
              (cacheResponse env cache request response rule).bind
                fun _ => (pure response : SW Response))) (w.logFetch request)
              = (Except.ok response, w1) :=
            (SW.bind_of_ok _ _ _ _ _ (cachesOpen_works env _ _ ho1)).trans
              ((SW.bind_of_ok _ _ _ _ _ h1).trans rfl)
          unfold networkFirst SW.tryCatch
          simp only [SW.bind_eq]
          rw [SW.bind_of_ok _ _ _ _ _ hf]
          simp only [hok, if_true]
          rw [hin]
          rfl
        | some e =>
          rw [hs] at h1
          have hin : ((cachesOpen env DYNAMIC_CACHE_NAME).bind (fun cache =>
              (cacheResponse env cache request response rule).bind
                fun _ => (pure response : SW Response))) (w.logFetch request)
              = (Except.error e, w1) :=
            (SW.bind_of_ok _ _ _ _ _ (cachesOpen_works env _ _ ho1)).trans
              (SW.bind_of_error _ _ _ _ _ h1)
          simp only []
          rw [← h2, ← networkFirst_catch env request e w1]
          unfold networkFirst SW.tryCatch
          simp only [SW.bind_eq]
          rw [SW.bind_of_ok _ _ _ _ _ hf]
          simp only [hok, if_true]
          rw [hin]
          rfl
    · have hok1 : response.ok = false := by simpa using hok
      simp only [hok1]
      unfold networkFirst SW.tryCatch
      simp only [SW.bind_eq]
      rw [SW.bind_of_ok _ _ _ _ _ hf]
      simp only [hok1]
      rfl

/-! ## The strategies on any store -/

/-- Counterexample to C10 as stated: in a browser whose store works, the network answers the request
with a response of status 206. The fetch has succeeded, yet `networkFirst` returns the
cached entry when there is one, and rejects with the `TypeError` of `cache.put` when there
is none. -/
theorem networkFirst_partial_content_not_returned :
    partialNetwork sampleImage = Except.ok partialResponse ∧
    (networkFirst (Env.browser partialNetwork 5000 sampleOrigin) sampleImage (some sampleRule)
        warmWorld).1 = Except.ok (stamped 3000 sampleResponse) ∧
    (networkFirst (Env.browser partialNetwork 5000 sampleOrigin) sampleImage (some sampleRule)
        emptyWorld).1 = Except.error (JsError.error "TypeError: the response cannot be stored") ∧
    (networkFirst brokenPutEnv sampleImage (some sampleRule) warmWorld).1
      = Except.ok (stamped 3000 sampleResponse) := by
  exact ⟨rfl, rfl, rfl, rfl⟩

/-- C10, as amended. The outcome of `networkFirst`, for every cache state and store and
every request `cache.put` takes (a GET over http or https, as the `fetch` listener hands
on). When the fetch fails, it is what the `catch` serves for the error of the fetch: the
cached entry when the Dynamic cache has one, otherwise that error (and the storage error
when `caches.open` or `cache.match` fails). When the fetch succeeds with a response that is
not `ok`, it is that response. When the fetch succeeds with an `ok` response, it is that
response only if storing it succeeds; if `caches.open` fails, or `cacheResponse` rejects
(a failing `cache.put`, a response `cache.put` refuses, a failing `cache.keys` or
`cache.delete`), the `catch` serves what the cache holds for the request, or the error of
the store. On a store none of whose operations fails this is: the response, unless it is
`ok` and refused by `cache.put`, in which case the cached entry or the `TypeError`. -/
theorem networkFirst_outcome_any_store (env : Env) (request : Request) (rule : Option Rule)
    (w : World) (hreq : cacheable request = true) :
    (networkFirst env request rule w).1
      = (match env.network request with
        | Except.error e =>
          servedFromCache env e ((w.cache DYNAMIC_CACHE_NAME).lookup request.url)
        | Except.ok response =>
          if response.ok then
            if env.fails StoreOp.cachesOpen then
              Except.error (JsError.storage StoreOp.cachesOpen)
            else
              match storeError env request.url response rule (w.cache DYNAMIC_CACHE_NAME) with
              | none => Except.ok response
              | some e =>
                servedFromCache env e
                  (if putAccepts env response then some (stamped env.now response)
                   else (w.cache DYNAMIC_CACHE_NAME).lookup request.url)
          else Except.ok response) ∧
    ((∀ op, env.fails op = false) →
      (networkFirst env request rule w).1
        = match env.network request with
          | Except.error e =>
            (match (w.cache DYNAMIC_CACHE_NAME).lookup request.url with
              | some cached => Except.ok cached
              | none => Except.error e)
          | Except.ok response =>
            if response.ok && (env.checks && putRefuses response) then
              (match (w.cache DYNAMIC_CACHE_NAME).lookup request.url with
                | some cached => Except.ok cached
                | none => Except.error (JsError.error "TypeError: the response cannot be stored"))
            else Except.ok response) := by
  refine ⟨networkFirst_any env request rule w hreq, ?_⟩
  intro hf
  rw [networkFirst_any env request rule w hreq]
  cases hn : env.network request with
  | error e =>
    simp only [servedFromCache, hf, Bool.false_eq_true, if_false]
  | ok response =>
    by_cases hok : response.ok = true
    · by_cases hc : (env.checks && putRefuses response) = true
      · simp only [hok, hc, if_true, servedFromCache, storeError, putAccepts, hf,
          Bool.false_eq_true, if_false, Bool.and_self, Bool.not_true, Bool.and_false,
          Bool.not_false, Bool.true_and]
      · have hc1 : (env.checks && putRefuses response) = false := by simpa using hc
        simp only [hok, hc1, if_true, storeError, hf, Bool.false_eq_true, if_false,
          Bool.and_false]
        cases truthy (rule.bind Rule.maxEntries) with
        | none => rfl
        | some N => rfl
    · have hok1 : response.ok = false := by simpa using hok
      simp only [hok1, Bool.false_eq_true, if_false, Bool.false_and]

/-- Witness of C10 as amended: a browser whose store works, a response with `Vary: *`, and
the warm cache. -/
theorem networkFirst_outcome_any_store_witness :
    (networkFirst (Env.browser variedNetwork 5000 sampleOrigin) sampleImage (some sampleRule)
        warmWorld).1 = Except.ok (stamped 3000 sampleResponse) :=
  ((networkFirst_outcome_any_store (Env.browser variedNetwork 5000 sampleOrigin) sampleImage
    (some sampleRule) warmWorld rfl).2 (fun _ => rfl)).trans rfl

/-- Counterexample to C11 as stated: the Dynamic cache holds `A` for the request and, in a browser
whose store works, the network answers with a successful response `B` of status 206. The
caller receives `A`, and after the refresh has settled the cache still returns `A` for the
request: `cache.put` has refused `B`. -/
theorem staleWhileRevalidate_partial_content_not_stored :
    (warmWorld.cache DYNAMIC_CACHE_NAME).lookup sampleImage.url
      = some (stamped 3000 sampleResponse) ∧
    partialNetwork sampleImage = Except.ok partialResponse ∧
    partialResponse.ok = true ∧
    (staleWhileRevalidate (Env.browser partialNetwork 5000 sampleOrigin) sampleImage
        (some sampleRule) warmWorld).1 = Except.ok (stamped 3000 sampleResponse) ∧
    ((staleWhileRevalidate (Env.browser partialNetwork 5000 sampleOrigin) sampleImage
        (some sampleRule) warmWorld).2.cache DYNAMIC_CACHE_NAME).lookup sampleImage.url
      = some (stamped 3000 sampleResponse) ∧
    stamped 3000 sampleResponse ≠ stamped 5000 partialResponse := by
  refine ⟨rfl, rfl, rfl, rfl, rfl, ?_⟩
  decide

/-- C11, as amended. Under `staleWhileRevalidate`, when the Dynamic cache holds the entry `A`
for the request (a GET over http or https, as the `fetch` listener hands on) and the
network answers with a successful response `B`: if `caches.open`
or `cache.match` fails, the call rejects with the storage error and the cache keeps `A`;
otherwise the caller receives `A`, and once the refresh has settled the cache returns, for
the request, `B` stamped with the time of the refresh if `cache.put` has stored it, and
still `A` if `cache.put` has failed or has refused `B` (status 206, `Vary: *`). -/
theorem staleWhileRevalidate_stale_then_stored (env : Env) (request : Request)
    (rule : Option Rule) (w : World) (A B : Response) (hreq : cacheable request = true)
    (hc : (w.cache DYNAMIC_CACHE_NAME).lookup request.url = some A)
    (hn : env.network request = Except.ok B) (hok : B.ok = true) :
    (staleWhileRevalidate env request rule w).1
      = (if env.fails StoreOp.cachesOpen then
          Except.error (JsError.storage StoreOp.cachesOpen)
        else if env.fails StoreOp.cacheMatch then
          Except.error (JsError.storage StoreOp.cacheMatch)
        else Except.ok A) ∧
    ((staleWhileRevalidate env request rule w).2.cache DYNAMIC_CACHE_NAME).lookup request.url
      = (if env.fails StoreOp.cachesOpen || env.fails StoreOp.cacheMatch then some A
        else if putAccepts env B then some (stamped env.now B)
        else some A) ∧
    (stamped env.now B).body = B.body ∧
    (stamped env.now B).status = B.status ∧
    cacheDateTime (stamped env.now B) = some (env.now : Int) := by
  refine ⟨?_, ?_, rfl, rfl, cacheDateTime_stamped env.now B⟩
  · rw [staleWhileRevalidate_any]
    by_cases ho : env.fails StoreOp.cachesOpen = true
    · simp only [ho, if_true]
    · have ho1 : env.fails StoreOp.cachesOpen = false := by simpa using ho
      by_cases hm : env.fails StoreOp.cacheMatch = true
      · simp only [ho1, hm, if_true, Bool.false_eq_true, if_false]
      · have hm1 : env.fails StoreOp.cacheMatch = false := by simpa using hm
        simp only [ho1, hm1, Bool.false_eq_true, if_false, hc]
  · rw [staleWhileRevalidate_any]
    by_cases ho : env.fails StoreOp.cachesOpen = true
    · simp only [ho, if_true, Bool.true_or]
      exact hc
    · have ho1 : env.fails StoreOp.cachesOpen = false := by simpa using ho
      by_cases hm : env.fails StoreOp.cacheMatch = true
      · simp only [ho1, hm, if_true, Bool.false_eq_true, if_false, Bool.or_true,
          World.cache_ensure]
        exact hc
      · have hm1 : env.fails StoreOp.cacheMatch = false := by simpa using hm
        simp only [ho1, hm1, Bool.false_eq_true, if_false, Bool.or_self]
        obtain ⟨w1, h1, h2, _, _⟩ := fetchAndCache_any env DYNAMIC_CACHE_NAME request rule
          (w.ensure DYNAMIC_CACHE_NAME) hreq
        rw [h1, h2, hn]
        simp only [hok, Bool.true_and, World.cache_ensure, hc]

/-- Witness of C11 as amended: the warm cache, refreshed at 5000 in a browser whose store
works. -/
theorem staleWhileRevalidate_stale_then_stored_witness :
    (staleWhileRevalidate (Env.browser onlineNetwork 5000 sampleOrigin) sampleImage
        (some sampleRule) warmWorld).1 = Except.ok (stamped 3000 sampleResponse) ∧
    ((staleWhileRevalidate (Env.browser onlineNetwork 5000 sampleOrigin) sampleImage
        (some sampleRule) warmWorld).2.cache DYNAMIC_CACHE_NAME).lookup sampleImage.url
      = some (stamped 5000 sampleResponse) :=
  ⟨(staleWhileRevalidate_stale_then_stored (Env.browser onlineNetwork 5000 sampleOrigin)
      sampleImage (some sampleRule) warmWorld (stamped 3000 sampleResponse) sampleResponse
      rfl rfl rfl rfl).1,
   (staleWhileRevalidate_stale_then_stored (Env.browser onlineNetwork 5000 sampleOrigin)
      sampleImage (some sampleRule) warmWorld (stamped 3000 sampleResponse) sampleResponse
      rfl rfl rfl rfl).2.1⟩

/-- Counterexample to C12 as stated: nothing is cached and, in a browser whose store works, the
network answers with a response of status 206. The fetch has succeeded, yet
`staleWhileRevalidate` rejects, with the `TypeError` of `cache.put`. And when `caches.open`
rejects, the request is not passed to `fetch` at all. -/
theorem staleWhileRevalidate_rejects_though_fetch_succeeds :
    (emptyWorld.cache DYNAMIC_CACHE_NAME).lookup sampleImage.url = none ∧
    partialNetwork sampleImage = Except.ok partialResponse ∧
    (staleWhileRevalidate (Env.browser partialNetwork 5000 sampleOrigin) sampleImage
        (some sampleRule) emptyWorld).1
      = Except.error (JsError.error "TypeError: the response cannot be stored") ∧
    (staleWhileRevalidate brokenOpenEnv sampleImage (some sampleRule) emptyWorld).2.fetched
      = [] :=
  ⟨rfl, rfl, rfl, rfl⟩

/-- C12, as amended. The function `staleWhileRevalidate`, for every cache state and store and
every request `cache.put` takes (a GET over http or https, as the `fetch` listener hands
on). If `caches.open` or `cache.match` fails it rejects with the storage error and
nothing is passed to `fetch`; otherwise the request is passed to `fetch` exactly once. Its
outcome is then the cached entry whenever the Dynamic cache has one, whatever the refresh
does; with no cached entry it is the outcome of `fetchAndCache`: the error of the fetch if
the fetch fails, the response if it is not `ok`, and for an `ok` response the response if
storing it succeeds and otherwise the error of the store (a failing `cache.put`,
`cache.keys` or `cache.delete`, or the `TypeError` of a response `cache.put` refuses). On
a store none of whose operations fails, with nothing cached: the outcome of the fetch,
unless the response is `ok` and refused by `cache.put`. -/
theorem staleWhileRevalidate_outcome_any_store (env : Env) (request : Request)
    (rule : Option Rule) (w : World) (hreq : cacheable request = true) :
    (staleWhileRevalidate env request rule w).2.fetched
      = (if env.fails StoreOp.cachesOpen || env.fails StoreOp.cacheMatch then w.fetched
        else w.fetched ++ [request]) ∧
    (staleWhileRevalidate env request rule w).1
      = (if env.fails StoreOp.cachesOpen then
          Except.error (JsError.storage StoreOp.cachesOpen)
        else if env.fails StoreOp.cacheMatch then
          Except.error (JsError.storage StoreOp.cacheMatch)
        else
          match (w.cache DYNAMIC_CACHE_NAME).lookup request.url with
          | some cached => Except.ok cached
          | none =>
            match env.network request with
            | Except.error e => Except.error e
            | Except.ok response =>
              if response.ok then
                match storeError env request.url response rule
                    (w.cache DYNAMIC_CACHE_NAME) with
                | none => Except.ok response
                | some e => Except.error e
              else Except.ok response) ∧
    ((∀ op, env.fails op = false) →
      (staleWhileRevalidate env request rule w).1
        = match (w.cache DYNAMIC_CACHE_NAME).lookup request.url with
          | some cached => Except.ok cached
          | none =>
            match env.network request with
            | Except.error e => Except.error e
            | Except.ok response =>
              if response.ok && (env.checks && putRefuses response) then
                Except.error (JsError.error "TypeError: the response cannot be stored")
              else Except.ok response) := by
  obtain ⟨w1, h1, _, _, h4⟩ := fetchAndCache_any env DYNAMIC_CACHE_NAME request rule
    (w.ensure DYNAMIC_CACHE_NAME) hreq
  have hout : (staleWhileRevalidate env request rule w).1
      = (if env.fails StoreOp.cachesOpen then
          Except.error (JsError.storage StoreOp.cachesOpen)
        else if env.fails StoreOp.cacheMatch then
          Except.error (JsError.storage StoreOp.cacheMatch)
        else
          match (w.cache DYNAMIC_CACHE_NAME).lookup request.url with
          | some cached => Except.ok cached
          | none =>
            match env.network request with
            | Except.error e => Except.error e
            | Except.ok response =>
              if response.ok then
                match storeError env request.url response rule
                    (w.cache DYNAMIC_CACHE_NAME) with
                | none => Except.ok response
                | some e => Except.error e
              else Except.ok response) := by
    rw [staleWhileRevalidate_any]
    by_cases ho : env.fails StoreOp.cachesOpen = true
    · simp only [ho, if_true]
    · have ho1 : env.fails StoreOp.cachesOpen = false := by simpa using ho
      by_cases hm : env.fails StoreOp.cacheMatch = true
      · simp only [ho1, hm, if_true, Bool.false_eq_true, if_false]
      · have hm1 : env.fails StoreOp.cacheMatch = false := by simpa using hm
        simp only [ho1, hm1, Bool.false_eq_true, if_false, h1, World.cache_ensure]
  refine ⟨?_, hout, ?_⟩
  · rw [staleWhileRevalidate_any]
    by_cases ho : env.fails StoreOp.cachesOpen = true
    · simp only [ho, if_true, Bool.true_or]
    · have ho1 : env.fails StoreOp.cachesOpen = false := by simpa using ho
      by_cases hm : env.fails StoreOp.cacheMatch = true
      · simp only [ho1, hm, if_true, Bool.false_eq_true, if_false, Bool.or_true,
          World.fetched_ensure]
      · have hm1 : env.fails StoreOp.cacheMatch = false := by simpa using hm
        simp only [ho1, hm1, Bool.false_eq_true, if_false, Bool.or_self, h1, h4,
          World.fetched_ensure]
  · intro hf
    rw [hout]
    simp only [hf, Bool.false_eq_true, if_false]
    cases (w.cache DYNAMIC_CACHE_NAME).lookup request.url with
    | some cached => rfl
    | none =>
      simp only []
      cases env.network request with
      | error e => rfl
      | ok response =>
        simp only []
        by_cases hok : response.ok = true
        · by_cases hc : (env.checks && putRefuses response) = true
          · simp only [hok, hc, if_true, storeError, hf, Bool.false_eq_true, if_false,
              Bool.and_self]
          · have hc1 : (env.checks && putRefuses response) = false := by simpa using hc
            simp only [hok, hc1, if_true, storeError, hf, Bool.false_eq_true, if_false,
              Bool.and_false]
            cases truthy (rule.bind Rule.maxEntries) with
            | none => rfl
            | some N => rfl
        · have hok1 : response.ok = false := by simpa using hok
          simp only [hok1, Bool.false_eq_true, if_false, Bool.false_and]

/-- Witness of C12 as amended: a browser whose store works, nothing cached, and a response
with `Vary: *`. -/
theorem staleWhileRevalidate_outcome_any_store_witness :
    (staleWhileRevalidate (Env.browser variedNetwork 5000 sampleOrigin) sampleImage
        (some sampleRule) emptyWorld).1
      = Except.error (JsError.error "TypeError: the response cannot be stored") :=
  ((staleWhileRevalidate_outcome_any_store (Env.browser variedNetwork 5000 sampleOrigin)
    sampleImage (some sampleRule) emptyWorld rfl).2.2 (fun _ => rfl)).trans rfl

/-! ## The fallback and the request handler on any store -/

/-- The fallback for a navigation, with any store. -/
theorem getOfflineFallback_navigate_any (env : Env) (request : Request) (w : World)
    (hnav : request.mode = "navigate") :
    getOfflineFallback env request w
      = (if env.fails StoreOp.cachesOpen then
          (Except.error (JsError.storage StoreOp.cachesOpen), w)
        else if env.fails StoreOp.cacheMatch then
          (Except.error (JsError.storage StoreOp.cacheMatch), w.ensure STATIC_CACHE_NAME)
        else
          (match (w.cache STATIC_CACHE_NAME).lookup (env.origin ++ "/") with
            | some shell => Except.ok shell
            | none => Except.ok offlineResponse,
           w.ensure STATIC_CACHE_NAME)) := by
  by_cases ho : env.fails StoreOp.cachesOpen = true
  · simp only [ho, if_true]
    simp only [getOfflineFallback, hnav, if_true, SW.bind_eq]
    exact SW.bind_of_error _ _ _ _ _ (cachesOpen_fails env _ w ho)
  · have ho1 : env.fails StoreOp.cachesOpen = false := by simpa using ho
    by_cases hm : env.fails StoreOp.cacheMatch = true
    · simp only [ho1, hm, if_true, Bool.false_eq_true, if_false]
      simp only [getOfflineFallback, hnav, if_true, SW.bind_eq]
      rw [SW.bind_of_ok _ _ _ _ _ (cachesOpen_works env _ w ho1)]
      exact SW.bind_of_error _ _ _ _ _ (cacheMatch_fails env _ _ _ hm)
    · have hm1 : env.fails StoreOp.cacheMatch = false := by simpa using hm
      simp only [ho1, hm1, Bool.false_eq_true, if_false]
      simp only [getOfflineFallback, hnav, if_true, SW.bind_eq]
      rw [SW.bind_of_ok _ _ _ _ _ (cachesOpen_works env _ w ho1),
        SW.bind_of_ok _ _ _ _ _ (cacheMatch_works env _ _ _ hm1)]
      simp only [World.cache_ensure]
      cases (w.cache STATIC_CACHE_NAME).lookup (env.origin ++ "/") with
      | some shell => rfl
      | none => rfl

/-- When the fallback fails and with what, by the kind of the request, with any store. -/
theorem getOfflineFallback_fails_any (env : Env) (request : Request) (w : World) :
    ((∃ e, (getOfflineFallback env request w).1 = Except.error e)
      ↔ ((request.mode ≠ "navigate" ∧ request.destination ≠ "image") ∨
          (request.mode = "navigate" ∧
            (env.fails StoreOp.cachesOpen = true ∨ env.fails StoreOp.cacheMatch = true)))) ∧
    (∀ e, (getOfflineFallback env request w).1 = Except.error e →
      e = (if request.mode = "navigate" then
            (if env.fails StoreOp.cachesOpen then JsError.storage StoreOp.cachesOpen
             else JsError.storage StoreOp.cacheMatch)
          else JsError.error "Resource not available offline")) := by
  by_cases hnav : request.mode = "navigate"
  · rw [getOfflineFallback_navigate_any env request w hnav]
    by_cases ho : env.fails StoreOp.cachesOpen = true
    · simp only [ho, if_true, hnav]
      exact ⟨⟨fun _ => Or.inr ⟨trivial, Or.inl trivial⟩, fun _ => ⟨_, rfl⟩⟩,
        fun e h => (by cases h; rfl)⟩
    · have ho1 : env.fails StoreOp.cachesOpen = false := by simpa using ho
      by_cases hm : env.fails StoreOp.cacheMatch = true
      · simp only [ho1, hm, if_true, hnav, Bool.false_eq_true, if_false]
        exact ⟨⟨fun _ => Or.inr ⟨trivial, Or.inr trivial⟩, fun _ => ⟨_, rfl⟩⟩,
          fun e h => (by cases h; rfl)⟩
      · have hm1 : env.fails StoreOp.cacheMatch = false := by simpa using hm
        simp only [ho1, hm1, hnav, Bool.false_eq_true, if_false, if_true]
        cases (w.cache STATIC_CACHE_NAME).lookup (env.origin ++ "/") with
        | some shell =>
          refine ⟨⟨fun ⟨e, h⟩ => (by cases h), fun h => ?_⟩, fun e h => (by cases h)⟩
          rcases h with h | h
          · exact absurd rfl h.1
          · rcases h.2 with h | h
            · cases h
            · cases h
        | none =>
          refine ⟨⟨fun ⟨e, h⟩ => (by cases h), fun h => ?_⟩, fun e h => (by cases h)⟩
          rcases h with h | h
          · exact absurd rfl h.1
          · rcases h.2 with h | h
            · cases h
            · cases h
  · by_cases himg : request.destination = "image"
    · rw [getOfflineFallback_image env request w hnav himg]
      refine ⟨⟨fun ⟨e, h⟩ => (by cases h), fun h => ?_⟩, fun e h => (by cases h)⟩
      rcases h with h | h
      · exact absurd himg h.2
      · exact absurd h.1 hnav
    · rw [getOfflineFallback_other env request w hnav himg]
      simp only [hnav, if_false]
      exact ⟨⟨fun _ => Or.inl ⟨hnav, himg⟩, fun _ => ⟨_, rfl⟩⟩, fun e h => (by cases h; rfl)⟩

/-- Counterexample to C18 as stated: `caches.open` rejects and the request is a navigation. The
strategy fails, and so does `handleRequest`, with the storage error: the fallback for a
navigation opens the Static cache. -/
theorem handleRequest_navigation_rejects :
    samplePage.mode = "navigate" ∧
    (strategyCall CACHE_RULES brokenOpenEnv samplePage emptyWorld).1
      = Except.error (JsError.storage StoreOp.cachesOpen) ∧
    (handleRequest CACHE_RULES brokenOpenEnv samplePage emptyWorld).1
      = Except.error (JsError.storage StoreOp.cachesOpen) ∧
    JsError.storage StoreOp.cachesOpen ≠ JsError.error "Resource not available offline" := by
  refine ⟨rfl, rfl, rfl, ?_⟩
  decide

/-- C18, as amended. When the selected strategy succeeds, `handleRequest` returns its
response; when it fails, the outcome of `handleRequest` is the outcome of
`getOfflineFallback` for the request. So, with any store, `handleRequest` fails exactly
when the strategy fails and either the request is neither a navigation nor an image
request, or it is a navigation and `caches.open` or `cache.match` fails. In the first case
the error is "Resource not available offline", in the second the error of the store. -/
theorem handleRequest_outcome_any_store (rules : List Rule) (env : Env) (request : Request)
    (w : World) :
    (∀ response w1, strategyCall rules env request w = (Except.ok response, w1) →
      handleRequest rules env request w = (Except.ok response, w1)) ∧
    (∀ e w1, strategyCall rules env request w = (Except.error e, w1) →
      handleRequest rules env request w = getOfflineFallback env request w1) ∧
    ((∃ e, (handleRequest rules env request w).1 = Except.error e)
      ↔ ((∃ e, (strategyCall rules env request w).1 = Except.error e) ∧
          ((request.mode ≠ "navigate" ∧ request.destination ≠ "image") ∨
            (request.mode = "navigate" ∧
              (env.fails StoreOp.cachesOpen = true ∨
                env.fails StoreOp.cacheMatch = true))))) ∧
    (∀ e, (handleRequest rules env request w).1 = Except.error e →
      e = (if request.mode = "navigate" then
            (if env.fails StoreOp.cachesOpen then JsError.storage StoreOp.cachesOpen
             else JsError.storage StoreOp.cacheMatch)
          else JsError.error "Resource not available offline")) := by
  have hok : ∀ response w1, strategyCall rules env request w = (Except.ok response, w1) →
      handleRequest rules env request w = (Except.ok response, w1) := by
    intro response w1 h
    rw [handleRequest_eq]
    exact tryCatch_of_ok _ _ _ _ _ h
  have herr : ∀ e w1, strategyCall rules env request w = (Except.error e, w1) →
      handleRequest rules env request w = getOfflineFallback env request w1 := by
    intro e w1 h
    rw [handleRequest_eq]
    exact tryCatch_of_error _ _ _ _ _ h
  refine ⟨hok, herr, ?_, ?_⟩
  · cases hs : strategyCall rules env request w with
    | mk r w1 =>
      cases r with
      | ok response =>
        rw [hok response w1 hs]
        exact ⟨fun ⟨e, h⟩ => (by cases h), fun ⟨⟨e, h⟩, _⟩ => by cases h⟩
      | error e0 =>
        rw [herr e0 w1 hs]
        have := (getOfflineFallback_fails_any env request w1).1
        exact ⟨fun h => ⟨⟨e0, rfl⟩, this.mp h⟩, fun h => this.mpr h.2⟩
  · intro e
    cases hs : strategyCall rules env request w with
    | mk r w1 =>
      cases r with
      | ok response =>
        rw [hok response w1 hs]
        intro h; cases h
      | error e0 =>
        rw [herr e0 w1 hs]
        exact (getOfflineFallback_fails_any env request w1).2 e

/-- Witness of C18 as amended: offline, a script that is not cached; the strategy fails and
so does `handleRequest`. -/
theorem handleRequest_outcome_any_store_witness :
    (strategyCall CACHE_RULES (Env.browser offlineNetwork 5000 sampleOrigin) sampleApiScript
        emptyWorld).1 = Except.error (JsError.network "Failed to fetch") ∧
    (handleRequest CACHE_RULES (Env.browser offlineNetwork 5000 sampleOrigin) sampleApiScript
        emptyWorld).1 = Except.error (JsError.error "Resource not available offline") :=
  ⟨rfl,
   (congrArg Prod.fst
      ((handleRequest_outcome_any_store CACHE_RULES
        (Env.browser offlineNetwork 5000 sampleOrigin) sampleApiScript emptyWorld).2.1
        (JsError.network "Failed to fetch")
        (strategyCall CACHE_RULES (Env.browser offlineNetwork 5000 sampleOrigin)
          sampleApiScript emptyWorld).2 rfl)).trans rfl⟩

/-- Counterexample to C19 as stated: `caches.open` rejects, the request is a navigation, and the
Static cache holds the shell page. The fallback rejects with the storage error. -/
theorem getOfflineFallback_navigation_rejects :
    samplePage.mode = "navigate" ∧
    (shellWorld.cache STATIC_CACHE_NAME).lookup (brokenOpenEnv.origin ++ "/")
      = some sampleResponse ∧
    getOfflineFallback brokenOpenEnv samplePage shellWorld
      = (Except.error (JsError.storage StoreOp.cachesOpen), shellWorld) ∧
    (getOfflineFallback brokenMatchEnv samplePage shellWorld).1
      = Except.error (JsError.storage StoreOp.cacheMatch) :=
  ⟨rfl, rfl, rfl, rfl⟩

/-- C19, as amended. For a navigation request, `getOfflineFallback` passes nothing to `fetch`
and leaves the entries of every cache as they were. When `caches.open` and `cache.match`
work, it returns the entry the Static cache holds for `/` when there is one, and otherwise
a made-up response of status 503, and it does not fail. It fails exactly when `caches.open`
or `cache.match` fails, and then with the error of the store. -/
theorem getOfflineFallback_navigation_any_store (env : Env) (request : Request) (w : World)
    (hnav : request.mode = "navigate") :
    (getOfflineFallback env request w).1
      = (if env.fails StoreOp.cachesOpen then
          Except.error (JsError.storage StoreOp.cachesOpen)
        else if env.fails StoreOp.cacheMatch then
          Except.error (JsError.storage StoreOp.cacheMatch)
        else
          match (w.cache STATIC_CACHE_NAME).lookup (env.origin ++ "/") with
          | some shell => Except.ok shell
          | none => Except.ok offlineResponse) ∧
    offlineResponse.status = 503 ∧
    ((∃ e, (getOfflineFallback env request w).1 = Except.error e)
      ↔ (env.fails StoreOp.cachesOpen = true ∨ env.fails StoreOp.cacheMatch = true)) ∧
    (getOfflineFallback env request w).2.fetched = w.fetched ∧
    (∀ name, (getOfflineFallback env request w).2.cache name = w.cache name) := by
  have hiff := (getOfflineFallback_fails_any env request w).1
  refine ⟨?_, rfl, ?_, ?_, ?_⟩
  · rw [getOfflineFallback_navigate_any env request w hnav]
    by_cases ho : env.fails StoreOp.cachesOpen = true
    · simp only [ho, if_true]
    · have ho1 : env.fails StoreOp.cachesOpen = false := by simpa using ho
      by_cases hm : env.fails StoreOp.cacheMatch = true
      · simp only [ho1, hm, if_true, Bool.false_eq_true, if_false]
      · have hm1 : env.fails StoreOp.cacheMatch = false := by simpa using hm
        simp only [ho1, hm1, Bool.false_eq_true, if_false]
  · refine hiff.trans ⟨fun h => ?_, fun h => Or.inr ⟨hnav, h⟩⟩
    rcases h with h | h
    · exact absurd hnav h.1
    · exact h.2
  · rw [getOfflineFallback_navigate_any env request w hnav]
    by_cases ho : env.fails StoreOp.cachesOpen = true
    · simp only [ho, if_true]
    · have ho1 : env.fails StoreOp.cachesOpen = false := by simpa using ho
      by_cases hm : env.fails StoreOp.cacheMatch = true
      · simp only [ho1, hm, if_true, Bool.false_eq_true, if_false, World.fetched_ensure]
      · have hm1 : env.fails StoreOp.cacheMatch = false := by simpa using hm
        simp only [ho1, hm1, Bool.false_eq_true, if_false, World.fetched_ensure]
  · intro name
    rw [getOfflineFallback_navigate_any env request w hnav]
    by_cases ho : env.fails StoreOp.cachesOpen = true
    · simp only [ho, if_true]
    · have ho1 : env.fails StoreOp.cachesOpen = false := by simpa using ho
      by_cases hm : env.fails StoreOp.cacheMatch = true
      · simp only [ho1, hm, if_true, Bool.false_eq_true, if_false, World.cache_ensure]
      · have hm1 : env.fails StoreOp.cacheMatch = false := by simpa using hm
        simp only [ho1, hm1, Bool.false_eq_true, if_false, World.cache_ensure]

/-- Witness of C19 as amended: a navigation with the shell page in the Static cache, in a
browser whose store works. -/
theorem getOfflineFallback_navigation_any_store_witness :
    (getOfflineFallback (Env.browser offlineNetwork 5000 sampleOrigin) samplePage
        shellWorld).1 = Except.ok sampleResponse :=
  (getOfflineFallback_navigation_any_store (Env.browser offlineNetwork 5000 sampleOrigin)
    samplePage shellWorld rfl).1

end ServiceWorker
